import Mathlib

/-!
# allok: a pool / block allocator

Shallow embedding of `src/src/allok.c` and `src/include/allok.h`.

Target: the `__x86_64__ / __aarch64__` branch of `allok.h`, where `AllokSize` is
`unsigned long` (64 bits) and every pointer is 8 bytes, so that
`sizeof(AkMemoryBlock) = 40`, `sizeof(AkMemoryPool) = 64`, `sizeof(AkMemoryMap) = 56`
and `sizeof(AkMemoryArena) = 48`.

Conventions of the embedding.
* Addresses are natural numbers, `0` is `ALLOK_NULL`.  Every value stored in an
  `AllokSize`, the cast of a pointer difference included, is reduced modulo `2 ^ 64`, and
  so are the pointer sums that the code compares: `a + size_a` in `get_ptr_fragment`, the
  pool end `p_start + alloc_size` of the suffix checks, and `p_start + size` in
  `is_ptr_in_range`.  The address of a header (`p_start + offset` in
  `akMemoryBlockCreate`) and the field `p_start` of a block are kept exact: they agree
  with the machine as long as the pool region ends below `2 ^ 64`.
* The block list of a pool (`p_head`, then `p_next` links) is a `List AkMemoryBlock`,
  head first; `p_tail` is the last element.  The pool list of a map is a
  `List AkMemoryPool` in the same way.
* A `while` loop whose body can `continue` without advancing returns `none`
  on the path that spins forever; `some r` is a terminated call with result `r`.
* The operating system is a script of answers to `os_mem_alloc`, consumed one per call.
* The `int` metadata counters are mathematical integers.
-/

set_option autoImplicit false

namespace Allok

/-! ## Machine parameters -/

/-- Width in bits of `AllokSize`. -/
abbrev W : Nat := 64

/-- The value of `sizeof(AkMemoryBlock)`: one `AllokSize` and four pointers. -/
abbrev header_size : Nat := 40

/-- The value of `sizeof(AkMemoryPool)`: two `AllokSize` and six pointers. -/
abbrev pool_header_size : Nat := 64

/-- The value of `sizeof(AkMemoryMap)`. -/
abbrev map_header_size : Nat := 56

/-- The value of `sizeof(AkMemoryArena)`. -/
abbrev arena_header_size : Nat := 48

/-- The macro `ALLOK_DEFAULT_POOL_COUNT`. -/
abbrev ALLOK_DEFAULT_POOL_COUNT : Nat := 0

/-- The macro `ALLOK_DEFAULT_POOL_SIZE`, `8 * 1024`. -/
abbrev ALLOK_DEFAULT_POOL_SIZE : Nat := 8 * 1024

/-- Unsigned addition on `AllokSize`. -/
def uadd (a b : Nat) : Nat := (a + b) % 2 ^ W

/-- Unsigned subtraction on `AllokSize` (two's complement). -/
def usub (a b : Nat) : Nat := (a + (2 ^ W - b % 2 ^ W)) % 2 ^ W

/-- The cast `(AllokSize)(a - b)` of a pointer difference. -/
def ptr_diff (a b : Nat) : Nat := (a + (2 ^ W - b % 2 ^ W)) % 2 ^ W

/-- The helper `max_size`. -/
def max_size (a b : Nat) : Nat := if a > b then a else b

/-- The helper `min_size`. -/
def min_size (a b : Nat) : Nat := if a < b then a else b

/-! ## Result codes and parameters -/

/-- The enum `AllokResult`. -/
inductive AllokResult where
  | ALLOK_SUCCESS
  | ALLOK_NOT_FOUND
  | ALLOK_NULL_PARAM
  | ALLOK_INVALID_SIZE
  | ALLOK_INVALID_ADDR
  | ALLOK_UNINITIALIZED
  | ALLOK_INSUFFICIENT_ARENA_MEMORY
  | ALLOK_INSUFFICIENT_POOL_MEMORY
  | ALLOK_OS_MEMORY_ALLOC_FAILED
  deriving DecidableEq, Repr

/-- The enum `AllokType`. -/
inductive AllokType where
  | ALLOK_LINEAR_FIT
  | ALLOK_FIRST_FIT
  | ALLOK_BEST_FIT
  | ALLOK_WORST_FIT
  deriving DecidableEq, Repr

open AllokResult AllokType

/-- The struct `AkMemoryMapParams`. -/
structure AkMemoryMapParams where
  type : AllokType
  is_dynamic : Bool
  deriving DecidableEq, Repr

/-- The struct `AkMemoryMapMetadata`. -/
structure AkMemoryMapMetadata where
  blocks_created : Int
  blocks_freed : Int
  pools_created : Int
  pools_freed : Int
  deriving DecidableEq, Repr

/-! ## Blocks and pools -/

/-- A block header living at address `addr`; `p_next`, `p_prev` and `p_parent` are the
position of the block in its pool's list. -/
structure AkMemoryBlock where
  addr : Nat
  size : Nat
  deriving DecidableEq, Repr

/-- The field `p_start` of a block, always written as `(char *)block + sizeof(AkMemoryBlock)`. -/
def AkMemoryBlock.p_start (b : AkMemoryBlock) : Nat := b.addr + header_size

/-- End of payload of a block, `p_start + size`. -/
def AkMemoryBlock.p_end (b : AkMemoryBlock) : Nat := b.p_start + b.size

/-- A pool header living at address `addr`, with its block list. -/
structure AkMemoryPool where
  addr : Nat
  alloc_size : Nat
  size : Nat
  blocks : List AkMemoryBlock
  deriving DecidableEq, Repr

/-- The field `p_start` of a pool, `(AllokByte *)pool + sizeof(AkMemoryPool)`. -/
def AkMemoryPool.p_start (p : AkMemoryPool) : Nat := p.addr + pool_header_size

/-- One past the last byte of the pool region, `p_start + alloc_size`. -/
def AkMemoryPool.p_end (p : AkMemoryPool) : Nat := p.p_start + p.alloc_size

/-- The function `get_ptr_fragment`: `none` is `ALLOK_INVALID_ADDR`.  The pointer sum
`a + size_a` is taken in a machine word. -/
def get_ptr_fragment (a size_a b : Nat) : Option Nat :=
  let end_a := (a + size_a) % 2 ^ W
  if end_a > b then none else some ((b - end_a) % 2 ^ W)

/-- The function `is_ptr_in_range`; the pointer sum `p_start + size` is taken in a machine
word. -/
def is_ptr_in_range (ptr p_start size : Nat) : Bool :=
  if ptr = 0 ∨ p_start = 0 then false
  else decide (ptr ≥ p_start ∧ ptr < (p_start + size) % 2 ^ W)

/-! ## Fit search -/

/-- The `while (curr != ALLOK_NULL)` loop of `alloc_first_fit`: `rest` is the list from
`curr` on.  `some (some off)` is an early `return ALLOK_TRUE`, `some none` is a normal
loop exit, `none` is the `continue` that never advances. -/
def first_fit_loop (p_start alloc_size : Nat) :
    AkMemoryBlock → List AkMemoryBlock → Option (Option Nat)
  | _, [] => some none
  | prev, curr :: rest =>
    match get_ptr_fragment prev.p_start prev.size curr.addr with
    | none => none
    | some frag_size =>
      if frag_size ≥ alloc_size then
        some (some (ptr_diff (prev.p_start + prev.size) p_start))
      else first_fit_loop p_start alloc_size curr rest

/-- The tail check shared by the three scanning policies:
`get_ptr_fragment(tail->p_start, tail->size, p_start + alloc_size, &frag_size)`, with the
pointer sum `p_start + alloc_size` taken in a machine word. -/
def tail_fragment (p : AkMemoryPool) (tail : AkMemoryBlock) : Option Nat :=
  get_ptr_fragment tail.p_start tail.size ((p.p_start + p.alloc_size) % 2 ^ W)

/-- The part of `alloc_first_fit` from the interior loop on, with `prev` the block before
the loop cursor: the loop, then the check of the gap behind `p_tail`. -/
def first_fit_tail (p : AkMemoryPool) (alloc_size : Nat) (prev : AkMemoryBlock)
    (rest : List AkMemoryBlock) : Option (Option Nat) :=
  let tail := (prev :: rest).getLast (List.cons_ne_nil prev rest)
  match first_fit_loop p.p_start alloc_size prev rest with
  | none => none
  | some (some off) => some (some off)
  | some none =>
    match tail_fragment p tail with
    | some frag_size =>
      if frag_size ≥ alloc_size then
        some (some (ptr_diff (tail.p_start + tail.size) p.p_start))
      else some none
    | none => some none

/-- The function `alloc_first_fit`; the inner option is the offset written on `ALLOK_TRUE`. -/
def alloc_first_fit (p : AkMemoryPool) (size : Nat) : Option (Option Nat) :=
  let alloc_size := uadd header_size size
  match p.blocks with
  | [] => some (if p.alloc_size ≥ alloc_size then some 0 else none)
  | head :: rest =>
    let pre : Option Nat :=
      match get_ptr_fragment p.p_start 0 head.addr with
      | some frag_size => if frag_size ≥ alloc_size then some 0 else none
      | none => none
    match pre with
    | some off => some (some off)
    | none => first_fit_tail p alloc_size head rest

/-- Loop state of `alloc_best_fit` and `alloc_worst_fit`:
`best_size`, `best_fit_offset`, `block_found`. -/
structure ScanState where
  best_size : Nat
  best_fit_offset : Nat
  block_found : Bool
  deriving DecidableEq, Repr

/-- The `while` loop of `alloc_best_fit`; `none` is the `continue` that never advances. -/
def best_fit_loop (p_start alloc_size : Nat) :
    ScanState → AkMemoryBlock → List AkMemoryBlock → Option ScanState
  | st, _, [] => some st
  | st, prev, curr :: rest =>
    match get_ptr_fragment prev.p_start prev.size curr.addr with
    | none => none
    | some frag_size =>
      let st1 : ScanState :=
        if frag_size ≥ alloc_size ∧ frag_size < st.best_size then
          ⟨frag_size, ptr_diff (prev.p_start + prev.size) p_start, true⟩
        else st
      best_fit_loop p_start alloc_size st1 curr rest

/-- The function `alloc_best_fit`. -/
def alloc_best_fit (p : AkMemoryPool) (size : Nat) : Option (Option Nat) :=
  let alloc_size := uadd header_size size
  match p.blocks with
  | [] => some (if p.alloc_size ≥ alloc_size then some 0 else none)
  | head :: rest =>
    let tail := (head :: rest).getLast (List.cons_ne_nil head rest)
    let st0 : ScanState :=
      match get_ptr_fragment p.p_start 0 head.addr with
      | some frag_size =>
        if frag_size ≥ alloc_size then ⟨frag_size, 0, false⟩ else ⟨p.alloc_size, 0, false⟩
      | none => ⟨p.alloc_size, 0, false⟩
    match best_fit_loop p.p_start alloc_size st0 head rest with
    | none => none
    | some st =>
      let suffix_hit : Option Nat :=
        match tail_fragment p tail with
        | some frag_size =>
          if frag_size ≥ alloc_size ∧ frag_size < st.best_size then
            some (ptr_diff (tail.p_start + tail.size) p.p_start)
          else none
        | none => none
      match suffix_hit with
      | some off => some (some off)
      | none => if st.block_found then some (some st.best_fit_offset) else some none

/-- The `while` loop of `alloc_worst_fit`. -/
def worst_fit_loop (p_start alloc_size : Nat) :
    ScanState → AkMemoryBlock → List AkMemoryBlock → Option ScanState
  | st, _, [] => some st
  | st, prev, curr :: rest =>
    match get_ptr_fragment prev.p_start prev.size curr.addr with
    | none => none
    | some frag_size =>
      let st1 : ScanState :=
        if frag_size ≥ alloc_size ∧ frag_size > st.best_size then
          ⟨frag_size, ptr_diff (prev.p_start + prev.size) p_start, true⟩
        else st
      worst_fit_loop p_start alloc_size st1 curr rest

/-- The function `alloc_worst_fit`; `best_size` holds `worst_size`. -/
def alloc_worst_fit (p : AkMemoryPool) (size : Nat) : Option (Option Nat) :=
  let alloc_size := uadd header_size size
  match p.blocks with
  | [] => some (if p.alloc_size ≥ alloc_size then some 0 else none)
  | head :: rest =>
    let tail := (head :: rest).getLast (List.cons_ne_nil head rest)
    let st0 : ScanState :=
      match get_ptr_fragment p.p_start 0 head.addr with
      | some frag_size =>
        if frag_size ≥ alloc_size then ⟨frag_size, 0, false⟩ else ⟨0, 0, false⟩
      | none => ⟨0, 0, false⟩
    match worst_fit_loop p.p_start alloc_size st0 head rest with
    | none => none
    | some st =>
      let suffix_hit : Option Nat :=
        match tail_fragment p tail with
        | some frag_size =>
          if frag_size ≥ alloc_size ∧ frag_size > st.best_size then
            some (ptr_diff (tail.p_start + tail.size) p.p_start)
          else none
        | none => none
      match suffix_hit with
      | some off => some (some off)
      | none => if st.block_found then some (some st.best_fit_offset) else some none

/-- The function `alloc_linear_fit`: `none` is `ALLOK_FALSE`. -/
def alloc_linear_fit (p : AkMemoryPool) (size : Nat) : Option Nat :=
  let alloc_size := uadd header_size size
  match p.blocks.getLast? with
  | none => some 0
  | some tail =>
    let block_offset := ptr_diff (tail.p_start + tail.size) p.p_start
    if uadd block_offset alloc_size > p.alloc_size then none else some block_offset

/-- The function `find_block_fit`, with `g_map->params.type` passed as `type`. -/
def find_block_fit (type : AllokType) (p : AkMemoryPool) (size : Nat) : Option (Option Nat) :=
  match type with
  | ALLOK_FIRST_FIT => alloc_first_fit p size
  | ALLOK_BEST_FIT => alloc_best_fit p size
  | ALLOK_WORST_FIT => alloc_worst_fit p size
  | ALLOK_LINEAR_FIT => some (alloc_linear_fit p size)

/-! ## Operating system, arena and map -/

/-- One call that reached the operating system. -/
inductive OsEvent where
  | acquire (addr size : Nat)
  | release (addr size : Nat)
  deriving DecidableEq, Repr

/-- The operating system: the answers still to be given to `os_mem_alloc`
(`0` is a refusal) and the calls made so far. -/
structure Os where
  script : List Nat
  trace : List OsEvent
  deriving DecidableEq, Repr

/-- The function `os_mem_alloc`: the next scripted answer, `ALLOK_NULL` once the script is
exhausted. -/
def os_mem_alloc (os : Os) (size : Nat) : Nat × Os :=
  match os.script with
  | [] => (0, os)
  | a :: rest =>
    (a, { script := rest,
          trace := if a = 0 then os.trace else os.trace ++ [OsEvent.acquire a size] })

/-- The function `os_mem_free`. -/
def os_mem_free (os : Os) (ptr size : Nat) : Os :=
  { os with trace := os.trace ++ [OsEvent.release ptr size] }

/-- The struct `AkMemoryArena` (sibling links omitted: the map arena has none). -/
structure AkMemoryArena where
  addr : Nat
  alloc_size : Nat
  size : Nat
  p_start : Nat
  p_current : Nat
  deriving DecidableEq, Repr

/-- The struct `AkMemoryMap`; `pools` is the list from `p_pool_head`. -/
structure AkMemoryMap where
  params : AkMemoryMapParams
  metadata : AkMemoryMapMetadata
  pool_count : Nat
  pools : List AkMemoryPool
  deriving DecidableEq, Repr

/-- The process-wide state: `g_map`, `g_map_arena` and the operating system. -/
structure World where
  g_map : Option AkMemoryMap
  g_map_arena : Option AkMemoryArena
  os : Os
  deriving DecidableEq, Repr

/-- The function `akMemoryArenaAlloc`. -/
def akMemoryArenaAlloc (os : Os) (size : Nat) : AllokResult × Option AkMemoryArena × Os :=
  let alloc_size := uadd size arena_header_size
  let r := os_mem_alloc os alloc_size
  if r.1 = 0 then (ALLOK_OS_MEMORY_ALLOC_FAILED, none, r.2)
  else
    (ALLOK_SUCCESS,
     some { addr := r.1, alloc_size := size, size := 0,
            p_start := r.1 + arena_header_size, p_current := r.1 + arena_header_size },
     r.2)

/-- The function `akMemoryArenaClaim` on a non-null arena: result code, claimed address,
arena afterwards. -/
def akMemoryArenaClaim (a : AkMemoryArena) (size : Nat) : AllokResult × Nat × AkMemoryArena :=
  if a.alloc_size < size ∨ uadd a.size size > a.alloc_size then
    (ALLOK_INSUFFICIENT_ARENA_MEMORY, 0, a)
  else
    (ALLOK_SUCCESS, a.p_current,
     { a with size := uadd a.size size, p_current := a.p_current + size })

/-- The function `akMemoryArenaDestroy` with `recursive = ALLOK_FALSE` on an arena
without siblings. -/
def akMemoryArenaDestroy (os : Os) (a : Option AkMemoryArena) : Os :=
  match a with
  | none => os
  | some arena => os_mem_free os arena.addr (uadd arena.alloc_size arena_header_size)

/-- The function `akMemoryArenaReset` on a non-null arena. -/
def akMemoryArenaReset (a : AkMemoryArena) : AllokResult × AkMemoryArena :=
  (ALLOK_SUCCESS, { a with size := 0, p_current := a.p_start })

/-- The function `akMemoryArenaFree` with `auto_destroy = ALLOK_FALSE` on a non-null arena:
`pp_target` is the address of the caller's handle, `target` the address it holds.
Result code, handle afterwards, arena afterwards. -/
def akMemoryArenaFree (a : AkMemoryArena) (pp_target target size : Nat) :
    AllokResult × Nat × AkMemoryArena :=
  if a.alloc_size < size then (ALLOK_INVALID_SIZE, target, a)
  else if is_ptr_in_range target a.p_start a.size = false then
    (ALLOK_INVALID_ADDR, target, a)
  else
    let p_current := if a.p_current = pp_target + size then a.p_current - size
      else a.p_current
    let new_size := usub a.size size
    (ALLOK_SUCCESS, 0,
     { a with size := new_size,
              p_current := if new_size ≤ 0 then a.p_start else p_current })

/-! ## Blocks -/

/-- The splice of `akMemoryBlockCreate`: walk from the head while the candidate's address
is below the new block's address, then link the new block in. -/
def insert_block (b : AkMemoryBlock) : List AkMemoryBlock → List AkMemoryBlock
  | [] => [b]
  | c :: rest => if c.addr < b.addr then c :: insert_block b rest else b :: c :: rest

/-- The function `akMemoryBlockCreate` on a non-null pool: result code, pool afterwards and
the new block.  The increment of the parent map's `blocks_created` is in
`block_create_in_map`. -/
def akMemoryBlockCreate (p : AkMemoryPool) (size offset : Nat) :
    AllokResult × AkMemoryPool × Option AkMemoryBlock :=
  let block_start := p.p_start + offset
  if uadd (uadd offset size) header_size > p.alloc_size then
    (ALLOK_INSUFFICIENT_POOL_MEMORY, p, none)
  else
    let block : AkMemoryBlock := { addr := block_start, size := size }
    (ALLOK_SUCCESS,
     { p with blocks := insert_block block p.blocks,
              size := uadd p.size (uadd size header_size) },
     some block)

/-- The call `akMemoryBlockCreate(&block, pool, size, offset)` where `pool` is the pool at
position `i` of the map, including `p_parent_map->metadata.blocks_created++`. -/
def block_create_in_map (m : AkMemoryMap) (i size offset : Nat) :
    AllokResult × AkMemoryMap × Option AkMemoryBlock :=
  match m.pools[i]? with
  | none => (ALLOK_NULL_PARAM, m, none)
  | some p =>
    let r := akMemoryBlockCreate p size offset
    if r.1 ≠ ALLOK_SUCCESS then (r.1, m, none)
    else
      (ALLOK_SUCCESS,
       { m with pools := m.pools.set i r.2.1,
                metadata := { m.metadata with
                  blocks_created := m.metadata.blocks_created + 1 } },
       r.2.2)

/-- The inner loop of `akMemoryBlockFind`: position of the first block whose `p_start`
is `ptr`. -/
def find_in_blocks (ptr : Nat) : List AkMemoryBlock → Option Nat
  | [] => none
  | b :: rest =>
    if b.p_start = ptr then some 0 else (find_in_blocks ptr rest).map (· + 1)

/-- The outer loop of `akMemoryBlockFind`: positions (pool, block) of the block found. -/
def find_in_pools (ptr : Nat) : List AkMemoryPool → Option (Nat × Nat)
  | [] => none
  | p :: rest =>
    let here : Option Nat :=
      if is_ptr_in_range ptr p.p_start p.alloc_size then find_in_blocks ptr p.blocks
      else none
    match here with
    | some j => some (0, j)
    | none => (find_in_pools ptr rest).map (fun ij => (ij.1 + 1, ij.2))

/-- The function `akMemoryBlockFind` on a non-null map: result code and, on success, the
positions (pool, block) of the block written to `*pp_result`. -/
def akMemoryBlockFind (m : AkMemoryMap) (ptr : Nat) : AllokResult × Option (Nat × Nat) :=
  if ptr = 0 then (ALLOK_NULL_PARAM, none)
  else
    match find_in_pools ptr m.pools with
    | some ij => (ALLOK_SUCCESS, some ij)
    | none => (ALLOK_NOT_FOUND, none)

/-! ## Pools -/

/-- The function `akMemoryPoolAlloc` with a non-null parent map. -/
def akMemoryPoolAlloc (os : Os) (m : AkMemoryMap) (size : Nat) :
    AllokResult × AkMemoryMap × Os :=
  let alloc_size := uadd size pool_header_size
  let r := os_mem_alloc os alloc_size
  if r.1 = 0 then (ALLOK_OS_MEMORY_ALLOC_FAILED, m, r.2)
  else
    let pool : AkMemoryPool := { addr := r.1, alloc_size := size, size := 0, blocks := [] }
    (ALLOK_SUCCESS,
     { m with pools := m.pools ++ [pool],
              pool_count := uadd m.pool_count 1,
              metadata := { m.metadata with
                pools_created := m.metadata.pools_created + 1 } },
     r.2)

/-- The function `akMemoryPoolFree` with `recursive = ALLOK_FALSE` on the pool at
position `i`. -/
def akMemoryPoolFree (m : AkMemoryMap) (os : Os) (i : Nat) : AkMemoryMap × Os :=
  match m.pools[i]? with
  | none => (m, os)
  | some pool =>
    ({ m with pools := m.pools.eraseIdx i,
              pool_count := usub m.pool_count 1,
              metadata := { m.metadata with pools_freed := m.metadata.pools_freed + 1 } },
     os_mem_free os pool.addr (uadd pool.alloc_size pool_header_size))

/-- The effect on counters and operating system of `akMemoryPoolFree` with
`recursive = ALLOK_TRUE` on a list of pools: the pools after the first are freed first. -/
def pool_free_recursive :
    List AkMemoryPool → Nat × AkMemoryMapMetadata × Os → Nat × AkMemoryMapMetadata × Os
  | [], st => st
  | pool :: rest, st =>
    let st1 := pool_free_recursive rest st
    (usub st1.1 1,
     { st1.2.1 with pools_freed := st1.2.1.pools_freed + 1 },
     os_mem_free st1.2.2 pool.addr (uadd pool.alloc_size pool_header_size))

/-- The call `akMemoryPoolFree(&map->p_pool_head, ALLOK_TRUE)`. -/
def akMemoryPoolFree_all (m : AkMemoryMap) (os : Os) : AkMemoryMap × Os :=
  let st := pool_free_recursive m.pools (m.pool_count, m.metadata, os)
  ({ m with pools := [], pool_count := st.1, metadata := st.2.1 }, st.2.2)

/-- The function `akMemoryBlockFree` on the block at position `j` of the pool at
position `i`. -/
def akMemoryBlockFree (m : AkMemoryMap) (os : Os) (i j : Nat) : AkMemoryMap × Os :=
  match m.pools[i]? with
  | none => (m, os)
  | some pool =>
    match pool.blocks[j]? with
    | none => (m, os)
    | some block =>
      let pool1 : AkMemoryPool :=
        { pool with blocks := pool.blocks.eraseIdx j,
                    size := usub pool.size (uadd block.size header_size) }
      let m1 : AkMemoryMap :=
        { m with pools := m.pools.set i pool1,
                 metadata := { m.metadata with
                   blocks_freed := m.metadata.blocks_freed + 1 } }
      if pool1.size ≤ 0 then akMemoryPoolFree m1 os i else (m1, os)

/-! ## Memory map and public interface -/

/-- The pre-creation loop of `akMemoryMapAlloc`: `n` iterations, stopping at the first
failing `akMemoryPoolAlloc`. -/
def map_alloc_pools (size : Nat) : Nat → AkMemoryMap → Os → AllokResult × AkMemoryMap × Os
  | 0, m, os => (ALLOK_SUCCESS, m, os)
  | n + 1, m, os =>
    let r := akMemoryPoolAlloc os m size
    if r.1 ≠ ALLOK_SUCCESS then r else map_alloc_pools size n r.2.1 r.2.2

/-- The function `akMemoryMapAlloc`: result code, the map and arena written to the out
parameters on success, operating system afterwards. -/
def akMemoryMapAlloc (os : Os) (init_pool_count init_pool_size : Nat)
    (params : AkMemoryMapParams) : AllokResult × Option (AkMemoryMap × AkMemoryArena) × Os :=
  let map_alloc_size := map_header_size
  let ra := akMemoryArenaAlloc os map_alloc_size
  match ra.2.1 with
  | none => (ra.1, none, ra.2.2)
  | some arena =>
    let rc := akMemoryArenaClaim arena map_alloc_size
    if rc.1 ≠ ALLOK_SUCCESS then (rc.1, none, ra.2.2)
    else
      let map : AkMemoryMap :=
        { params := { type := params.type, is_dynamic := params.is_dynamic },
          metadata := ⟨0, 0, 0, 0⟩,
          pool_count := 1,
          pools := [] }
      let rp := map_alloc_pools init_pool_size init_pool_count map ra.2.2
      if rp.1 ≠ ALLOK_SUCCESS then
        let os3 := akMemoryArenaDestroy rp.2.2 (some rc.2.2)
        (rp.1, none, (akMemoryPoolFree_all rp.2.1 os3).2)
      else (ALLOK_SUCCESS, some (rp.2.1, rc.2.2), rp.2.2)

/-- The function `akDump`. -/
def akDump (w : World) : World :=
  match w.g_map with
  | none => w
  | some m =>
    let r := akMemoryPoolFree_all m w.os
    { g_map := none, g_map_arena := none, os := akMemoryArenaDestroy r.2 w.g_map_arena }

/-- The function `akInit`. -/
def akInit (w : World) (init_pool_count init_pool_size : Nat) (params : AkMemoryMapParams) :
    AllokResult × World :=
  let w1 : World :=
    match w.g_map with
    | some m => if m.pools ≠ [] then akDump w else w
    | none => w
  let r := akMemoryMapAlloc w1.os init_pool_count init_pool_size params
  match r.2.1 with
  | some ma => (ALLOK_SUCCESS, { g_map := some ma.1, g_map_arena := some ma.2, os := r.2.2 })
  | none => (r.1, { w1 with os := r.2.2 })

/-- The pool loop of `akAlloc`: position of the first pool that passes the capacity test
and whose fit policy answers `ALLOK_TRUE`, with the offset; `none` when a fit scan
never returns. -/
def scan_pools (type : AllokType) (size block_alloc_size : Nat) :
    List AkMemoryPool → Option (Option (Nat × Nat))
  | [] => some none
  | pool :: rest =>
    let next : Option (Option (Nat × Nat)) :=
      (scan_pools type size block_alloc_size rest).map
        (fun r => r.map (fun io => (io.1 + 1, io.2)))
    if usub pool.alloc_size pool.size ≥ block_alloc_size then
      match find_block_fit type pool size with
      | none => none
      | some (some off) => some (some (0, off))
      | some none => next
    else next

/-- The body of `akAlloc` once `g_map` is known to be non-null: result code, value written
to `*pp_result` (if any), map and operating system afterwards. -/
def alloc_in_map (m : AkMemoryMap) (os : Os) (size : Nat) :
    Option (AllokResult × Option Nat × AkMemoryMap × Os) :=
  let block_alloc_size := uadd header_size size
  match scan_pools m.params.type size block_alloc_size m.pools with
  | none => none
  | some (some found) =>
    let r := block_create_in_map m found.1 size found.2
    if r.1 ≠ ALLOK_SUCCESS then some (r.1, none, r.2.1, os)
    else some (ALLOK_SUCCESS, r.2.2.map AkMemoryBlock.p_start, r.2.1, os)
  | some none =>
    if m.params.is_dynamic = false then some (ALLOK_INSUFFICIENT_POOL_MEMORY, none, m, os)
    else
      let alloc_size := max_size ALLOK_DEFAULT_POOL_SIZE block_alloc_size
      let rp := akMemoryPoolAlloc os m alloc_size
      if rp.1 ≠ ALLOK_SUCCESS then some (rp.1, none, rp.2.1, rp.2.2)
      else
        let r := block_create_in_map rp.2.1 (rp.2.1.pools.length - 1) size 0
        if r.1 ≠ ALLOK_SUCCESS then some (r.1, none, r.2.1, rp.2.2)
        else some (ALLOK_SUCCESS, r.2.2.map AkMemoryBlock.p_start, r.2.1, rp.2.2)

/-- The function `akAlloc`: result code, value written to `*pp_result` (if any), state
afterwards; `none` when the call never returns. -/
def akAlloc (w : World) (size : Nat) : Option (AllokResult × Option Nat × World) :=
  let start : AllokResult × World :=
    match w.g_map with
    | none =>
      akInit w ALLOK_DEFAULT_POOL_COUNT ALLOK_DEFAULT_POOL_SIZE
        { type := ALLOK_BEST_FIT, is_dynamic := true }
    | some _ => (ALLOK_SUCCESS, w)
  if start.1 ≠ ALLOK_SUCCESS then some (start.1, none, start.2)
  else
    match start.2.g_map with
    | none => some (ALLOK_NULL_PARAM, none, start.2)
    | some m =>
      (alloc_in_map m start.2.os size).map
        (fun r => (r.1, r.2.1, { start.2 with g_map := some r.2.2.1, os := r.2.2.2 }))

/-- The function `akFree` with a non-null handle holding `target`: result code, handle
afterwards, state afterwards. -/
def akFree (w : World) (target : Nat) : AllokResult × Nat × World :=
  match w.g_map with
  | none => (ALLOK_UNINITIALIZED, target, w)
  | some m =>
    let found := akMemoryBlockFind m target
    match found.2 with
    | none => (found.1, target, w)
    | some ij =>
      let r := akMemoryBlockFree m w.os ij.1 ij.2
      (ALLOK_SUCCESS, 0, { w with g_map := some r.1, os := r.2 })

/-- Overwrite the size of the block at position `j`. -/
def set_block_size (bs : List AkMemoryBlock) (j size : Nat) : List AkMemoryBlock :=
  bs.modify (fun b => { b with size := size }) j

/-- The function `akRealloc`: result code, value written to `*pp_result` (if any), state
afterwards; `none` when the call never returns.  The bytes copied by `akMemcpy` are not
part of the state. -/
def akRealloc (w : World) (p_src size : Nat) : Option (AllokResult × Option Nat × World) :=
  match w.g_map with
  | none => some (ALLOK_NULL_PARAM, none, w)
  | some m =>
    if p_src = 0 then some (ALLOK_NULL_PARAM, none, w)
    else
      let found := akMemoryBlockFind m p_src
      match found.2 with
      | none => some (found.1, none, w)
      | some (i, j) =>
        match m.pools[i]? with
        | none => some (ALLOK_NULL_PARAM, none, w)
        | some pool =>
          match pool.blocks[j]? with
          | none => some (ALLOK_NULL_PARAM, none, w)
          | some block =>
            let old_size := block.size
            if size ≤ old_size then
              let pool1 : AkMemoryPool :=
                { pool with size := usub pool.size (usub size old_size),
                            blocks := set_block_size pool.blocks j size }
              some (ALLOK_SUCCESS, some block.p_start,
                    { w with g_map := some { m with pools := m.pools.set i pool1 } })
            else if j + 1 = pool.blocks.length ∧
                uadd pool.size (usub size old_size) ≤ pool.alloc_size then
              let pool1 : AkMemoryPool :=
                { pool with size := uadd pool.size (usub size old_size),
                            blocks := set_block_size pool.blocks j size }
              some (ALLOK_SUCCESS, some block.p_start,
                    { w with g_map := some { m with pools := m.pools.set i pool1 } })
            else
              match akAlloc w size with
              | none => none
              | some r =>
                if r.1 ≠ ALLOK_SUCCESS then some (r.1, some 0, r.2.2)
                else some (ALLOK_SUCCESS, r.2.1, (akFree r.2.2 p_src).2.2)

/-- The function `akCalloc`: `akAlloc` followed by `akMemset` on the payload, whose bytes
are not part of the state. -/
def akCalloc (w : World) (size : Nat) : Option (AllokResult × Option Nat × World) :=
  akAlloc w size

/-- The function `akGetTotalAllocSize`. -/
def akGetTotalAllocSize (w : World) : Nat :=
  match w.g_map with
  | none => 0
  | some m => m.pools.foldl (fun size pool => uadd size pool.size) 0

/-- The function `akGetTotalPoolCount`. -/
def akGetTotalPoolCount (w : World) : Nat :=
  match w.g_map with
  | none => 0
  | some m => m.pools.foldl (fun count _ => uadd count 1) 0

/-- The function `akGetTotalBlockCount`. -/
def akGetTotalBlockCount (w : World) : Nat :=
  match w.g_map with
  | none => 0
  | some m =>
    m.pools.foldl
      (fun count pool => pool.blocks.foldl (fun c _ => uadd c 1) count) 0

/-- The function `akGetAllocMetadata`. -/
def akGetAllocMetadata (w : World) : AkMemoryMapMetadata :=
  match w.g_map with
  | none => ⟨0, 0, 0, 0⟩
  | some m => m.metadata

/-- The state of a process before any call: no map, no arena, the given script of
operating-system answers. -/
def World.boot (script : List Nat) : World :=
  { g_map := none, g_map_arena := none, os := { script := script, trace := [] } }

/-! ## Call sequences -/

/-- One call of the public interface. -/
inductive Op where
  | alloc (size : Nat)
  | calloc (size : Nat)
  | free (target : Nat)
  | realloc (p_src size : Nat)
  deriving DecidableEq, Repr

/-- The state after one call; `none` when the call never returns. -/
def step (w : World) : Op → Option World
  | Op.alloc size => (akAlloc w size).map (fun r => r.2.2)
  | Op.calloc size => (akCalloc w size).map (fun r => r.2.2)
  | Op.free target => some (akFree w target).2.2
  | Op.realloc p_src size => (akRealloc w p_src size).map (fun r => r.2.2)

/-- The state after a sequence of calls. -/
def run : World → List Op → Option World
  | w, [] => some w
  | w, op :: ops =>
    match step w op with
    | none => none
    | some w1 => run w1 ops

/-- The request size of a call fits an `AllokSize` together with a block header:
`size + header_size < 2 ^ W`. -/
def Op.size_ok : Op → Prop
  | Op.alloc size => size + header_size < 2 ^ W
  | Op.calloc size => size + header_size < 2 ^ W
  | Op.free _ => True
  | Op.realloc _ size => size + header_size < 2 ^ W

/-- Decision procedure for `Op.size_ok`. -/
instance size_ok_decidable : (op : Op) → Decidable op.size_ok
  | Op.alloc size => inferInstanceAs (Decidable (size + header_size < 2 ^ W))
  | Op.calloc size => inferInstanceAs (Decidable (size + header_size < 2 ^ W))
  | Op.free _ => isTrue trivial
  | Op.realloc _ size => inferInstanceAs (Decidable (size + header_size < 2 ^ W))

/-- The call is an `akAlloc`, `akCalloc` or `akFree`. -/
def Op.no_realloc : Op → Prop
  | Op.realloc _ _ => False
  | _ => True

/-- Decision procedure for `Op.no_realloc`. -/
instance no_realloc_decidable : (op : Op) → Decidable op.no_realloc
  | Op.alloc _ => isTrue trivial
  | Op.calloc _ => isTrue trivial
  | Op.free _ => isTrue trivial
  | Op.realloc _ _ => isFalse (fun h => h)

/-! ## Specification vocabulary -/

/-- Bytes taken by the blocks of a list: the sum of `size + header_size`. -/
def block_sum : List AkMemoryBlock → Nat
  | [] => 0
  | b :: rest => (b.size + header_size) + block_sum rest

/-- Number of live blocks of a map. -/
def live_blocks (m : AkMemoryMap) : Nat :=
  (m.pools.map (fun p => p.blocks.length)).sum

/-- The blocks of a list lie in strict address order without overlap, the first header at
or above `lo`: each header starts at or after the end of payload of its predecessor. -/
def blocks_ordered : Nat → List AkMemoryBlock → Prop
  | _, [] => True
  | lo, b :: rest => lo ≤ b.addr ∧ blocks_ordered b.p_end rest

/-- End of payload of the last block of a list, `lo` for the empty list. -/
def last_end : Nat → List AkMemoryBlock → Nat
  | lo, [] => lo
  | _, b :: rest => last_end b.p_end rest

/-- A well-formed pool: blocks in strict address order, non-overlapping, inside the pool
region, and `alloc_size` is an `AllokSize`. -/
def AkMemoryPool.well_formed (p : AkMemoryPool) : Prop :=
  blocks_ordered p.p_start p.blocks ∧ last_end p.p_start p.blocks ≤ p.p_end ∧
    p.alloc_size < 2 ^ W

/-- Decision procedure for `blocks_ordered`. -/
instance blocks_ordered_decidable :
    (l : List AkMemoryBlock) → (lo : Nat) → Decidable (blocks_ordered lo l)
  | [], _ => isTrue trivial
  | b :: rest, lo =>
    match Nat.decLe lo b.addr, blocks_ordered_decidable rest b.p_end with
    | isTrue h1, isTrue h2 => isTrue ⟨h1, h2⟩
    | isFalse h1, _ => isFalse (fun h => h1 h.1)
    | _, isFalse h2 => isFalse (fun h => h2 h.2)

/-- Decision procedure for `AkMemoryPool.well_formed`. -/
instance well_formed_decidable (p : AkMemoryPool) : Decidable p.well_formed :=
  inferInstanceAs (Decidable (blocks_ordered p.p_start p.blocks ∧
    last_end p.p_start p.blocks ≤ p.p_end ∧ p.alloc_size < 2 ^ W))

/-- The headers of a block list are at strictly ascending addresses. -/
def addr_sorted (l : List AkMemoryBlock) : Prop :=
  l.Pairwise (fun x y => x.addr < y.addr)

/-- Decision procedure for `addr_sorted`. -/
instance addr_sorted_decidable (l : List AkMemoryBlock) : Decidable (addr_sorted l) :=
  inferInstanceAs (Decidable (l.Pairwise (fun (x y : AkMemoryBlock) => x.addr < y.addr)))

/-- The gaps after block `prev`, as pairs (offset of the first byte, length): the interior
gap up to the next header, and so on, the suffix gap up to the end of the pool last. -/
def gaps_after (p : AkMemoryPool) : AkMemoryBlock → List AkMemoryBlock → List (Nat × Nat)
  | prev, [] => [(prev.p_end - p.p_start, p.p_end - prev.p_end)]
  | prev, curr :: rest =>
    (prev.p_end - p.p_start, curr.addr - prev.p_end) :: gaps_after p curr rest

/-- The gaps of a pool in address order, as pairs (offset, length): prefix gap, interior
gaps, suffix gap.  A pool without blocks has its whole region as only gap. -/
def AkMemoryPool.gaps (p : AkMemoryPool) : List (Nat × Nat) :=
  match p.blocks with
  | [] => [(0, p.alloc_size)]
  | head :: rest => (0, head.addr - p.p_start) :: gaps_after p head rest

/-- Offset of the first gap of length at least `need`. -/
def first_admitting (gs : List (Nat × Nat)) (need : Nat) : Option Nat :=
  (gs.find? (fun g => decide (need ≤ g.2))).map Prod.fst

/-- The accounting invariant of a pool: `size` is the sum over its blocks of
`size + header_size`, and it does not exceed `alloc_size`, an `AllokSize`. -/
def AkMemoryPool.accounted (p : AkMemoryPool) : Prop :=
  p.size = block_sum p.blocks ∧ p.size ≤ p.alloc_size ∧ p.alloc_size < 2 ^ W

/-- Decision procedure for `AkMemoryPool.accounted`. -/
instance accounted_decidable (p : AkMemoryPool) : Decidable p.accounted :=
  inferInstanceAs (Decidable (p.size = block_sum p.blocks ∧ p.size ≤ p.alloc_size ∧
    p.alloc_size < 2 ^ W))

/-- Every pool of the map (if there is one) satisfies the accounting invariant. -/
def World.accounted (w : World) : Prop :=
  ∀ m, w.g_map = some m → ∀ p ∈ m.pools, p.accounted

/-- The single pool reached by `akInit(1, 300, params)`, `a = akAlloc(100)`,
`b = akAlloc(100)`, `akFree(a)` when the operating system places the pool header at 8192:
one block `b` at offset 140, the gap `[0, 140)` before it and the gap `[280, 300)` behind. -/
def pool_prefix_gap : AkMemoryPool :=
  { addr := 8192, alloc_size := 300, size := 140, blocks := [{ addr := 8396, size := 100 }] }

/-- The state after `akInit(1, c, {type, dynamic})` in a fresh process whose operating
system answers 4096 (arena) and 8192 (pool) and then 16384, 32768. -/
def world_one_pool (c : Nat) (type : AllokType) (dynamic : Bool) : World :=
  (akInit (World.boot [4096, 8192, 16384, 32768]) 1 c
    { type := type, is_dynamic := dynamic }).2

/-- The state reached from `world_one_pool 300 type false` by `a = akAlloc(100)`,
`b = akAlloc(100)`, `akFree(a)`. -/
def world_after_free_a (type : AllokType) : World :=
  { g_map := some
      { params := { type := type, is_dynamic := false },
        metadata := ⟨2, 1, 1, 0⟩,
        pool_count := 2,
        pools := [pool_prefix_gap] },
    g_map_arena := some ⟨4096, 56, 56, 4144, 4200⟩,
    os := { script := [16384, 32768],
            trace := [OsEvent.acquire 4096 104, OsEvent.acquire 8192 364] } }

/-- Result codes of `k` successive calls `akAlloc(s)`, with the state after the last one;
`none` when some call never returns. -/
def alloc_repeat (s : Nat) : Nat → World → Option (List AllokResult × World)
  | 0, w => some ([], w)
  | k + 1, w =>
    match akAlloc w s with
    | none => none
    | some r => (alloc_repeat s k r.2.2).map (fun x => (r.1 :: x.1, x.2))

/-- The map has policy `type`, dynamic flag `dynamic`, and a single pool, at `addr`, with
`alloc_size = c` and `size = t`, whose blocks are in address order and end at offset `t`. -/
def World.one_pool_filled (w : World) (type : AllokType) (dynamic : Bool)
    (addr c t : Nat) : Prop :=
  ∃ m bs, w.g_map = some m ∧ m.params = ⟨type, dynamic⟩ ∧
    m.pools = [⟨addr, c, t, bs⟩] ∧
    blocks_ordered (addr + pool_header_size) bs ∧
    last_end (addr + pool_header_size) bs = addr + pool_header_size + t

/-- The map after a successful `akMemoryBlockCreate` of `size` bytes at `offset` in the
pool `p` at position `i`. -/
def map_with_block (m : AkMemoryMap) (i : Nat) (p : AkMemoryPool) (size offset : Nat) :
    AkMemoryMap :=
  { m with
    pools := m.pools.set i
      { p with blocks := insert_block ⟨p.p_start + offset, size⟩ p.blocks,
               size := uadd p.size (uadd size header_size) },
    metadata := { m.metadata with blocks_created := m.metadata.blocks_created + 1 } }

/-- The state after `akInit(0, 0, {type, dynamic})` in a fresh process whose operating
system answers 4096 (arena) and then 8192, 16384: a map without pools. -/
def world_no_pool (type : AllokType) (dynamic : Bool) : World :=
  (akInit (World.boot [4096, 8192, 16384]) 0 0 { type := type, is_dynamic := dynamic }).2

/-- The arena made by `akMemoryArenaAlloc(&arena, 100)` when the operating system answers
4096. -/
def arena_100 : AkMemoryArena :=
  { addr := 4096, alloc_size := 100, size := 0, p_start := 4144, p_current := 4144 }

/-- The state reached from `world_one_pool 300 type false` by one `akAlloc(100)`, with
the operating-system script exhausted. -/
def world_one_block (type : AllokType) : World :=
  { g_map := some
      { params := { type := type, is_dynamic := false },
        metadata := ⟨1, 0, 1, 0⟩,
        pool_count := 2,
        pools := [⟨8192, 300, 140, [⟨8256, 100⟩]⟩] },
    g_map_arena := some ⟨4096, 56, 56, 4144, 4200⟩,
    os := { script := [],
            trace := [OsEvent.acquire 4096 104, OsEvent.acquire 8192 364] } }

/-- Every pool of the map (if there is one) ends below `2 ^ W`: the pointer sum
`p_start + alloc_size` does not wrap. -/
def World.pools_below_top (w : World) : Prop :=
  match w.g_map with
  | none => True
  | some m => ∀ p ∈ m.pools, p.p_end < 2 ^ W

/-- Decision procedure for `World.pools_below_top`. -/
instance pools_below_top_decidable (w : World) : Decidable w.pools_below_top := by
  unfold World.pools_below_top
  cases w.g_map with
  | none => exact isTrue trivial
  | some m => exact inferInstanceAs (Decidable (∀ p ∈ m.pools, p.p_end < 2 ^ W))

/-- The map has policy `type`, dynamic flag `dynamic`, and the single pool `p`. -/
def World.single_pool (w : World) (type : AllokType) (dynamic : Bool)
    (p : AkMemoryPool) : Prop :=
  ∃ m, w.g_map = some m ∧ m.params = ⟨type, dynamic⟩ ∧ m.pools = [p]

/-! # Theorems -/

/-! ## Fit search -/

theorem ptr_diff_of_le (a b : Nat) (h : b ≤ a) (hlt : a - b < 2 ^ W) :
    ptr_diff a b = a - b := by
  unfold ptr_diff
  simp only [W] at *
  omega

theorem le_last_end : ∀ (l : List AkMemoryBlock) (lo : Nat), blocks_ordered lo l → lo ≤ last_end lo l
  | [], _, _ => Nat.le_refl _
  | b :: rest, lo, h => by
    have h1 := le_last_end rest b.p_end h.2
    have h2 : b.addr ≤ b.p_end := by
      simp only [AkMemoryBlock.p_end, AkMemoryBlock.p_start]; omega
    simp only [last_end]
    exact Nat.le_trans (Nat.le_trans h.1 h2) h1

theorem first_fit_tail_eq (p : AkMemoryPool) (need : Nat) (hA : p.alloc_size < 2 ^ W)
    (hreg : p.p_end < 2 ^ W) :
    ∀ (rest : List AkMemoryBlock) (prev : AkMemoryBlock),
      p.p_start ≤ prev.addr → blocks_ordered prev.p_end rest →
      last_end prev.p_end rest ≤ p.p_end →
      first_fit_tail p need prev rest = some (first_admitting (gaps_after p prev rest) need)
  | [], prev, hp, _, hend => by
    simp only [last_end] at hend
    have hpe : prev.p_start + prev.size = prev.p_end := rfl
    have hps : p.p_start + p.alloc_size = p.p_end := rfl
    have hpm : p.p_end % 2 ^ W = p.p_end := Nat.mod_eq_of_lt hreg
    have hem : prev.p_end % 2 ^ W = prev.p_end := Nat.mod_eq_of_lt (by omega)
    have h1 : p.p_start ≤ prev.p_end := by
      simp only [AkMemoryBlock.p_end, AkMemoryBlock.p_start]; omega
    have hd : ptr_diff prev.p_end p.p_start = prev.p_end - p.p_start := by
      apply ptr_diff_of_le _ _ h1
      simp only [AkMemoryPool.p_end, W] at *; omega
    have hm : (p.p_end - prev.p_end) % 2 ^ W = p.p_end - prev.p_end := by
      apply Nat.mod_eq_of_lt
      simp only [AkMemoryPool.p_end, W] at *; omega
    simp only [first_fit_tail, first_fit_loop, List.getLast_singleton, tail_fragment,
      get_ptr_fragment, hpe, hps, hpm, hem, gaps_after, first_admitting, List.find?, hd, hm]
    rw [if_neg (by omega)]
    by_cases hn : need ≤ p.p_end - prev.p_end
    · simp [hn]
    · simp [hn]
  | curr :: rest, prev, hp, hord, hend => by
    obtain ⟨hpc, hord2⟩ := hord
    simp only [last_end] at hend
    have hpe : prev.p_start + prev.size = prev.p_end := rfl
    have h1 : p.p_start ≤ prev.p_end := by
      simp only [AkMemoryBlock.p_end, AkMemoryBlock.p_start]; omega
    have hce : curr.addr ≤ curr.p_end := by
      simp only [AkMemoryBlock.p_end, AkMemoryBlock.p_start]; omega
    have hle := le_last_end rest curr.p_end hord2
    have hem : prev.p_end % 2 ^ W = prev.p_end := Nat.mod_eq_of_lt (by omega)
    have hd : ptr_diff prev.p_end p.p_start = prev.p_end - p.p_start := by
      apply ptr_diff_of_le _ _ h1
      simp only [AkMemoryPool.p_end, W] at *; omega
    have hm : (curr.addr - prev.p_end) % 2 ^ W = curr.addr - prev.p_end := by
      apply Nat.mod_eq_of_lt
      simp only [AkMemoryPool.p_end, W] at *; omega
    have ih := first_fit_tail_eq p need hA hreg rest curr (by omega) hord2 hend
    by_cases hn : need ≤ curr.addr - prev.p_end
    · simp only [first_fit_tail, first_fit_loop, get_ptr_fragment, hpe, hem, gaps_after,
        first_admitting, List.find?, hd, hm]
      rw [if_neg (by omega)]
      simp [hn]
    · simp only [first_fit_tail] at ih
      simp only [first_fit_tail, first_fit_loop, get_ptr_fragment, hpe, hem, gaps_after,
        first_admitting, List.find?, hd, hm, List.getLast_cons_cons]
      rw [if_neg (by omega)]
      simp only [ge_iff_le, hn, if_false, decide_False]
      simpa [first_admitting] using ih

theorem first_admitting_isSome (gs : List (Nat × Nat)) (need : Nat) :
    (∃ off, first_admitting gs need = some off) ↔ ∃ g ∈ gs, need ≤ g.2 := by
  unfold first_admitting
  constructor
  · rintro ⟨off, h⟩
    rcases hf : gs.find? (fun g => decide (need ≤ g.2)) with _ | g
    · rw [hf] at h; simp at h
    · exact ⟨g, List.mem_of_find?_eq_some hf, by simpa using List.find?_some hf⟩
  · rintro ⟨g, hg, hn⟩
    rcases hf : gs.find? (fun g => decide (need ≤ g.2)) with _ | g1
    · rw [List.find?_eq_none] at hf
      have := hf g hg
      simp at this; omega
    · exact ⟨g1.1, by rw [hf]; rfl⟩

/-- C3 (amended): on a well-formed pool whose region ends below `2 ^ W`
(`p_start + alloc_size < 2 ^ W`, so that no pointer sum wraps) and for a request with
`s + header_size < 2 ^ W`, `alloc_first_fit` returns, and its answer is the offset of the
first gap in address order (prefix, interior gaps head to tail, suffix) of length at least
`s + header_size`; it succeeds exactly when some gap admits the request, and on a pool
without blocks it answers offset `0` exactly when `alloc_size ≥ s + header_size`. -/
theorem alloc_first_fit_first_gap (p : AkMemoryPool) (s : Nat)
    (hwf : p.well_formed) (hreg : p.p_end < 2 ^ W) (hs : s + header_size < 2 ^ W) :
    alloc_first_fit p s = some (first_admitting p.gaps (s + header_size)) ∧
    ((∃ off, alloc_first_fit p s = some (some off)) ↔
      ∃ g ∈ p.gaps, s + header_size ≤ g.2) ∧
    (p.blocks = [] →
      (alloc_first_fit p s = some (some 0) ↔ p.alloc_size ≥ s + header_size) ∧
      (alloc_first_fit p s = some none ↔ p.alloc_size < s + header_size)) := by
  have hu : uadd header_size s = s + header_size := by
    simp only [uadd, W] at *; omega
  have main : alloc_first_fit p s = some (first_admitting p.gaps (s + header_size)) := by
    obtain ⟨hord, hend, hA⟩ := hwf
    unfold alloc_first_fit AkMemoryPool.gaps
    rw [hu]
    rcases hb : p.blocks with _ | ⟨head, rest⟩
    · by_cases hn : s + header_size ≤ p.alloc_size
      · simp [first_admitting, hn]
      · simp [first_admitting, hn]
    · rw [hb] at hord hend
      obtain ⟨hph, hord2⟩ := hord
      simp only [last_end] at hend
      have hle := le_last_end rest head.p_end hord2
      have hhe : head.addr ≤ head.p_end := by
        simp only [AkMemoryBlock.p_end, AkMemoryBlock.p_start]; omega
      have hm : (head.addr - p.p_start) % 2 ^ W = head.addr - p.p_start := by
        apply Nat.mod_eq_of_lt
        simp only [AkMemoryPool.p_end, W] at *; omega
      have hp0 : p.p_start % 2 ^ W = p.p_start := by
        apply Nat.mod_eq_of_lt
        simp only [AkMemoryPool.p_end, W] at *; omega
      have ih := first_fit_tail_eq p (s + header_size) hA hreg rest head hph hord2 hend
      simp only [get_ptr_fragment, Nat.add_zero, hp0, hm]
      rw [if_neg (by omega)]
      by_cases hn : s + header_size ≤ head.addr - p.p_start
      · simp [first_admitting, hn]
      · simp only [ge_iff_le, hn, if_false]
        rw [ih]
        simp [first_admitting, hn]
  refine ⟨main, ?_, ?_⟩
  · rw [main, ← first_admitting_isSome]
    constructor
    · rintro ⟨off, h⟩; exact ⟨off, Option.some.inj h⟩
    · rintro ⟨off, h⟩; exact ⟨off, by rw [h]⟩
  · intro hb
    unfold alloc_first_fit
    rw [hb, hu]
    by_cases hn : s + header_size ≤ p.alloc_size
    · simp [hn]
    · simp [hn]; omega

/-- C3, witness of `alloc_first_fit_first_gap`: the pool with one block at offset 140 and
a request of 64 bytes. -/
theorem alloc_first_fit_first_gap_witness :
    pool_prefix_gap.well_formed ∧ pool_prefix_gap.p_end < 2 ^ W ∧ 64 + header_size < 2 ^ W ∧
    (alloc_first_fit pool_prefix_gap 64
        = some (first_admitting pool_prefix_gap.gaps (64 + header_size)) ∧
      ((∃ off, alloc_first_fit pool_prefix_gap 64 = some (some off)) ↔
        ∃ g ∈ pool_prefix_gap.gaps, 64 + header_size ≤ g.2) ∧
      (pool_prefix_gap.blocks = [] →
        (alloc_first_fit pool_prefix_gap 64 = some (some 0) ↔
          pool_prefix_gap.alloc_size ≥ 64 + header_size) ∧
        (alloc_first_fit pool_prefix_gap 64 = some none ↔
          pool_prefix_gap.alloc_size < 64 + header_size))) :=
  ⟨by decide, by decide, by decide,
   alloc_first_fit_first_gap pool_prefix_gap 64 (by decide) (by decide) (by decide)⟩

/-- C3, counterexample to the claim as stated (every well-formed pool, every request
size).  On an empty pool of 100 bytes the request `s = 2 ^ 64 - 40` makes
`sizeof(AkMemoryBlock) + size` wrap to `0`, and `alloc_first_fit` answers offset `0`
although `alloc_size < s + header_size` and no gap has length `s + header_size`.  On the
pool of `2 ^ 64 - 1` bytes at 8192 holding one block of 100 bytes at offset 0, the pointer
sum `p_start + alloc_size` wraps to 8255, below the end 8396 of the block, so the suffix
check fails and `alloc_first_fit` reports failure for a request of 8 bytes although the
suffix gap, starting at offset 140, admits it. -/
theorem alloc_first_fit_wraps_on_huge_request :
    (⟨8192, 100, 0, []⟩ : AkMemoryPool).well_formed ∧
    alloc_first_fit ⟨8192, 100, 0, []⟩ (2 ^ 64 - 40) = some (some 0) ∧
    ¬ ((⟨8192, 100, 0, []⟩ : AkMemoryPool).alloc_size ≥ (2 ^ 64 - 40) + header_size) ∧
    (¬ ∃ g ∈ (⟨8192, 100, 0, []⟩ : AkMemoryPool).gaps, (2 ^ 64 - 40) + header_size ≤ g.2) ∧
    (⟨8192, 2 ^ 64 - 1, 140, [⟨8256, 100⟩]⟩ : AkMemoryPool).well_formed ∧
    ((⟨8192, 2 ^ 64 - 1, 140, [⟨8256, 100⟩]⟩ : AkMemoryPool).p_start + (2 ^ 64 - 1)) % 2 ^ W
      = 8255 ∧
    alloc_first_fit ⟨8192, 2 ^ 64 - 1, 140, [⟨8256, 100⟩]⟩ 8 = some none ∧
    first_admitting (⟨8192, 2 ^ 64 - 1, 140, [⟨8256, 100⟩]⟩ : AkMemoryPool).gaps
      (8 + header_size) = some 140 := by
  decide

/-- C1: `alloc_best_fit` on the well-formed pool `pool_prefix_gap` and a request of 64
bytes.  The gaps are `[0, 140)` and `[280, 300)`; the prefix gap is the only, hence the
smallest, gap of length at least `64 + header_size = 104`, so offset `0` is due; the
code reports failure, and `akAlloc` in the state reached by
`akInit(1, 300, best-fit, non-dynamic)`, `akAlloc(100)`, `akAlloc(100)`, `akFree(first)`
returns `ALLOK_INSUFFICIENT_POOL_MEMORY`. -/
theorem alloc_best_fit_misses_prefix_gap :
    pool_prefix_gap.well_formed ∧
    pool_prefix_gap.gaps = [(0, 140), (280, 20)] ∧
    first_admitting pool_prefix_gap.gaps (64 + header_size) = some 0 ∧
    alloc_best_fit pool_prefix_gap 64 = some none ∧
    (run (world_one_pool 300 ALLOK_BEST_FIT false)
        [Op.alloc 100, Op.alloc 100, Op.free 8296]).map
      (fun w => w.g_map.map (fun m => m.pools)) = some (some [pool_prefix_gap]) ∧
    ((run (world_one_pool 300 ALLOK_BEST_FIT false)
        [Op.alloc 100, Op.alloc 100, Op.free 8296]).bind
      (fun w => akAlloc w 64)).map (fun r => r.1) = some ALLOK_INSUFFICIENT_POOL_MEMORY := by
  decide

/-- C2: `alloc_worst_fit` on the well-formed pool `pool_prefix_gap` and a request of 64
bytes.  The prefix gap `[0, 140)` is the largest gap of length at least 104, so offset `0`
is due; the code reports failure, and `akAlloc` in the state reached by
`akInit(1, 300, worst-fit, non-dynamic)`, `akAlloc(100)`, `akAlloc(100)`, `akFree(first)`
returns `ALLOK_INSUFFICIENT_POOL_MEMORY`. -/
theorem alloc_worst_fit_misses_prefix_gap :
    pool_prefix_gap.well_formed ∧
    pool_prefix_gap.gaps = [(0, 140), (280, 20)] ∧
    first_admitting pool_prefix_gap.gaps (64 + header_size) = some 0 ∧
    alloc_worst_fit pool_prefix_gap 64 = some none ∧
    (run (world_one_pool 300 ALLOK_WORST_FIT false)
        [Op.alloc 100, Op.alloc 100, Op.free 8296]).map
      (fun w => w.g_map.map (fun m => m.pools)) = some (some [pool_prefix_gap]) ∧
    ((run (world_one_pool 300 ALLOK_WORST_FIT false)
        [Op.alloc 100, Op.alloc 100, Op.free 8296]).bind
      (fun w => akAlloc w 64)).map (fun r => r.1) = some ALLOK_INSUFFICIENT_POOL_MEMORY := by
  decide

/-- C4: `alloc_linear_fit` on an empty pool of 10 bytes and a request of 8 bytes answers
`ALLOK_TRUE` with offset `0` although `0 + 8 + header_size = 48` exceeds `alloc_size`;
`alloc_first_fit`, `alloc_best_fit` and `alloc_worst_fit` report failure on the same
input. -/
theorem alloc_linear_fit_empty_pool_unchecked :
    alloc_linear_fit ⟨8192, 10, 0, []⟩ 8 = some 0 ∧
    0 + 8 + header_size > (⟨8192, 10, 0, []⟩ : AkMemoryPool).alloc_size ∧
    alloc_first_fit ⟨8192, 10, 0, []⟩ 8 = some none ∧
    alloc_best_fit ⟨8192, 10, 0, []⟩ 8 = some none ∧
    alloc_worst_fit ⟨8192, 10, 0, []⟩ 8 = some none := by
  decide

/-! ## Size accounting -/

theorem block_sum_eraseIdx :
    ∀ (l : List AkMemoryBlock) (j : Nat) (b : AkMemoryBlock), l[j]? = some b →
      block_sum (l.eraseIdx j) + (b.size + header_size) = block_sum l
  | [], _, _, h => by simp at h
  | c :: rest, 0, b, h => by
    simp at h; subst h
    simp only [List.eraseIdx, block_sum]; omega
  | c :: rest, j + 1, b, h => by
    simp at h
    have ih := block_sum_eraseIdx rest j b h
    simp only [List.eraseIdx, block_sum]; omega

theorem scan_pools_some (type : AllokType) (size bas : Nat) :
    ∀ (l : List AkMemoryPool) (i off : Nat),
      scan_pools type size bas l = some (some (i, off)) →
      ∃ p, l[i]? = some p ∧ usub p.alloc_size p.size ≥ bas ∧
        find_block_fit type p size = some (some off)
  | [], i, off, h => by simp [scan_pools] at h
  | pool :: rest, i, off, h => by
    have tailcase : (scan_pools type size bas rest).map
        (fun r => r.map (fun io => (io.1 + 1, io.2))) = some (some (i, off)) →
        ∃ p, (pool :: rest)[i]? = some p ∧ usub p.alloc_size p.size ≥ bas ∧
          find_block_fit type p size = some (some off) := by
      intro h2
      rcases hs : scan_pools type size bas rest with _ | r
      · rw [hs] at h2; simp at h2
      · rw [hs] at h2
        rcases r with _ | ⟨i1, off1⟩
        · simp at h2
        · simp at h2
          obtain ⟨p, hp, hc, hf⟩ := scan_pools_some type size bas rest i1 off1 hs
          refine ⟨p, ?_, hc, ?_⟩
          · rw [← h2.1]; simpa using hp
          · rw [← h2.2]; exact hf
    unfold scan_pools at h
    by_cases hcap : usub pool.alloc_size pool.size ≥ bas
    · simp only [hcap, if_true] at h
      rcases hf : find_block_fit type pool size with _ | r
      · rw [hf] at h; simp at h
      · rw [hf] at h
        rcases r with _ | off1
        · exact tailcase h
        · simp at h
          refine ⟨pool, ?_, hcap, ?_⟩
          · rw [← h.1]; simp
          · rw [← h.2]; exact hf
    · simp only [hcap, if_false] at h
      exact tailcase h

theorem pool_alloc_last (os : Os) (m : AkMemoryMap) (size : Nat)
    (h : (akMemoryPoolAlloc os m size).1 = ALLOK_SUCCESS) :
    ∃ a, (akMemoryPoolAlloc os m size).2.1.pools = m.pools ++ [⟨a, size, 0, []⟩] := by
  unfold akMemoryPoolAlloc at h ⊢
  dsimp only at h ⊢
  by_cases h0 : (os_mem_alloc os (uadd size pool_header_size)).1 = 0
  · rw [if_pos h0] at h; cases h
  · rw [if_neg h0]; exact ⟨_, rfl⟩

theorem block_sum_ge_of_getElem? (l : List AkMemoryBlock) (j : Nat) (b : AkMemoryBlock)
    (h : l[j]? = some b) : b.size + header_size ≤ block_sum l := by
  have := block_sum_eraseIdx l j b h
  omega

theorem map_alloc_success (os : Os) (n c : Nat) (params : AkMemoryMapParams)
    (h : (akMemoryMapAlloc os n c params).2.1 = none) :
    (akMemoryMapAlloc os n c params).1 ≠ ALLOK_SUCCESS := by
  unfold akMemoryMapAlloc at h ⊢
  dsimp only at h ⊢
  split
  · rename_i hnone
    unfold akMemoryArenaAlloc at hnone ⊢
    dsimp only at hnone ⊢
    split
    · simp
    · rename_i h0; rw [if_neg h0] at hnone; cases hnone
  · rename_i arena hsome
    rw [hsome] at h
    dsimp only at h
    split
    · assumption
    · rename_i hc
      rw [if_neg hc] at h
      split
      · assumption
      · rename_i hp; rw [if_neg hp] at h; cases h

/-- C6: under the linear policy, `akInit(1, 8192)`, `x = akAlloc(0)`, `y = akAlloc(100)`,
`akRealloc(y, 2 ^ 64 - 41)`, `akAlloc(0)` (every request with `size + header_size < 2 ^ W`).
The tail-growth test `pool->size + (size - old_size) <= pool->alloc_size` wraps to
`39 <= 8192`, so `y` grows in place to `2 ^ 64 - 41` bytes; the next block is then placed
at offset 39, its header `[8295, 8335)` overlapping the header `[8256, 8296)` of `x` and
the block `y` at 8296: the block list is no longer non-overlapping. -/
theorem realloc_tail_growth_breaks_non_overlap :
    (∀ op ∈ [Op.alloc 0, Op.alloc 100, Op.realloc 8336 (2 ^ 64 - 41), Op.alloc 0],
      op.size_ok) ∧
    (run (world_one_pool 8192 ALLOK_LINEAR_FIT false)
        [Op.alloc 0, Op.alloc 100, Op.realloc 8336 (2 ^ 64 - 41), Op.alloc 0]).map
      (fun w => w.g_map.map (fun m => m.pools))
      = some (some [{ addr := 8192, alloc_size := 8192, size := 79,
                      blocks := [⟨8256, 0⟩, ⟨8295, 0⟩, ⟨8296, 2 ^ 64 - 41⟩] }]) ∧
    ¬ blocks_ordered (8192 + pool_header_size) [⟨8256, 0⟩, ⟨8295, 0⟩, ⟨8296, 2 ^ 64 - 41⟩] ∧
    (⟨8295, 0⟩ : AkMemoryBlock).addr < (⟨8256, 0⟩ : AkMemoryBlock).p_end := by
  decide

/-- C7: `akInit(1, 300, first-fit, non-dynamic)`, `a = akAlloc(100)`, `b = akAlloc(100)`,
`akFree(a)`, `akRealloc(b, 250)`.  The tail `b` sits at offset 140 behind the freed gap;
`pool.size + (250 - 100) = 290 <= 300`, so it grows in place, and then
`offset + header_size + size = 140 + 40 + 250 = 430` exceeds `alloc_size = 300`. -/
theorem realloc_tail_growth_leaves_pool :
    (∀ op ∈ [Op.alloc 100, Op.alloc 100, Op.free 8296, Op.realloc 8436 250], op.size_ok) ∧
    (run (world_one_pool 300 ALLOK_FIRST_FIT false)
        [Op.alloc 100, Op.alloc 100, Op.free 8296, Op.realloc 8436 250]).map
      (fun w => w.g_map.map (fun m => m.pools))
      = some (some [{ addr := 8192, alloc_size := 300, size := 290,
                      blocks := [⟨8396, 250⟩] }]) ∧
    ((run (world_one_pool 300 ALLOK_FIRST_FIT false)
        [Op.alloc 100, Op.alloc 100, Op.free 8296]).bind
      (fun w => akRealloc w 8436 250)).map (fun r => (r.1, r.2.1))
      = some (ALLOK_SUCCESS, some 8436) ∧
    (8396 - (8192 + pool_header_size)) + header_size + 250 > 300 ∧
    ¬ (⟨8192, 300, 290, [⟨8396, 250⟩]⟩ : AkMemoryPool).well_formed := by
  decide

/-- C8: right after `akInit(2, 100, params)` the pool list has two pools and
`akGetTotalPoolCount()` is 2, while `pool_count` is 3; after `akInit(0, 100, params)` the
list is empty and `pool_count` is 1.  `akMemoryMapAlloc` starts the counter at 1. -/
theorem pool_count_off_by_one :
    (akInit (World.boot [4096, 8192, 16384]) 2 100 ⟨ALLOK_LINEAR_FIT, false⟩).1
      = ALLOK_SUCCESS ∧
    (akInit (World.boot [4096, 8192, 16384]) 2 100 ⟨ALLOK_LINEAR_FIT, false⟩).2.g_map.map
      (fun m => (m.pool_count, m.pools.length)) = some (3, 2) ∧
    akGetTotalPoolCount
      (akInit (World.boot [4096, 8192, 16384]) 2 100 ⟨ALLOK_LINEAR_FIT, false⟩).2 = 2 ∧
    (akInit (World.boot [4096]) 0 100 ⟨ALLOK_LINEAR_FIT, false⟩).2.g_map.map
      (fun m => (m.pool_count, m.pools.length)) = some (1, 0) := by
  decide

/-- C9: `akInit(1, 8192, first-fit, non-dynamic)`, `x = akAlloc(0)`, `y = akAlloc(100)`,
`akRealloc(y, 2 ^ 64 - 80)`, `akRealloc(y, 0)`, `u = akAlloc(40)`, `v = akAlloc(0)`,
`akFree(v)` (every request with `size + header_size < 2 ^ W`).  The first `akRealloc`
grows `y` in place because `180 + (2 ^ 64 - 180)` wraps to `0`; the second takes the
shrink path, whose `pool->size -= size - old_size` leaves `pool.size = 2 ^ 64 - 80` with
two blocks of 40 bytes live.  After `u` and `v` the pool holds four blocks with
`pool.size = 40`, so `akFree(v)` brings it to `0` and releases the pool with `x`, `y`,
`u` inside.  Afterwards `blocks_created - blocks_freed = 3` and
`akGetTotalBlockCount() = 0`. -/
theorem realloc_shrink_breaks_block_counters :
    (∀ op ∈ [Op.alloc 0, Op.alloc 100, Op.realloc 8336 (2 ^ 64 - 80), Op.realloc 8336 0,
        Op.alloc 40, Op.alloc 0, Op.free 8456], op.size_ok) ∧
    (run (world_one_pool 8192 ALLOK_FIRST_FIT false)
        [Op.alloc 0, Op.alloc 100, Op.realloc 8336 (2 ^ 64 - 80), Op.realloc 8336 0]).map
      (fun w => w.g_map.map (fun m => m.pools))
      = some (some [{ addr := 8192, alloc_size := 8192, size := 2 ^ 64 - 80,
                      blocks := [⟨8256, 0⟩, ⟨8296, 0⟩] }]) ∧
    (run (world_one_pool 8192 ALLOK_FIRST_FIT false)
        [Op.alloc 0, Op.alloc 100, Op.realloc 8336 (2 ^ 64 - 80), Op.realloc 8336 0,
         Op.alloc 40, Op.alloc 0]).map
      (fun w => w.g_map.map (fun m => m.pools))
      = some (some [{ addr := 8192, alloc_size := 8192, size := 40,
                      blocks := [⟨8256, 0⟩, ⟨8296, 0⟩, ⟨8336, 40⟩, ⟨8416, 0⟩] }]) ∧
    (run (world_one_pool 8192 ALLOK_FIRST_FIT false)
        [Op.alloc 0, Op.alloc 100, Op.realloc 8336 (2 ^ 64 - 80), Op.realloc 8336 0,
         Op.alloc 40, Op.alloc 0, Op.free 8456]).map
      (fun w => (akGetAllocMetadata w, akGetTotalBlockCount w, akGetTotalPoolCount w,
        w.g_map.map (fun m => m.pools)))
      = some (⟨4, 1, 1, 1⟩, 0, 0, some []) ∧
    ((4 : Int) - 1 ≠ 0) := by
  decide

/-- C10: `akInit(1, 40, first-fit, non-dynamic)` then `akAlloc(0)` succeeds and returns
8296, which is `pool.p_start + pool.alloc_size`, one past the pool region: the address
is not inside the region, `akMemoryBlockFind` on it returns `ALLOK_NOT_FOUND`, and so
does `akFree`. -/
theorem alloc_zero_at_pool_end_not_found :
    (akAlloc (world_one_pool 40 ALLOK_FIRST_FIT false) 0).map (fun r => (r.1, r.2.1))
      = some (ALLOK_SUCCESS, some 8296) ∧
    (akAlloc (world_one_pool 40 ALLOK_FIRST_FIT false) 0).map
      (fun r => r.2.2.g_map.map (fun m => m.pools))
      = some (some [{ addr := 8192, alloc_size := 40, size := 40, blocks := [⟨8256, 0⟩] }]) ∧
    (⟨8256, 0⟩ : AkMemoryBlock).p_start = 8296 ∧
    ¬ (8296 < (⟨8192, 40, 40, [⟨8256, 0⟩]⟩ : AkMemoryPool).p_start + 40) ∧
    (akAlloc (world_one_pool 40 ALLOK_FIRST_FIT false) 0).map
      (fun r => r.2.2.g_map.map (fun m => akMemoryBlockFind m 8296))
      = some (some (ALLOK_NOT_FOUND, none)) ∧
    (akAlloc (world_one_pool 40 ALLOK_FIRST_FIT false) 0).map
      (fun r => (akFree r.2.2 8296).1) = some ALLOK_NOT_FOUND := by
  decide

/-! ## Round trip and reallocation scenarios -/

/-- C11: on the dynamic map of `akInit(1, 40, best-fit, dynamic)`, `akAlloc(&p, 0)`
succeeds and returns 8296, one past the 40-byte pool region; the `akFree(&p)` that follows
returns `ALLOK_NOT_FOUND`, `blocks_freed` stays `0` and `akGetTotalAllocSize()` stays at
`40` instead of going back to the `0` it had before the `akAlloc`. -/
theorem alloc_free_round_trip_fails_for_zero :
    akGetTotalAllocSize (world_one_pool 40 ALLOK_BEST_FIT true) = 0 ∧
    akGetAllocMetadata (world_one_pool 40 ALLOK_BEST_FIT true) = ⟨0, 0, 1, 0⟩ ∧
    (akAlloc (world_one_pool 40 ALLOK_BEST_FIT true) 0).map (fun r => (r.1, r.2.1))
      = some (ALLOK_SUCCESS, some 8296) ∧
    (akAlloc (world_one_pool 40 ALLOK_BEST_FIT true) 0).map
      (fun r => ((akFree r.2.2 8296).1, (akFree r.2.2 8296).2.1,
        akGetAllocMetadata (akFree r.2.2 8296).2.2,
        akGetTotalAllocSize (akFree r.2.2 8296).2.2))
      = some (ALLOK_NOT_FOUND, 8296, ⟨1, 0, 1, 0⟩, 40) := by
  decide

/-- C12: `akInit(1, 300, first-fit, non-dynamic)`, `p = akAlloc(100)`, then
`akRealloc(&r, p, 60)`.  The call succeeds with `r = p` and sets the block size to 60, but
`pool.size` goes from 140 to 180: it grows by `old - size = 40` instead of decreasing by
40 to `60 + header_size = 100`. -/
theorem realloc_shrink_grows_pool_size :
    (run (world_one_pool 300 ALLOK_FIRST_FIT false) [Op.alloc 100]).map
      (fun w => w.g_map.map (fun m => m.pools))
      = some (some [{ addr := 8192, alloc_size := 300, size := 140,
                      blocks := [⟨8256, 100⟩] }]) ∧
    ((run (world_one_pool 300 ALLOK_FIRST_FIT false) [Op.alloc 100]).bind
      (fun w => akRealloc w 8296 60)).map
      (fun r => (r.1, r.2.1, r.2.2.g_map.map (fun m => m.pools)))
      = some (ALLOK_SUCCESS, some 8296,
          some [{ addr := 8192, alloc_size := 300, size := 180,
                  blocks := [⟨8256, 60⟩] }]) ∧
    140 - (100 - 60) ≠ 180 ∧
    block_sum [⟨8256, 60⟩] = 100 := by
  decide

/-- C13: `akInit(1, 40, first-fit, non-dynamic)`, `p = akAlloc(0)`: the live block has
payload address `p = 8296` and size `0`.  `akRealloc(&r, p, 0)` returns
`ALLOK_NOT_FOUND` and writes nothing to `r`. -/
theorem realloc_identity_not_found_at_pool_end :
    (run (world_one_pool 40 ALLOK_FIRST_FIT false) [Op.alloc 0]).map
      (fun w => w.g_map.map (fun m => m.pools))
      = some (some [{ addr := 8192, alloc_size := 40, size := 40, blocks := [⟨8256, 0⟩] }]) ∧
    (⟨8256, 0⟩ : AkMemoryBlock).p_start = 8296 ∧
    ((run (world_one_pool 40 ALLOK_FIRST_FIT false) [Op.alloc 0]).bind
      (fun w => akRealloc w 8296 0)).map (fun r => (r.1, r.2.1))
      = some (ALLOK_NOT_FOUND, none) := by
  decide

/-- C14: `akInit(1, 80, first-fit, non-dynamic)`, `a = akAlloc(0)`, `b = akAlloc(0)`,
`akFree(a)`: the pool holds the single block `b` (its tail) at offset 40 with payload
address 8336 and size `0`, and `pool.size = 40`.  For `size = 10` the growth condition
`pool.size + (size - old) = 50 <= 80` holds, yet `akRealloc(&r, b, 10)` returns
`ALLOK_NOT_FOUND` and leaves the block at size `0`. -/
theorem realloc_tail_growth_not_found_at_pool_end :
    (run (world_one_pool 80 ALLOK_FIRST_FIT false)
        [Op.alloc 0, Op.alloc 0, Op.free 8296]).map
      (fun w => w.g_map.map (fun m => m.pools))
      = some (some [{ addr := 8192, alloc_size := 80, size := 40, blocks := [⟨8296, 0⟩] }]) ∧
    (⟨8296, 0⟩ : AkMemoryBlock).p_start = 8336 ∧
    40 + (10 - 0) ≤ 80 ∧
    ((run (world_one_pool 80 ALLOK_FIRST_FIT false)
        [Op.alloc 0, Op.alloc 0, Op.free 8296]).bind
      (fun w => akRealloc w 8336 10)).map
      (fun r => (r.1, r.2.1, r.2.2.g_map.map (fun m => m.pools)))
      = some (ALLOK_NOT_FOUND, none,
          some [{ addr := 8192, alloc_size := 80, size := 40, blocks := [⟨8296, 0⟩] }]) := by
  decide

/-- C15: on the dynamic map of `akInit(1, 40, first-fit, dynamic)`, `p = akAlloc(0)` gives
the live block with payload address 8296 and size `0`.  For `size = 10` the in-place
condition fails (`40 + 10 > 40`), so a relocation is due; `akRealloc(&r, p, 10)` returns
`ALLOK_NOT_FOUND`, creates no block and leaves `p` the start of the live block. -/
theorem realloc_relocate_not_found_at_pool_end :
    (run (world_one_pool 40 ALLOK_FIRST_FIT true) [Op.alloc 0]).map
      (fun w => w.g_map.map (fun m => m.pools))
      = some (some [{ addr := 8192, alloc_size := 40, size := 40, blocks := [⟨8256, 0⟩] }]) ∧
    ¬ (40 + (10 - 0) ≤ 40) ∧
    ((run (world_one_pool 40 ALLOK_FIRST_FIT true) [Op.alloc 0]).bind
      (fun w => akRealloc w 8296 10)).map
      (fun r => (r.1, r.2.1, r.2.2.g_map.map (fun m => m.pools)))
      = some (ALLOK_NOT_FOUND, none,
          some [{ addr := 8192, alloc_size := 40, size := 40, blocks := [⟨8256, 0⟩] }]) := by
  decide

/-! ## Linear fill -/

theorem insert_block_append (b : AkMemoryBlock) :
    ∀ (bs : List AkMemoryBlock) (lo : Nat), blocks_ordered lo bs → last_end lo bs ≤ b.addr →
      insert_block b bs = bs ++ [b]
  | [], _, _, _ => rfl
  | c :: rest, lo, h, hle => by
    have h1 := le_last_end rest c.p_end h.2
    simp only [last_end] at hle
    have hce : c.addr + 40 ≤ c.p_end := by
      simp only [AkMemoryBlock.p_end, AkMemoryBlock.p_start, header_size]; omega
    have hc : c.addr < b.addr := by omega
    simp only [insert_block, hc, if_true, List.cons_append,
      insert_block_append b rest c.p_end h.2 hle]

theorem blocks_ordered_append (b : AkMemoryBlock) :
    ∀ (bs : List AkMemoryBlock) (lo : Nat), blocks_ordered lo bs → last_end lo bs ≤ b.addr →
      blocks_ordered lo (bs ++ [b])
  | [], _, _, hle => ⟨hle, trivial⟩
  | c :: rest, _, h, hle => ⟨h.1, blocks_ordered_append b rest c.p_end h.2 hle⟩

theorem last_end_append (b : AkMemoryBlock) :
    ∀ (bs : List AkMemoryBlock) (lo : Nat), last_end lo (bs ++ [b]) = b.p_end
  | [], _ => rfl
  | c :: rest, _ => last_end_append b rest c.p_end

theorem last_end_of_getLast? :
    ∀ (bs : List AkMemoryBlock) (lo : Nat) (tl : AkMemoryBlock),
      bs.getLast? = some tl → last_end lo bs = tl.p_end
  | [], _, _, h => by simp at h
  | [c], _, tl, h => by
    simp at h; subst h; rfl
  | c :: d :: rest, _, tl, h => by
    have h2 : (d :: rest).getLast? = some tl := by
      rw [List.getLast?_cons_cons] at h; exact h
    exact last_end_of_getLast? (d :: rest) c.p_end tl h2

theorem last_end_nil_of_getLast? (bs : List AkMemoryBlock) (lo : Nat)
    (h : bs.getLast? = none) : last_end lo bs = lo := by
  rw [List.getLast?_eq_none_iff] at h
  subst h; rfl

/-- Offset answered by `alloc_linear_fit` on a pool whose blocks end at offset `t`. -/
theorem alloc_linear_fit_of_filled (addr c t s : Nat) (bs : List AkMemoryBlock)
    (hend : last_end (addr + pool_header_size) bs = addr + pool_header_size + t)
    (hs : s + header_size < 2 ^ W) (hfit : t + (s + header_size) ≤ c) (hc : c < 2 ^ W) :
    alloc_linear_fit ⟨addr, c, t, bs⟩ s = some t := by
  unfold alloc_linear_fit
  dsimp only
  rcases hl : bs.getLast? with _ | tl
  · have := last_end_nil_of_getLast? bs (addr + pool_header_size) hl
    dsimp only
    congr 1; omega
  · have h1 := last_end_of_getLast? bs (addr + pool_header_size) tl hl
    have h2 : tl.p_start + tl.size = addr + pool_header_size + t := by
      rw [← hend, h1]; rfl
    dsimp only
    rw [h2]
    have h3 : ptr_diff (addr + pool_header_size + t) (AkMemoryPool.p_start ⟨addr, c, t, bs⟩) = t := by
      rw [ptr_diff_of_le]
      · simp only [AkMemoryPool.p_start]; omega
      · simp only [AkMemoryPool.p_start]; omega
      · simp only [AkMemoryPool.p_start, W] at *; omega
    rw [h3]
    have h4 : ¬ uadd t (uadd header_size s) > c := by
      simp only [uadd, W, header_size] at *; omega
    rw [if_neg h4]

/-- With a map in place `akAlloc` is `alloc_in_map` on that map. -/
theorem akAlloc_of_map (w : World) (m : AkMemoryMap) (s : Nat) (hg : w.g_map = some m) :
    akAlloc w s = (alloc_in_map m w.os s).map
      (fun r => (r.1, r.2.1, { w with g_map := some r.2.2.1, os := r.2.2.2 })) := by
  unfold akAlloc
  simp only [hg, ne_eq, not_true_eq_false, if_false]

theorem block_create_in_map_ok (m : AkMemoryMap) (i size offset : Nat) (p : AkMemoryPool)
    (hp : m.pools[i]? = some p)
    (hfit : ¬ uadd (uadd offset size) header_size > p.alloc_size) :
    block_create_in_map m i size offset
      = (ALLOK_SUCCESS, map_with_block m i p size offset,
         some ⟨p.p_start + offset, size⟩) := by
  unfold block_create_in_map akMemoryBlockCreate map_with_block
  simp only [hp, hfit, if_false, ne_eq, not_true_eq_false]

theorem alloc_in_map_found (m : AkMemoryMap) (os : Os) (s i off : Nat) (p : AkMemoryPool)
    (hscan : scan_pools m.params.type s (uadd header_size s) m.pools = some (some (i, off)))
    (hp : m.pools[i]? = some p)
    (hfit : ¬ uadd (uadd off s) header_size > p.alloc_size) :
    alloc_in_map m os s
      = some (ALLOK_SUCCESS, some (p.p_start + off + header_size),
              map_with_block m i p s off, os) := by
  unfold alloc_in_map
  simp only [hscan, block_create_in_map_ok m i s off p hp hfit, ne_eq, not_true_eq_false,
    if_false, Option.map_some', AkMemoryBlock.p_start]

theorem alloc_in_map_static_reject (m : AkMemoryMap) (os : Os) (s : Nat)
    (hscan : scan_pools m.params.type s (uadd header_size s) m.pools = some none)
    (hd : m.params.is_dynamic = false) :
    alloc_in_map m os s = some (ALLOK_INSUFFICIENT_POOL_MEMORY, none, m, os) := by
  unfold alloc_in_map
  simp only [hscan, hd, if_true]

theorem scan_pools_single (type : AllokType) (s bas : Nat) (p : AkMemoryPool) :
    scan_pools type s bas [p] =
      if usub p.alloc_size p.size ≥ bas then
        (match find_block_fit type p s with
         | none => none
         | some (some off) => some (some (0, off))
         | some none => some none)
      else some none := by
  simp only [scan_pools, Option.map_some', Option.map_none']

theorem linear_step_success (w : World) (addr c t s : Nat)
    (hw : w.one_pool_filled ALLOK_LINEAR_FIT false addr c t)
    (hs : s + header_size < 2 ^ W) (hc : c < 2 ^ W) (hfit : t + (s + header_size) ≤ c) :
    ∃ r, akAlloc w s = some r ∧ r.1 = ALLOK_SUCCESS ∧
      r.2.2.one_pool_filled ALLOK_LINEAR_FIT false addr c (t + (s + header_size)) := by
  obtain ⟨m, bs, hg, hpar, hpools, hord, hend⟩ := hw
  have hlin := alloc_linear_fit_of_filled addr c t s bs hend hs hfit hc
  have hcap : usub c t ≥ uadd header_size s := by
    simp only [uadd, usub, W, header_size] at *; omega
  have hscan : scan_pools m.params.type s (uadd header_size s) m.pools
      = some (some (0, t)) := by
    rw [hpools, hpar, scan_pools_single]
    simp only [hcap, if_true, find_block_fit, hlin]
  have hp0 : m.pools[0]? = some ⟨addr, c, t, bs⟩ := by rw [hpools]; rfl
  have hchk : ¬ uadd (uadd t s) header_size > (⟨addr, c, t, bs⟩ : AkMemoryPool).alloc_size := by
    simp only [uadd, W, header_size] at *; omega
  have halloc := alloc_in_map_found m w.os s 0 t _ hscan hp0 hchk
  refine ⟨_, by rw [akAlloc_of_map w m s hg, halloc]; rfl, rfl, ?_⟩
  have hle : last_end (addr + pool_header_size) bs
      ≤ (⟨addr + pool_header_size + t, s⟩ : AkMemoryBlock).addr := by
    rw [hend]
  refine ⟨map_with_block m 0 ⟨addr, c, t, bs⟩ s t,
    bs ++ [⟨addr + pool_header_size + t, s⟩], rfl, hpar, ?_,
    blocks_ordered_append _ bs _ hord hle, ?_⟩
  · simp only [map_with_block, hpools, List.set_cons_zero, AkMemoryPool.p_start]
    rw [insert_block_append _ bs _ hord hle]
    have : uadd t (uadd s header_size) = t + (s + header_size) := by
      simp only [uadd, W, header_size] at *; omega
    rw [this]
  · rw [last_end_append]
    simp only [AkMemoryBlock.p_end, AkMemoryBlock.p_start, header_size]; omega

theorem linear_step_reject (w : World) (addr c t s : Nat)
    (hw : w.one_pool_filled ALLOK_LINEAR_FIT false addr c t)
    (hs : s + header_size < 2 ^ W) (ht : t ≤ c)
    (hfull : c < t + (s + header_size)) :
    akAlloc w s = some (ALLOK_INSUFFICIENT_POOL_MEMORY, none, w) := by
  obtain ⟨m, bs, hg, hpar, hpools, _, _⟩ := hw
  have hcap : ¬ usub c t ≥ uadd header_size s := by
    simp only [uadd, usub, W, header_size] at *; omega
  have hscan : scan_pools m.params.type s (uadd header_size s) m.pools = some none := by
    rw [hpools, scan_pools_single]
    simp only [hcap, if_false]
  have hd : m.params.is_dynamic = false := by rw [hpar]
  rw [akAlloc_of_map w m s hg, alloc_in_map_static_reject m w.os s hscan hd]
  cases w
  simp only at hg
  subst hg
  rfl

theorem linear_fill_from (s c addr : Nat) (hs : s + header_size < 2 ^ W) (hc : c < 2 ^ W) :
    ∀ (k : Nat) (w : World) (t : Nat), t ≤ c →
      w.one_pool_filled ALLOK_LINEAR_FIT false addr c t →
      ∃ wf, alloc_repeat s k w
        = some (List.replicate (min k ((c - t) / (s + header_size))) ALLOK_SUCCESS ++
            List.replicate (k - (c - t) / (s + header_size)) ALLOK_INSUFFICIENT_POOL_MEMORY,
            wf)
  | 0, w, t, _, _ => ⟨w, by simp [alloc_repeat]⟩
  | k + 1, w, t, ht, hw => by
    have hu : 0 < s + header_size := by simp only [header_size]; omega
    by_cases hfit : t + (s + header_size) ≤ c
    · obtain ⟨r, hr, hr1, hw1⟩ := linear_step_success w addr c t s hw hs hc hfit
      obtain ⟨wf, hwf⟩ := linear_fill_from s c addr hs hc k r.2.2 (t + (s + header_size)) hfit hw1
      have hdiv : (c - t) / (s + header_size)
          = (c - (t + (s + header_size))) / (s + header_size) + 1 := by
        rw [Nat.div_eq (c - t), if_pos ⟨hu, by omega⟩]
        congr 2; omega
      refine ⟨wf, ?_⟩
      simp only [alloc_repeat, hr, hwf, Option.map_some', hr1, hdiv]
      rw [Nat.succ_sub_succ, Nat.succ_min_succ, List.replicate_succ, List.cons_append]
    · have hdiv : (c - t) / (s + header_size) = 0 := Nat.div_eq_of_lt (by omega)
      have hr := linear_step_reject w addr c t s hw hs ht (by omega)
      obtain ⟨wf, hwf⟩ := linear_fill_from s c addr hs hc k w t ht hw
      refine ⟨wf, ?_⟩
      simp only [alloc_repeat, hr, hwf, Option.map_some', hdiv, Nat.min_zero, Nat.sub_zero,
        List.replicate_zero, List.nil_append, List.replicate_succ]

theorem pool_alloc_fields (os : Os) (m : AkMemoryMap) (size : Nat) :
    (akMemoryPoolAlloc os m size).2.1.params = m.params ∧
    (akMemoryPoolAlloc os m size).2.1.metadata.blocks_created = m.metadata.blocks_created ∧
    (akMemoryPoolAlloc os m size).2.1.metadata.blocks_freed = m.metadata.blocks_freed := by
  unfold akMemoryPoolAlloc
  dsimp only
  split <;> exact ⟨rfl, rfl, rfl⟩

theorem map_alloc_pools_one (size : Nat) (m : AkMemoryMap) (os : Os)
    (h : (map_alloc_pools size 1 m os).1 = ALLOK_SUCCESS) :
    ∃ a, (map_alloc_pools size 1 m os).2.1.pools = m.pools ++ [⟨a, size, 0, []⟩] ∧
      (map_alloc_pools size 1 m os).2.1.params = m.params := by
  simp only [map_alloc_pools] at h ⊢
  by_cases hpa : (akMemoryPoolAlloc os m size).1 ≠ ALLOK_SUCCESS
  · rw [if_pos hpa] at h
    exact absurd h hpa
  · rw [if_neg hpa]
    obtain ⟨a, ha⟩ := pool_alloc_last os m size (not_not.1 hpa)
    exact ⟨a, ha, (pool_alloc_fields os m size).1⟩

theorem map_alloc_one_pool (os : Os) (c : Nat) (params : AkMemoryMapParams)
    (ma : AkMemoryMap × AkMemoryArena)
    (h : (akMemoryMapAlloc os 1 c params).2.1 = some ma) :
    ∃ a, ma.1.pools = [⟨a, c, 0, []⟩] ∧ ma.1.params = ⟨params.type, params.is_dynamic⟩ := by
  unfold akMemoryMapAlloc at h
  dsimp only at h
  split at h
  · cases h
  · split at h
    · cases h
    · split at h
      · cases h
      · rename_i hok
        cases h
        obtain ⟨a, ha, hpar⟩ := map_alloc_pools_one c _ _ (not_not.1 hok)
        exact ⟨a, by rw [ha]; rfl, hpar⟩

theorem akInit_one_pool (w0 : World) (c : Nat) (type : AllokType) (dynamic : Bool)
    (h : (akInit w0 1 c ⟨type, dynamic⟩).1 = ALLOK_SUCCESS) :
    ∃ a, (akInit w0 1 c ⟨type, dynamic⟩).2.one_pool_filled type dynamic a c 0 := by
  unfold akInit at h ⊢
  dsimp only at h ⊢
  split
  · rename_i ma hma
    obtain ⟨a, hp, hpar⟩ := map_alloc_one_pool _ c _ ma hma
    exact ⟨a, ma.1, [], rfl, hpar, hp, trivial, rfl⟩
  · rename_i hnone
    rw [hnone] at h
    exact absurd h (map_alloc_success _ 1 c _ hnone)

/-- C16 (amended): after a successful `akInit(1, c, linear, dynamic = false)`, for every
`k`, of `k` successive calls `akAlloc(s)` with `s + header_size < 2 ^ W` the first
`min k (c / (s + header_size))` return `ALLOK_SUCCESS` and all the others return
`ALLOK_INSUFFICIENT_POOL_MEMORY`: the calls succeed exactly `⌊c / (s + header_size)⌋`
times. -/
theorem linear_fill_count (w0 : World) (c s k : Nat)
    (hc : c < 2 ^ W) (hs : s + header_size < 2 ^ W)
    (hinit : (akInit w0 1 c ⟨ALLOK_LINEAR_FIT, false⟩).1 = ALLOK_SUCCESS) :
    ∃ wf, alloc_repeat s k (akInit w0 1 c ⟨ALLOK_LINEAR_FIT, false⟩).2
      = some (List.replicate (min k (c / (s + header_size))) ALLOK_SUCCESS ++
          List.replicate (k - c / (s + header_size)) ALLOK_INSUFFICIENT_POOL_MEMORY, wf) := by
  obtain ⟨a, ha⟩ := akInit_one_pool w0 c ALLOK_LINEAR_FIT false hinit
  have := linear_fill_from s c a hs hc k _ 0 (Nat.zero_le _) ha
  simpa using this

/-- C16, witness of `linear_fill_count`: `c = 128`, `s = 8`, five calls. -/
theorem linear_fill_count_witness :
    128 < 2 ^ W ∧ 8 + header_size < 2 ^ W ∧
    (akInit (World.boot [4096, 8192]) 1 128 ⟨ALLOK_LINEAR_FIT, false⟩).1 = ALLOK_SUCCESS ∧
    ∃ wf, alloc_repeat 8 5 (akInit (World.boot [4096, 8192]) 1 128 ⟨ALLOK_LINEAR_FIT, false⟩).2
      = some (List.replicate (min 5 (128 / (8 + header_size))) ALLOK_SUCCESS ++
          List.replicate (5 - 128 / (8 + header_size)) ALLOK_INSUFFICIENT_POOL_MEMORY, wf) :=
  ⟨by decide, by decide, by decide,
   linear_fill_count (World.boot [4096, 8192]) 128 8 5 (by decide) (by decide) (by decide)⟩

/-- C16, counterexample to the count as stated: with `c = 128`, `s = 8` and
`header_size = 40` the claimed number of successes is `⌊(128 - 40) / (8 + 40)⌋ = 1`, and
the code serves two calls (blocks at offsets 0 and 48) before the third returns
`ALLOK_INSUFFICIENT_POOL_MEMORY`. -/
theorem linear_fill_serves_two_of_128 :
    (128 - header_size) / (8 + header_size) = 1 ∧
    (alloc_repeat 8 3 (world_one_pool 128 ALLOK_LINEAR_FIT false)).map
      (fun r => (r.1, r.2.g_map.map (fun m => m.pools)))
      = some ([ALLOK_SUCCESS, ALLOK_SUCCESS, ALLOK_INSUFFICIENT_POOL_MEMORY],
          some [{ addr := 8192, alloc_size := 128, size := 96,
                  blocks := [⟨8256, 8⟩, ⟨8304, 8⟩] }]) := by
  decide

/-! ## Exact fit -/

theorem akInit_fresh_pool (w0 : World) (c : Nat) (type : AllokType) (dynamic : Bool)
    (h : (akInit w0 1 c ⟨type, dynamic⟩).1 = ALLOK_SUCCESS) :
    ∃ a m, (akInit w0 1 c ⟨type, dynamic⟩).2.g_map = some m ∧
      m.params = ⟨type, dynamic⟩ ∧ m.pools = [⟨a, c, 0, []⟩] := by
  unfold akInit at h ⊢
  dsimp only at h ⊢
  split
  · rename_i ma hma
    obtain ⟨a, hp, hpar⟩ := map_alloc_one_pool _ c _ ma hma
    exact ⟨a, ma.1, rfl, hpar, hp⟩
  · rename_i hnone
    rw [hnone] at h
    exact absurd h (map_alloc_success _ 1 c _ hnone)

theorem find_block_fit_empty (type : AllokType) (a c t s : Nat)
    (h : c ≥ uadd header_size s) :
    find_block_fit type ⟨a, c, t, []⟩ s = some (some 0) := by
  cases type <;>
    simp [find_block_fit, alloc_linear_fit, alloc_first_fit, alloc_best_fit,
      alloc_worst_fit, h]

/-- C17 (amended): for every policy and every pool capacity `c` with
`header_size ≤ c` and `c + 1 < 2 ^ W`, on the non-dynamic map made by a successful
`akInit(1, c, params)`, `akAlloc(c - header_size)` succeeds and places the block at offset
`0` of the pool (the payload address is `pool.p_start + header_size`), and on the same
fresh pool `akAlloc(c - header_size + 1)` returns `ALLOK_INSUFFICIENT_POOL_MEMORY` and
leaves the state unchanged. -/
theorem exact_fit_boundary (w0 : World) (type : AllokType) (c : Nat)
    (hH : header_size ≤ c) (hc : c + 1 < 2 ^ W)
    (hinit : (akInit w0 1 c ⟨type, false⟩).1 = ALLOK_SUCCESS) :
    ∃ a r, akAlloc (akInit w0 1 c ⟨type, false⟩).2 (c - header_size) = some r ∧
      r.1 = ALLOK_SUCCESS ∧ r.2.1 = some (a + pool_header_size + header_size) ∧
      r.2.2.g_map.map (fun m => m.pools)
        = some [⟨a, c, c, [⟨a + pool_header_size, c - header_size⟩]⟩] ∧
      akAlloc (akInit w0 1 c ⟨type, false⟩).2 (c - header_size + 1)
        = some (ALLOK_INSUFFICIENT_POOL_MEMORY, none, (akInit w0 1 c ⟨type, false⟩).2) := by
  obtain ⟨a, m, hg, hpar, hpools⟩ := akInit_fresh_pool w0 c type false hinit
  generalize (akInit w0 1 c ⟨type, false⟩).2 = w at hg ⊢
  have hu : uadd header_size (c - header_size) = c := by
    simp only [uadd, W, header_size] at *; omega
  have hscan : scan_pools m.params.type (c - header_size)
      (uadd header_size (c - header_size)) m.pools = some (some (0, 0)) := by
    rw [hpools, hpar, scan_pools_single]
    have hcap : usub c 0 ≥ uadd header_size (c - header_size) := by
      rw [hu]; simp only [usub, W] at *; omega
    simp only [hcap, if_true,
      find_block_fit_empty type a c 0 (c - header_size) (by rw [hu])]
  have hp0 : m.pools[0]? = some ⟨a, c, 0, []⟩ := by rw [hpools]; rfl
  have hchk : ¬ uadd (uadd 0 (c - header_size)) header_size
      > (⟨a, c, 0, []⟩ : AkMemoryPool).alloc_size := by
    simp only [uadd, W, header_size] at *; omega
  have halloc := alloc_in_map_found m w.os (c - header_size) 0 0 _ hscan hp0 hchk
  refine ⟨a, _, by rw [akAlloc_of_map w m _ hg, halloc]; rfl, rfl, rfl, ?_, ?_⟩
  · have hsz : uadd 0 (uadd (c - header_size) header_size) = c := by
      simp only [uadd, W, header_size] at *; omega
    simp only [Option.map_some', map_with_block, hpools, List.set_cons_zero,
      insert_block, hsz, AkMemoryPool.p_start, Nat.add_zero]
  · have hcap : ¬ usub c 0 ≥ uadd header_size (c - header_size + 1) := by
      simp only [uadd, usub, W, header_size] at *; omega
    have hscan2 : scan_pools m.params.type (c - header_size + 1)
        (uadd header_size (c - header_size + 1)) m.pools = some none := by
      rw [hpools, scan_pools_single]
      simp only [hcap, if_false]
    have hd : m.params.is_dynamic = false := by rw [hpar]
    rw [akAlloc_of_map w m _ hg, alloc_in_map_static_reject m w.os _ hscan2 hd]
    cases w
    simp only at hg
    subst hg
    rfl

/-- C17, witness of `exact_fit_boundary`: best-fit, `c = 300`. -/
theorem exact_fit_boundary_witness :
    header_size ≤ 300 ∧ 300 + 1 < 2 ^ W ∧
    (akInit (World.boot [4096, 8192]) 1 300 ⟨ALLOK_BEST_FIT, false⟩).1 = ALLOK_SUCCESS ∧
    ∃ a r, akAlloc (akInit (World.boot [4096, 8192]) 1 300 ⟨ALLOK_BEST_FIT, false⟩).2
        (300 - header_size) = some r ∧
      r.1 = ALLOK_SUCCESS ∧ r.2.1 = some (a + pool_header_size + header_size) ∧
      r.2.2.g_map.map (fun m => m.pools)
        = some [⟨a, 300, 300, [⟨a + pool_header_size, 300 - header_size⟩]⟩] ∧
      akAlloc (akInit (World.boot [4096, 8192]) 1 300 ⟨ALLOK_BEST_FIT, false⟩).2
        (300 - header_size + 1)
        = some (ALLOK_INSUFFICIENT_POOL_MEMORY, none,
            (akInit (World.boot [4096, 8192]) 1 300 ⟨ALLOK_BEST_FIT, false⟩).2) :=
  ⟨by decide, by decide, by decide,
   exact_fit_boundary (World.boot [4096, 8192]) ALLOK_BEST_FIT 300
     (by decide) (by decide) (by decide)⟩

/-- C17, counterexample to the claim as stated (every capacity `c ≥ header_size`): for
`c = 2 ^ 64 - 1` the request `c - header_size + 1 = 2 ^ 64 - 40` makes
`sizeof(AkMemoryBlock) + size` wrap to `0`, and `akAlloc` on the fresh pool returns
`ALLOK_SUCCESS` with a block of `2 ^ 64 - 40` bytes at offset `0`. -/
theorem exact_fit_one_more_byte_accepted :
    header_size ≤ 2 ^ 64 - 1 ∧
    (2 ^ 64 - 1) - header_size + 1 = 2 ^ 64 - 40 ∧
    (world_one_pool (2 ^ 64 - 1) ALLOK_FIRST_FIT false).g_map.map (fun m => (m.params, m.pools))
      = some (⟨ALLOK_FIRST_FIT, false⟩, [⟨8192, 2 ^ 64 - 1, 0, []⟩]) ∧
    (akAlloc (world_one_pool (2 ^ 64 - 1) ALLOK_FIRST_FIT false) (2 ^ 64 - 40)).map
      (fun r => (r.1, r.2.1, r.2.2.g_map.map (fun m => m.pools)))
      = some (ALLOK_SUCCESS, some 8296,
          some [⟨8192, 2 ^ 64 - 1, 0, [⟨8256, 2 ^ 64 - 40⟩]⟩]) := by
  decide

/-! ## Dynamic growth, dump and re-initialisation -/

theorem os_mem_alloc_cons (os : Os) (a : Nat) (rest : List Nat) (size : Nat)
    (hs : os.script = a :: rest) (ha : a ≠ 0) :
    os_mem_alloc os size
      = (a, { script := rest, trace := os.trace ++ [OsEvent.acquire a size] }) := by
  unfold os_mem_alloc
  rw [hs]
  simp only [ha, if_false]

theorem alloc_in_map_grow (m : AkMemoryMap) (os : Os) (s a : Nat) (rest : List Nat)
    (hscan : scan_pools m.params.type s (uadd header_size s) m.pools = some none)
    (hd : m.params.is_dynamic = true) (hos : os.script = a :: rest) (ha : a ≠ 0) :
    ∃ r, alloc_in_map m os s = some r ∧ r.1 = ALLOK_SUCCESS ∧
      r.2.1 = some (a + pool_header_size + header_size) ∧
      r.2.2.1.pools = m.pools ++
        [⟨a, max_size ALLOK_DEFAULT_POOL_SIZE ((s + header_size) % 2 ^ W),
          (s + header_size) % 2 ^ W, [⟨a + pool_header_size, s⟩]⟩] ∧
      r.2.2.1.params = m.params ∧
      r.2.2.1.metadata = { m.metadata with
        blocks_created := m.metadata.blocks_created + 1,
        pools_created := m.metadata.pools_created + 1 } ∧
      r.2.2.1.pool_count = uadd m.pool_count 1 ∧
      r.2.2.2.script = rest := by
  have hhs : uadd header_size s = (s + header_size) % 2 ^ W := by
    simp only [uadd, Nat.add_comm]
  have hpa : akMemoryPoolAlloc os m (max_size ALLOK_DEFAULT_POOL_SIZE (uadd header_size s))
      = (ALLOK_SUCCESS,
         { m with
           pools := m.pools ++ [{ addr := a,
                                  alloc_size := max_size ALLOK_DEFAULT_POOL_SIZE (uadd header_size s),
                                  size := 0, blocks := [] }]
           pool_count := uadd m.pool_count 1
           metadata := { m.metadata with pools_created := m.metadata.pools_created + 1 } },
         { script := rest,
           trace := os.trace ++ [OsEvent.acquire a
             (uadd (max_size ALLOK_DEFAULT_POOL_SIZE (uadd header_size s)) pool_header_size)] }) := by
    unfold akMemoryPoolAlloc
    simp only [os_mem_alloc_cons os a rest _ hos ha, ha, if_false]
  have hchk : ¬ uadd (uadd 0 s) header_size
      > max_size ALLOK_DEFAULT_POOL_SIZE (uadd header_size s) := by
    simp only [uadd, max_size, W, header_size, ALLOK_DEFAULT_POOL_SIZE]
    split <;> omega
  have hd2 : ¬ m.params.is_dynamic = false := by rw [hd]; decide
  have hlen : (m.pools ++ [(⟨a, max_size ALLOK_DEFAULT_POOL_SIZE (uadd header_size s), 0, []⟩
      : AkMemoryPool)]).length - 1 = m.pools.length := by simp
  have hget : (m.pools ++ [(⟨a, max_size ALLOK_DEFAULT_POOL_SIZE (uadd header_size s), 0, []⟩
      : AkMemoryPool)])[m.pools.length]?
      = some ⟨a, max_size ALLOK_DEFAULT_POOL_SIZE (uadd header_size s), 0, []⟩ := by simp
  have hsz : uadd 0 (uadd s header_size) = (s + header_size) % 2 ^ W := by
    simp only [uadd, W]; omega
  unfold alloc_in_map
  simp only [hscan, hd2, if_false, hpa, ne_eq, not_true_eq_false, hlen]
  rw [block_create_in_map_ok _ m.pools.length s 0 _ hget hchk]
  simp only [ne_eq, not_true_eq_false, if_false, Option.map_some']
  refine ⟨_, rfl, rfl, ?_, ?_, rfl, rfl, rfl, rfl⟩
  · simp only [AkMemoryBlock.p_start, AkMemoryPool.p_start, Nat.add_zero]
  · simp only [map_with_block, insert_block, hsz, ← hhs, AkMemoryPool.p_start, Nat.add_zero,
      List.set_append_right _ _ (Nat.le_refl _), Nat.sub_self, List.set_cons_zero]

/-- C18 (amended): when the pool loop of `akAlloc` accepts no existing pool, a non-dynamic
map returns `ALLOK_INSUFFICIENT_POOL_MEMORY` with the state unchanged, and a dynamic map
whose next operating-system answer is a region at `a` appends exactly one pool at the
tail of the pool list, with `alloc_size = max(8192, (size + header_size) mod 2 ^ W)`,
holding the new block at offset `0`, and returns `pool.p_start + header_size`. -/
theorem dynamic_growth (w : World) (m : AkMemoryMap) (size a : Nat) (rest : List Nat)
    (hg : w.g_map = some m)
    (hscan : scan_pools m.params.type size (uadd header_size size) m.pools = some none) :
    (m.params.is_dynamic = false →
      akAlloc w size = some (ALLOK_INSUFFICIENT_POOL_MEMORY, none, w)) ∧
    (m.params.is_dynamic = true → w.os.script = a :: rest → a ≠ 0 →
      ∃ r, akAlloc w size = some r ∧ r.1 = ALLOK_SUCCESS ∧
        r.2.1 = some (a + pool_header_size + header_size) ∧
        r.2.2.g_map.map (fun m1 => m1.pools) = some (m.pools ++
          [⟨a, max_size ALLOK_DEFAULT_POOL_SIZE ((size + header_size) % 2 ^ W),
            (size + header_size) % 2 ^ W, [⟨a + pool_header_size, size⟩]⟩])) := by
  constructor
  · intro hd
    rw [akAlloc_of_map w m size hg, alloc_in_map_static_reject m w.os size hscan hd]
    cases w
    simp only at hg
    subst hg
    rfl
  · intro hd hos ha
    obtain ⟨r, hr, h1, h2, h3, _⟩ := alloc_in_map_grow m w.os size a rest hscan hd hos ha
    refine ⟨_, by rw [akAlloc_of_map w m size hg, hr]; rfl, h1, h2, ?_⟩
    simp only [Option.map_some', h3]

/-- C18, witness of `dynamic_growth`: a map without pools and a request of 100 bytes. -/
theorem dynamic_growth_witness :
    ((world_no_pool ALLOK_BEST_FIT false).g_map
        = some ⟨⟨ALLOK_BEST_FIT, false⟩, ⟨0, 0, 0, 0⟩, 1, []⟩ ∧
      (world_no_pool ALLOK_BEST_FIT true).g_map
        = some ⟨⟨ALLOK_BEST_FIT, true⟩, ⟨0, 0, 0, 0⟩, 1, []⟩ ∧
      scan_pools ALLOK_BEST_FIT 100 (uadd header_size 100) [] = some none ∧
      (world_no_pool ALLOK_BEST_FIT true).os.script = [8192, 16384] ∧ 8192 ≠ 0) ∧
    akAlloc (world_no_pool ALLOK_BEST_FIT false) 100
      = some (ALLOK_INSUFFICIENT_POOL_MEMORY, none, world_no_pool ALLOK_BEST_FIT false) ∧
    ∃ r, akAlloc (world_no_pool ALLOK_BEST_FIT true) 100 = some r ∧ r.1 = ALLOK_SUCCESS ∧
      r.2.1 = some (8192 + pool_header_size + header_size) ∧
      r.2.2.g_map.map (fun m1 => m1.pools) = some ([] ++
        [⟨8192, max_size ALLOK_DEFAULT_POOL_SIZE ((100 + header_size) % 2 ^ W),
          (100 + header_size) % 2 ^ W, [⟨8192 + pool_header_size, 100⟩]⟩]) :=
  ⟨⟨by decide, by decide, by decide, by decide, by decide⟩,
   (dynamic_growth (world_no_pool ALLOK_BEST_FIT false)
      ⟨⟨ALLOK_BEST_FIT, false⟩, ⟨0, 0, 0, 0⟩, 1, []⟩ 100 0 [] (by decide) (by decide)).1
      (by decide),
   (dynamic_growth (world_no_pool ALLOK_BEST_FIT true)
      ⟨⟨ALLOK_BEST_FIT, true⟩, ⟨0, 0, 0, 0⟩, 1, []⟩ 100 8192 [16384] (by decide)
      (by decide)).2 (by decide) (by decide) (by decide)⟩

/-- C18, counterexample to the pool size as stated: on a dynamic map without pools,
`akAlloc(2 ^ 64 - 1)` succeeds and appends a pool with `alloc_size = 8192`, which is not
`max(8192, size + header_size) = 2 ^ 64 + 39`; the block of `2 ^ 64 - 1` bytes is placed
at offset `0` of that pool. -/
theorem dynamic_growth_pool_size_wraps :
    (akAlloc (world_no_pool ALLOK_BEST_FIT true) (2 ^ 64 - 1)).map
      (fun r => (r.1, r.2.1, r.2.2.g_map.map (fun m => m.pools)))
      = some (ALLOK_SUCCESS, some 8296,
          some [⟨8192, 8192, 39, [⟨8256, 2 ^ 64 - 1⟩]⟩]) ∧
    8192 ≠ max 8192 ((2 ^ 64 - 1) + header_size) := by
  decide

theorem pool_free_recursive_script :
    ∀ (l : List AkMemoryPool) (st : Nat × AkMemoryMapMetadata × Os),
      (pool_free_recursive l st).2.2.script = st.2.2.script
  | [], _ => rfl
  | p :: rest, st => by
    show (os_mem_free (pool_free_recursive rest st).2.2 p.addr
      (uadd p.alloc_size pool_header_size)).script = st.2.2.script
    exact pool_free_recursive_script rest st

theorem akDump_g_map (w : World) : (akDump w).g_map = none := by
  unfold akDump
  rcases hg : w.g_map with _ | m
  · exact hg
  · rfl

theorem akDump_script (w : World) : (akDump w).os.script = w.os.script := by
  unfold akDump
  rcases hg : w.g_map with _ | m
  · rfl
  · dsimp only
    unfold akMemoryArenaDestroy akMemoryPoolFree_all
    dsimp only
    split
    · exact pool_free_recursive_script _ _
    · simp only [os_mem_free]
      exact pool_free_recursive_script _ _

theorem map_alloc_zero (os : Os) (c a0 : Nat) (tl : List Nat) (params : AkMemoryMapParams)
    (hos : os.script = a0 :: tl) (h0 : a0 ≠ 0) :
    ∃ arena os1, akMemoryMapAlloc os 0 c params
        = (ALLOK_SUCCESS,
           some (⟨⟨params.type, params.is_dynamic⟩, ⟨0, 0, 0, 0⟩, 1, []⟩, arena), os1) ∧
      os1.script = tl := by
  unfold akMemoryMapAlloc akMemoryArenaAlloc
  simp only [os_mem_alloc_cons os a0 tl _ hos h0, h0, if_false, akMemoryArenaClaim,
    map_alloc_pools]
  have hclaim : ¬ (map_header_size < map_header_size ∨
      uadd 0 map_header_size > map_header_size) := by decide
  simp only [hclaim, if_false, ne_eq, not_true_eq_false]
  exact ⟨_, _, rfl, rfl⟩

/-- C19 (amended): from every state, after `akDump()` the helpers
`akGetTotalAllocSize()`, `akGetTotalPoolCount()` and `akGetTotalBlockCount()` return `0`
and `akGetAllocMetadata()` returns all-zero counters; if the operating system then grants
two regions (the arena at `a0`, the pool at `a1`), a subsequent `akAlloc(n)` succeeds on a
fresh default map (best-fit, dynamic, no preallocated pool) that afterwards has exactly
one pool, of `alloc_size = max(8192, (n + header_size) mod 2 ^ W)`, holding exactly one
block, of `n` bytes at offset `0`, with `blocks_created = 1`, `pools_created = 1` and
nothing freed. -/
theorem dump_then_alloc (w : World) :
    akGetTotalAllocSize (akDump w) = 0 ∧ akGetTotalPoolCount (akDump w) = 0 ∧
    akGetTotalBlockCount (akDump w) = 0 ∧ akGetAllocMetadata (akDump w) = ⟨0, 0, 0, 0⟩ ∧
    ∀ (n a0 a1 : Nat) (rest : List Nat),
      w.os.script = a0 :: a1 :: rest → a0 ≠ 0 → a1 ≠ 0 →
      ∃ r, akAlloc (akDump w) n = some r ∧ r.1 = ALLOK_SUCCESS ∧
        r.2.1 = some (a1 + pool_header_size + header_size) ∧
        r.2.2.g_map = some
          ⟨⟨ALLOK_BEST_FIT, true⟩, ⟨1, 0, 1, 0⟩, 2,
           [⟨a1, max_size ALLOK_DEFAULT_POOL_SIZE ((n + header_size) % 2 ^ W),
             (n + header_size) % 2 ^ W, [⟨a1 + pool_header_size, n⟩]⟩]⟩ := by
  have hg := akDump_g_map w
  refine ⟨by simp only [akGetTotalAllocSize, hg], by simp only [akGetTotalPoolCount, hg],
    by simp only [akGetTotalBlockCount, hg], by simp only [akGetAllocMetadata, hg], ?_⟩
  intro n a0 a1 rest hos h0 h1
  rw [← akDump_script w] at hos
  generalize akDump w = d at hg hos
  obtain ⟨arena, os1, hma, hos1⟩ := map_alloc_zero d.os ALLOK_DEFAULT_POOL_SIZE a0 (a1 :: rest)
    ⟨ALLOK_BEST_FIT, true⟩ hos h0
  have hinit : akInit d ALLOK_DEFAULT_POOL_COUNT ALLOK_DEFAULT_POOL_SIZE
      ⟨ALLOK_BEST_FIT, true⟩
      = (ALLOK_SUCCESS,
         { g_map := some ⟨⟨ALLOK_BEST_FIT, true⟩, ⟨0, 0, 0, 0⟩, 1, []⟩,
           g_map_arena := some arena, os := os1 }) := by
    unfold akInit
    simp only [hg, hma]
  obtain ⟨r, hr, hr1, hr2, hr3, hr4, hr5, hr6, _⟩ :=
    alloc_in_map_grow ⟨⟨ALLOK_BEST_FIT, true⟩, ⟨0, 0, 0, 0⟩, 1, []⟩ os1 n a1 rest
      (by simp only [scan_pools]) rfl hos1 h1
  have hak : akAlloc d n = some (r.1, r.2.1,
      { g_map := some r.2.2.1, g_map_arena := some arena, os := r.2.2.2 }) := by
    unfold akAlloc
    simp only [hg, hinit, ne_eq, not_true_eq_false, if_false, hr, Option.map_some']
  refine ⟨_, hak, hr1, hr2, ?_⟩
  show some r.2.2.1 = _
  congr 1
  rcases r with ⟨r1, r2, m1, os2⟩
  cases m1
  simp only at hr3 hr4 hr5 hr6
  simp only [hr3, hr4, hr5, hr6, List.nil_append, AkMemoryMap.mk.injEq, true_and]
  exact ⟨rfl, by decide⟩

/-! ## The contract of akFree -/

theorem find_in_blocks_some (ptr : Nat) :
    ∀ (l : List AkMemoryBlock) (j : Nat), find_in_blocks ptr l = some j →
      ∃ b, l[j]? = some b ∧ b.p_start = ptr
  | [], _, h => by simp [find_in_blocks] at h
  | c :: rest, j, h => by
    unfold find_in_blocks at h
    by_cases hc : c.p_start = ptr
    · rw [if_pos hc] at h
      cases h
      exact ⟨c, by simp, hc⟩
    · rw [if_neg hc] at h
      rcases hf : find_in_blocks ptr rest with _ | j1
      · rw [hf] at h; cases h
      · rw [hf] at h
        cases h
        obtain ⟨b, hb, hp⟩ := find_in_blocks_some ptr rest j1 hf
        exact ⟨b, by simpa using hb, hp⟩

theorem find_in_blocks_none (ptr : Nat) :
    ∀ l : List AkMemoryBlock, (∀ b ∈ l, b.p_start ≠ ptr) → find_in_blocks ptr l = none
  | [], _ => rfl
  | c :: rest, h => by
    unfold find_in_blocks
    rw [if_neg (h c (List.mem_cons_self _ _)),
      find_in_blocks_none ptr rest (fun b hb => h b (List.mem_cons_of_mem _ hb))]
    rfl

theorem find_in_pools_some (ptr : Nat) :
    ∀ (l : List AkMemoryPool) (ij : Nat × Nat), find_in_pools ptr l = some ij →
      ∃ pool block, l[ij.1]? = some pool ∧ pool.blocks[ij.2]? = some block ∧
        block.p_start = ptr ∧ is_ptr_in_range ptr pool.p_start pool.alloc_size = true
  | [], _, h => by simp [find_in_pools] at h
  | p :: rest, ij, h => by
    unfold find_in_pools at h
    dsimp only at h
    split at h
    · rename_i j hj
      cases h
      by_cases hr : is_ptr_in_range ptr p.p_start p.alloc_size = true
      · rw [if_pos hr] at hj
        obtain ⟨b, hb, hp⟩ := find_in_blocks_some ptr p.blocks j hj
        exact ⟨p, b, by simp, hb, hp, hr⟩
      · rw [if_neg hr] at hj; cases hj
    · rcases hf : find_in_pools ptr rest with _ | ij1
      · rw [hf] at h; cases h
      · rw [hf] at h
        cases h
        obtain ⟨pool, block, h1, h2, h3, h4⟩ := find_in_pools_some ptr rest ij1 hf
        exact ⟨pool, block, by simpa using h1, h2, h3, h4⟩

theorem find_in_pools_none (ptr : Nat) :
    ∀ l : List AkMemoryPool, (∀ p ∈ l, ∀ b ∈ p.blocks, b.p_start ≠ ptr) →
      find_in_pools ptr l = none
  | [], _ => rfl
  | p :: rest, h => by
    unfold find_in_pools
    have h1 := find_in_blocks_none ptr p.blocks (h p (List.mem_cons_self _ _))
    have h2 := find_in_pools_none ptr rest (fun q hq => h q (List.mem_cons_of_mem _ hq))
    simp only [h1, h2, ite_self, Option.map_none']

theorem eraseIdx_set_same {α : Type} (q : α) :
    ∀ (l : List α) (i : Nat), (l.set i q).eraseIdx i = l.eraseIdx i
  | [], _ => rfl
  | _ :: _, 0 => rfl
  | a :: rest, i + 1 => by
    simp only [List.set_cons_succ, List.eraseIdx_cons_succ, eraseIdx_set_same q rest i]

theorem count_set (f : AkMemoryPool → Nat) (q : AkMemoryPool) :
    ∀ (l : List AkMemoryPool) (i : Nat) (p : AkMemoryPool), l[i]? = some p →
      ((l.set i q).map f).sum + f p = (l.map f).sum + f q
  | [], _, _, h => by simp at h
  | a :: rest, 0, p, h => by
    simp at h; subst h
    simp only [List.set_cons_zero, List.map_cons, List.sum_cons]; omega
  | a :: rest, i + 1, p, h => by
    simp at h
    have ih := count_set f q rest i p h
    simp only [List.set_cons_succ, List.map_cons, List.sum_cons]; omega

theorem count_eraseIdx (f : AkMemoryPool → Nat) :
    ∀ (l : List AkMemoryPool) (i : Nat) (p : AkMemoryPool), l[i]? = some p →
      ((l.eraseIdx i).map f).sum + f p = (l.map f).sum
  | [], _, _, h => by simp at h
  | a :: rest, 0, p, h => by
    simp at h; subst h
    simp only [List.eraseIdx_cons_zero, List.map_cons, List.sum_cons]; omega
  | a :: rest, i + 1, p, h => by
    simp at h
    have ih := count_eraseIdx f rest i p h
    simp only [List.eraseIdx_cons_succ, List.map_cons, List.sum_cons]; omega

theorem block_sum_eq_zero : ∀ l : List AkMemoryBlock, block_sum l = 0 → l = []
  | [], _ => rfl
  | b :: rest, h => by
    simp only [block_sum, header_size] at h; omega

theorem block_find_cases (m : AkMemoryMap) (ptr : Nat) :
    ((akMemoryBlockFind m ptr).2 = none ∧ (akMemoryBlockFind m ptr).1 ≠ ALLOK_SUCCESS) ∨
    (∃ ij, (akMemoryBlockFind m ptr).2 = some ij ∧ find_in_pools ptr m.pools = some ij) := by
  unfold akMemoryBlockFind
  by_cases h0 : ptr = 0
  · rw [if_pos h0]; left; exact ⟨rfl, by decide⟩
  · rw [if_neg h0]
    rcases hf : find_in_pools ptr m.pools with _ | ij
    · left; exact ⟨rfl, by decide⟩
    · right; exact ⟨ij, rfl, rfl⟩

/-- What `akMemoryBlockFree` does to the map when the block at `(i, j)` exists. -/
theorem block_free_effect (m : AkMemoryMap) (os : Os) (i j : Nat)
    (pool : AkMemoryPool) (block : AkMemoryBlock)
    (hp : m.pools[i]? = some pool) (hb : pool.blocks[j]? = some block) :
    (akMemoryBlockFree m os i j).1.metadata.blocks_freed = m.metadata.blocks_freed + 1 ∧
    (akMemoryBlockFree m os i j).1.metadata.blocks_created = m.metadata.blocks_created ∧
    (((akMemoryBlockFree m os i j).1.pools = m.pools.set i
        { pool with blocks := pool.blocks.eraseIdx j,
                    size := usub pool.size (uadd block.size header_size) } ∧
      ¬ usub pool.size (uadd block.size header_size) ≤ 0) ∨
     ((akMemoryBlockFree m os i j).1.pools = m.pools.eraseIdx i ∧
      usub pool.size (uadd block.size header_size) ≤ 0)) := by
  unfold akMemoryBlockFree
  rw [hp]
  dsimp only
  rw [hb]
  dsimp only
  by_cases hz : usub pool.size (uadd block.size header_size) ≤ 0
  · rw [if_pos hz]
    have hget : (m.pools.set i
        ({ pool with blocks := pool.blocks.eraseIdx j,
                     size := usub pool.size (uadd block.size header_size) }))[i]?
        = some { pool with blocks := pool.blocks.eraseIdx j,
                           size := usub pool.size (uadd block.size header_size) } := by
      have hlt : i < m.pools.length := (List.getElem?_eq_some.1 hp).1
      simp [List.getElem?_set, hlt]
    unfold akMemoryPoolFree
    dsimp only
    rw [hget]
    dsimp only
    rw [eraseIdx_set_same]
    exact ⟨rfl, rfl, Or.inr ⟨rfl, hz⟩⟩
  · rw [if_neg hz]
    exact ⟨rfl, rfl, Or.inl ⟨rfl, hz⟩⟩

/-- C20, what holds of `akFree` in every state, and the count of blocks in the states that
satisfy the accounting invariant.  Without a map it returns `ALLOK_UNINITIALIZED`.  With
a map, a non-null target that is the payload start of no block gives `ALLOK_NOT_FOUND`,
with state and handle unchanged.  On `ALLOK_SUCCESS` the handle is null, the block found
has `p_start = target`, `blocks_freed` went up by one, and the pool list is the old one
with exactly that block unlinked from its pool, or with that pool released when its
`size` reached zero; when every pool's `size` is the sum over its blocks, the number of
live blocks went down by exactly one. -/
theorem akFree_contract (w : World) (target : Nat) :
    (w.g_map = none → akFree w target = (ALLOK_UNINITIALIZED, target, w)) ∧
    (∀ m, w.g_map = some m → target ≠ 0 →
      (∀ p ∈ m.pools, ∀ b ∈ p.blocks, b.p_start ≠ target) →
      akFree w target = (ALLOK_NOT_FOUND, target, w)) ∧
    ((akFree w target).1 = ALLOK_SUCCESS →
      (akFree w target).2.1 = 0 ∧
      ∃ m m1 i j pool block, w.g_map = some m ∧ (akFree w target).2.2.g_map = some m1 ∧
        m.pools[i]? = some pool ∧ pool.blocks[j]? = some block ∧ block.p_start = target ∧
        m1.metadata.blocks_freed = m.metadata.blocks_freed + 1 ∧
        (m1.pools = m.pools.set i
            { pool with blocks := pool.blocks.eraseIdx j,
                        size := usub pool.size (uadd block.size header_size) } ∨
          m1.pools = m.pools.eraseIdx i) ∧
        (w.accounted → live_blocks m1 + 1 = live_blocks m)) := by
  refine ⟨?_, ?_, ?_⟩
  · intro hg
    unfold akFree
    rw [hg]
  · intro m hg h0 habs
    have hf := find_in_pools_none target m.pools habs
    unfold akFree
    simp only [hg, akMemoryBlockFind, h0, if_false, hf]
  · intro hsucc
    unfold akFree at hsucc ⊢
    rcases hg : w.g_map with _ | m
    · rw [hg] at hsucc; dsimp only at hsucc; exact absurd hsucc (by decide)
    · rw [hg] at hsucc
      dsimp only at hsucc ⊢
      rcases block_find_cases m target with ⟨hnone, hne⟩ | ⟨ij, hsome, hfind⟩
      · rw [hnone] at hsucc; exact absurd hsucc hne
      · rw [hsome]
        dsimp only
        obtain ⟨pool, block, hp, hb, hps, _⟩ := find_in_pools_some target m.pools ij hfind
        obtain ⟨hfreed, _, hpools⟩ := block_free_effect m w.os ij.1 ij.2 pool block hp hb
        refine ⟨rfl, m, _, ij.1, ij.2, pool, block, rfl, rfl, hp, hb, hps, hfreed, ?_, ?_⟩
        · rcases hpools with h | h
          · exact Or.inl h.1
          · exact Or.inr h.1
        · intro hacc
          obtain ⟨h1, h2, h3⟩ := hacc m hg pool (List.getElem?_mem hp)
          have he := block_sum_eraseIdx pool.blocks ij.2 block hb
          have hlen : (pool.blocks.eraseIdx ij.2).length + 1 = pool.blocks.length := by
            have hlt : ij.2 < pool.blocks.length := (List.getElem?_eq_some.1 hb).1
            rw [List.length_eraseIdx_of_lt hlt]; omega
          unfold live_blocks
          rcases hpools with ⟨h, _⟩ | ⟨h, hz⟩
          · rw [h]
            have := count_set (fun p => p.blocks.length)
              { pool with blocks := pool.blocks.eraseIdx ij.2,
                          size := usub pool.size (uadd block.size header_size) }
              m.pools ij.1 pool hp
            simp only at this
            omega
          · rw [h]
            have := count_eraseIdx (fun p => p.blocks.length) m.pools ij.1 pool hp
            simp only at this
            have hzero : block_sum (pool.blocks.eraseIdx ij.2) = 0 := by
              simp only [uadd, usub, W, header_size] at *; omega
            have hnil := block_sum_eq_zero _ hzero
            rw [hnil] at hlen
            simp only [List.length_nil] at hlen
            omega

/-- C19, witness of `dump_then_alloc`: the state after `akInit(1, 300)`, two `akAlloc(100)`
and one `akFree`, then `akDump()` and `akAlloc(100)`, the operating system granting
regions at 16384 and 32768. -/
theorem dump_then_alloc_witness :
    ((world_after_free_a ALLOK_FIRST_FIT).os.script = [16384, 32768] ∧
      16384 ≠ 0 ∧ 32768 ≠ 0) ∧
    akGetTotalAllocSize (akDump (world_after_free_a ALLOK_FIRST_FIT)) = 0 ∧
    ∃ r, akAlloc (akDump (world_after_free_a ALLOK_FIRST_FIT)) 100 = some r ∧
      r.1 = ALLOK_SUCCESS ∧
      r.2.1 = some (32768 + pool_header_size + header_size) ∧
      r.2.2.g_map = some
        ⟨⟨ALLOK_BEST_FIT, true⟩, ⟨1, 0, 1, 0⟩, 2,
         [⟨32768, max_size ALLOK_DEFAULT_POOL_SIZE ((100 + header_size) % 2 ^ W),
           (100 + header_size) % 2 ^ W, [⟨32768 + pool_header_size, 100⟩]⟩]⟩ :=
  ⟨⟨by decide, by decide, by decide⟩,
   (dump_then_alloc (world_after_free_a ALLOK_FIRST_FIT)).1,
   (dump_then_alloc (world_after_free_a ALLOK_FIRST_FIT)).2.2.2.2 100 16384 32768 []
     (by decide) (by decide) (by decide)⟩

/-- C19, counterexample to the pool size as stated: after `akDump()`, `akAlloc(2 ^ 64 - 1)`
succeeds on the fresh default map with a single pool of `alloc_size = 8192`, which is not
`max(8192, n + header_size) = 2 ^ 64 + 39`. -/
theorem dump_then_alloc_pool_size_wraps :
    (akAlloc (akDump (world_after_free_a ALLOK_FIRST_FIT)) (2 ^ 64 - 1)).map
      (fun r => (r.1, r.2.2.g_map))
      = some (ALLOK_SUCCESS, some
          ⟨⟨ALLOK_BEST_FIT, true⟩, ⟨1, 0, 1, 0⟩, 2,
           [⟨32768, 8192, 39, [⟨32832, 2 ^ 64 - 1⟩]⟩]⟩) ∧
    8192 ≠ max 8192 ((2 ^ 64 - 1) + header_size) := by
  decide

/-- C20, an instance of `akFree_contract`: no map; a map and an address that starts no block;
and the successful `akFree` of the first of two blocks. -/
theorem akFree_contract_witness :
    ((World.boot []).g_map = none ∧
      akFree (World.boot []) 8296 = (ALLOK_UNINITIALIZED, 8296, World.boot [])) ∧
    (((world_after_free_a ALLOK_FIRST_FIT).g_map
        = some ⟨⟨ALLOK_FIRST_FIT, false⟩, ⟨2, 1, 1, 0⟩, 2, [pool_prefix_gap]⟩ ∧
      (8296 : Nat) ≠ 0 ∧
      ∀ p ∈ [pool_prefix_gap], ∀ b ∈ p.blocks, b.p_start ≠ 8296) ∧
      akFree (world_after_free_a ALLOK_FIRST_FIT) 8296
        = (ALLOK_NOT_FOUND, 8296, world_after_free_a ALLOK_FIRST_FIT)) ∧
    ((akFree (world_after_free_a ALLOK_FIRST_FIT) 8436).1 = ALLOK_SUCCESS ∧
      (world_after_free_a ALLOK_FIRST_FIT).accounted ∧
      (akFree (world_after_free_a ALLOK_FIRST_FIT) 8436).2.1 = 0) :=
  ⟨⟨by decide, (akFree_contract (World.boot []) 8296).1 (by decide)⟩,
   ⟨⟨by decide, by decide, by decide⟩,
    (akFree_contract (world_after_free_a ALLOK_FIRST_FIT) 8296).2.1
      ⟨⟨ALLOK_FIRST_FIT, false⟩, ⟨2, 1, 1, 0⟩, 2, [pool_prefix_gap]⟩
      (by decide) (by decide) (by decide)⟩,
   ⟨by decide,
    fun m hm p hp => by
      have h : m = ⟨⟨ALLOK_FIRST_FIT, false⟩, ⟨2, 1, 1, 0⟩, 2, [pool_prefix_gap]⟩ :=
        (Option.some.inj hm).symm
      subst h
      have hp2 : p = pool_prefix_gap := List.mem_singleton.1 hp
      subst hp2
      decide,
    ((akFree_contract (world_after_free_a ALLOK_FIRST_FIT) 8436).2.2 (by decide)).1⟩⟩

/-! ## Worst-fit scenario, region ownership, size wrap and arena -/

/-- C24: after `akInit(1, 1024, worst-fit, non-dynamic)`, `a = akAlloc(100)`,
`b = akAlloc(100)`, `c = akAlloc(100)`, `akFree(b)`, the next `akAlloc(64)` succeeds; its
header starts at 8676, the end of payload of `c` (header at 8536, payload 8576 to 8676),
which is the start of the tail gap, and its payload address 8716 is above the payload
address 8576 of `c`. -/
theorem worst_fit_scenario :
    (run (world_one_pool 1024 ALLOK_WORST_FIT false)
        [Op.alloc 100, Op.alloc 100, Op.alloc 100, Op.free 8436]).map
      (fun w => w.g_map.map (fun m => m.pools))
      = some (some [{ addr := 8192, alloc_size := 1024, size := 280,
                      blocks := [⟨8256, 100⟩, ⟨8536, 100⟩] }]) ∧
    ((run (world_one_pool 1024 ALLOK_WORST_FIT false)
        [Op.alloc 100, Op.alloc 100, Op.alloc 100, Op.free 8436]).bind
      (fun w => akAlloc w 64)).map
      (fun r => (r.1, r.2.1, r.2.2.g_map.map (fun m => m.pools)))
      = some (ALLOK_SUCCESS, some 8716,
          some [{ addr := 8192, alloc_size := 1024, size := 384,
                  blocks := [⟨8256, 100⟩, ⟨8536, 100⟩, ⟨8676, 64⟩] }]) ∧
    (⟨8536, 100⟩ : AkMemoryBlock).p_end = (⟨8676, 64⟩ : AkMemoryBlock).addr ∧
    (⟨8536, 100⟩ : AkMemoryBlock).p_start < (⟨8676, 64⟩ : AkMemoryBlock).p_start ∧
    (⟨8676, 64⟩ : AkMemoryBlock).p_start = 8716 := by
  decide

/-- C25: `akInit(0, 0, params)`, then `akInit(0, 0, params)` again on the existing map,
which has no pool, then `akDump()`.  The second `akInit` does not dump the first map, so
its arena, acquired at 4096, is never released: the operating system sees two
acquisitions and the release of the second arena only. -/
theorem reinit_leaks_arena :
    (akDump (akInit (akInit (World.boot [4096, 8192]) 0 0 ⟨ALLOK_BEST_FIT, true⟩).2 0 0
      ⟨ALLOK_BEST_FIT, true⟩).2).os.trace
      = [OsEvent.acquire 4096 104, OsEvent.acquire 8192 104, OsEvent.release 8192 104] ∧
    (akInit (World.boot [4096, 8192]) 0 0 ⟨ALLOK_BEST_FIT, true⟩).2.g_map.map
      (fun m => m.pools) = some [] ∧
    OsEvent.release 4096 104 ∉
      (akDump (akInit (akInit (World.boot [4096, 8192]) 0 0 ⟨ALLOK_BEST_FIT, true⟩).2 0 0
        ⟨ALLOK_BEST_FIT, true⟩).2).os.trace := by
  decide

/-- C28: on the non-dynamic map of `akInit(1, 100, first-fit)`, `akAlloc(2 ^ 64 - 40)`
returns `ALLOK_SUCCESS`: `sizeof(AkMemoryBlock) + size` wraps to `0`, the capacity test,
the fit policy and `akMemoryBlockCreate` all accept, and a block of `2 ^ 64 - 40` bytes is
created in the pool of 100 bytes, while the true value `size + header_size = 2 ^ 64`
exceeds the `alloc_size` of the only pool. -/
theorem alloc_wraps_to_success :
    (world_one_pool 100 ALLOK_FIRST_FIT false).g_map.map (fun m => (m.params, m.pools))
      = some (⟨ALLOK_FIRST_FIT, false⟩, [⟨8192, 100, 0, []⟩]) ∧
    (2 ^ 64 - 40) + header_size > 100 ∧
    (akAlloc (world_one_pool 100 ALLOK_FIRST_FIT false) (2 ^ 64 - 40)).map
      (fun r => (r.1, r.2.1, r.2.2.g_map.map (fun m => m.pools)))
      = some (ALLOK_SUCCESS, some 8296,
          some [⟨8192, 100, 0, [⟨8256, 2 ^ 64 - 40⟩]⟩]) ∧
    header_size + (2 ^ 64 - 40) > (⟨8192, 100, 0, [⟨8256, 2 ^ 64 - 40⟩]⟩ : AkMemoryPool).alloc_size := by
  decide

/-- C30: the arena of `akMemoryArenaAlloc(&arena, 100)`.  After one successful claim of 10
bytes, `akMemoryArenaFree` of 50 bytes at the claimed address succeeds and leaves
`arena.size = 2 ^ 64 - 40`, above `alloc_size = 100`.  After two successful claims of 10
bytes, freeing the second one (handle stored at address 1000) succeeds and leaves
`size = 10` with `p_current = p_start + 20`. -/
theorem arena_free_breaks_invariant :
    akMemoryArenaAlloc ⟨[4096], []⟩ 100
      = (ALLOK_SUCCESS, some arena_100, ⟨[], [OsEvent.acquire 4096 148]⟩) ∧
    akMemoryArenaClaim arena_100 10 = (ALLOK_SUCCESS, 4144, ⟨4096, 100, 10, 4144, 4154⟩) ∧
    akMemoryArenaFree ⟨4096, 100, 10, 4144, 4154⟩ 1000 4144 50
      = (ALLOK_SUCCESS, 0, ⟨4096, 100, 2 ^ 64 - 40, 4144, 4154⟩) ∧
    ¬ ((2 : Nat) ^ 64 - 40 ≤ 100) ∧
    akMemoryArenaClaim ⟨4096, 100, 10, 4144, 4154⟩ 10
      = (ALLOK_SUCCESS, 4154, ⟨4096, 100, 20, 4144, 4164⟩) ∧
    akMemoryArenaFree ⟨4096, 100, 20, 4144, 4164⟩ 1000 4154 10
      = (ALLOK_SUCCESS, 0, ⟨4096, 100, 10, 4144, 4164⟩) ∧
    (4164 : Nat) ≠ 4144 + 10 := by
  decide

/-! ## Termination of the fit scans -/

theorem get_ptr_fragment_of_le (a size_a b : Nat) (h : a + size_a ≤ b) :
    get_ptr_fragment a size_a b = some ((b - (a + size_a) % 2 ^ W) % 2 ^ W) := by
  have hle : (a + size_a) % 2 ^ W ≤ b := Nat.le_trans (Nat.mod_le _ _) h
  unfold get_ptr_fragment
  simp only [gt_iff_lt, Nat.not_lt.2 hle, if_false]

theorem first_fit_loop_terminates (ps need : Nat) :
    ∀ (rest : List AkMemoryBlock) (prev : AkMemoryBlock), blocks_ordered prev.p_end rest →
      ∃ r, first_fit_loop ps need prev rest = some r
  | [], _, _ => ⟨none, rfl⟩
  | curr :: rest, prev, h => by
    unfold first_fit_loop
    rw [get_ptr_fragment_of_le prev.p_start prev.size curr.addr h.1]
    dsimp only
    split
    · exact ⟨_, rfl⟩
    · exact first_fit_loop_terminates ps need rest curr h.2

theorem best_fit_loop_terminates (ps need : Nat) :
    ∀ (rest : List AkMemoryBlock) (prev : AkMemoryBlock) (st : ScanState),
      blocks_ordered prev.p_end rest → ∃ r, best_fit_loop ps need st prev rest = some r
  | [], _, st, _ => ⟨st, rfl⟩
  | curr :: rest, prev, st, h => by
    unfold best_fit_loop
    rw [get_ptr_fragment_of_le prev.p_start prev.size curr.addr h.1]
    exact best_fit_loop_terminates ps need rest curr _ h.2

theorem worst_fit_loop_terminates (ps need : Nat) :
    ∀ (rest : List AkMemoryBlock) (prev : AkMemoryBlock) (st : ScanState),
      blocks_ordered prev.p_end rest → ∃ r, worst_fit_loop ps need st prev rest = some r
  | [], _, st, _ => ⟨st, rfl⟩
  | curr :: rest, prev, st, h => by
    unfold worst_fit_loop
    rw [get_ptr_fragment_of_le prev.p_start prev.size curr.addr h.1]
    exact worst_fit_loop_terminates ps need rest curr _ h.2

/-- C26, the conditional part: on every pool whose (finite) block list is in strict
ascending address order without overlap (each header at or after the end of payload of
its predecessor), and for every request size, `alloc_first_fit`, `alloc_best_fit` and `alloc_worst_fit` return:
`get_ptr_fragment` succeeds on every interior pair, so the `continue` that does not
advance is never taken. -/
theorem fit_scans_terminate (p : AkMemoryPool) (size lo : Nat)
    (h : blocks_ordered lo p.blocks) :
    (∃ r, alloc_first_fit p size = some r) ∧ (∃ r, alloc_best_fit p size = some r) ∧
      (∃ r, alloc_worst_fit p size = some r) := by
  rcases hb : p.blocks with _ | ⟨head, rest⟩
  · exact ⟨⟨_, by unfold alloc_first_fit; rw [hb]⟩, ⟨_, by unfold alloc_best_fit; rw [hb]⟩,
      ⟨_, by unfold alloc_worst_fit; rw [hb]⟩⟩
  · rw [hb] at h
    refine ⟨?_, ?_, ?_⟩
    · unfold alloc_first_fit
      rw [hb]
      dsimp only
      split
      · exact ⟨_, rfl⟩
      · unfold first_fit_tail
        obtain ⟨r, hr⟩ := first_fit_loop_terminates p.p_start (uadd header_size size)
          rest head h.2
        rw [hr]
        dsimp only
        rcases r with _ | off
        · dsimp only
          split
          · split <;> exact ⟨_, rfl⟩
          · exact ⟨_, rfl⟩
        · exact ⟨_, rfl⟩
    · unfold alloc_best_fit
      rw [hb]
      dsimp only
      obtain ⟨r, hr⟩ := best_fit_loop_terminates p.p_start (uadd header_size size) rest head
        (match get_ptr_fragment p.p_start 0 head.addr with
          | some frag_size =>
            if frag_size ≥ uadd header_size size then ⟨frag_size, 0, false⟩
            else ⟨p.alloc_size, 0, false⟩
          | none => ⟨p.alloc_size, 0, false⟩) h.2
      rw [hr]
      dsimp only
      split
      · exact ⟨_, rfl⟩
      · split <;> exact ⟨_, rfl⟩
    · unfold alloc_worst_fit
      rw [hb]
      dsimp only
      obtain ⟨r, hr⟩ := worst_fit_loop_terminates p.p_start (uadd header_size size) rest head
        (match get_ptr_fragment p.p_start 0 head.addr with
          | some frag_size =>
            if frag_size ≥ uadd header_size size then ⟨frag_size, 0, false⟩
            else ⟨0, 0, false⟩
          | none => ⟨0, 0, false⟩) h.2
      rw [hr]
      dsimp only
      split
      · exact ⟨_, rfl⟩
      · split <;> exact ⟨_, rfl⟩

/-- C26, an instance of `fit_scans_terminate`: the pool with blocks at offsets 0 and 280 of
1024 bytes and a request of 64 bytes. -/
theorem fit_scans_terminate_witness :
    blocks_ordered 8256 [⟨8256, 100⟩, ⟨8536, 100⟩] ∧
    ((∃ r, alloc_first_fit ⟨8192, 1024, 280, [⟨8256, 100⟩, ⟨8536, 100⟩]⟩ 64 = some r) ∧
     (∃ r, alloc_best_fit ⟨8192, 1024, 280, [⟨8256, 100⟩, ⟨8536, 100⟩]⟩ 64 = some r) ∧
     (∃ r, alloc_worst_fit ⟨8192, 1024, 280, [⟨8256, 100⟩, ⟨8536, 100⟩]⟩ 64 = some r)) :=
  ⟨by decide,
   fit_scans_terminate ⟨8192, 1024, 280, [⟨8256, 100⟩, ⟨8536, 100⟩]⟩ 64 8256 (by decide)⟩

/-! ## Preallocated pools -/

theorem akFree_success_inv (w : World) (target : Nat)
    (h : (akFree w target).1 = ALLOK_SUCCESS) :
    ∃ (m : AkMemoryMap) (ij : Nat × Nat) (pool : AkMemoryPool) (block : AkMemoryBlock),
      w.g_map = some m ∧ m.pools[ij.1]? = some pool ∧
      pool.blocks[ij.2]? = some block ∧ block.p_start = target ∧
      (akFree w target).2.2
        = { w with g_map := some (akMemoryBlockFree m w.os ij.1 ij.2).1,
                   os := (akMemoryBlockFree m w.os ij.1 ij.2).2 } := by
  unfold akFree at h ⊢
  rcases hg : w.g_map with _ | m
  · rw [hg] at h; dsimp only at h; exact absurd h (by decide)
  · rw [hg] at h
    dsimp only at h ⊢
    rcases block_find_cases m target with ⟨hnone, hne⟩ | ⟨ij, hsome, hfind⟩
    · rw [hnone] at h; exact absurd h hne
    · rw [hsome]
      obtain ⟨pool, block, hp, hb, hps, _⟩ := find_in_pools_some target m.pools ij hfind
      exact ⟨m, ij, pool, block, rfl, hp, hb, hps, rfl⟩

theorem block_free_params (m : AkMemoryMap) (os : Os) (i j : Nat) :
    (akMemoryBlockFree m os i j).1.params = m.params := by
  unfold akMemoryBlockFree
  split
  · rfl
  · split
    · rfl
    · dsimp only
      split
      · unfold akMemoryPoolFree
        dsimp only
        split <;> rfl
      · rfl

theorem akAlloc_no_pool_static (w : World) (m : AkMemoryMap) (s : Nat)
    (hg : w.g_map = some m) (hp : m.pools = []) (hd : m.params.is_dynamic = false) :
    akAlloc w s = some (ALLOK_INSUFFICIENT_POOL_MEMORY, none, w) := by
  have hscan : scan_pools m.params.type s (uadd header_size s) m.pools = some none := by
    rw [hp]; rfl
  rw [akAlloc_of_map w m s hg, alloc_in_map_static_reject m w.os s hscan hd]
  cases w
  simp only at hg
  subst hg
  rfl

/-- Outcome of `alloc_in_map` on a non-dynamic map whose only pool is empty: a failure, or
the map with one block in that pool. -/
theorem alloc_in_fresh_pool (m : AkMemoryMap) (os : Os) (s a c : Nat)
    (r : AllokResult × Option Nat × AkMemoryMap × Os)
    (hpools : m.pools = [⟨a, c, 0, []⟩]) (hd : m.params.is_dynamic = false)
    (hr : alloc_in_map m os s = some r) (hok : r.1 = ALLOK_SUCCESS) :
    ∃ off, r.2.1 = some (a + pool_header_size + off + header_size) ∧
      r.2.2.1.pools = [⟨a, c, uadd 0 (uadd s header_size), [⟨a + pool_header_size + off, s⟩]⟩] ∧
      r.2.2.1.params = m.params := by
  unfold alloc_in_map at hr
  dsimp only at hr
  rcases hsc : scan_pools m.params.type s (uadd header_size s) m.pools with _ | sc
  · rw [hsc] at hr; cases hr
  · rw [hsc] at hr
    rcases sc with _ | found
    · dsimp only at hr
      rw [if_pos hd] at hr
      cases hr
      simp at hok
    · dsimp only at hr
      obtain ⟨p, hp, _, _⟩ := scan_pools_some _ _ _ _ found.1 found.2 hsc
      have hi : found.1 = 0 := by
        rw [hpools] at hp
        rcases hf : found.1 with _ | k
        · rfl
        · rw [hf] at hp; simp at hp
      rw [hi] at hp hr
      have hp0 : p = ⟨a, c, 0, []⟩ := by
        rw [hpools] at hp; simp at hp; exact hp.symm
      by_cases hchk : uadd (uadd found.2 s) header_size > p.alloc_size
      · have hfail : (block_create_in_map m 0 s found.2).1 ≠ ALLOK_SUCCESS := by
          unfold block_create_in_map akMemoryBlockCreate
          simp [hp, hchk]
        rw [if_pos hfail] at hr
        cases hr
        exact absurd hok hfail
      · rw [block_create_in_map_ok m 0 s found.2 p hp hchk] at hr
        simp only [ne_eq, not_true_eq_false, if_false, Option.map_some'] at hr
        cases hr
        subst hp0
        refine ⟨found.2, rfl, ?_, rfl⟩
        simp only [map_with_block, hpools, List.set_cons_zero, insert_block,
          AkMemoryPool.p_start]

/-- C29, the case in which `akFree` finds the block: in a non-dynamic map made by a
successful `akInit(1, c, params)`, after one successful `akAlloc` and a successful `akFree`
of that block, the pool list is empty, and every subsequent `akAlloc`, of any size,
returns `ALLOK_INSUFFICIENT_POOL_MEMORY` and changes nothing. -/
theorem preallocated_pool_not_retained (w0 : World) (type : AllokType) (c s p : Nat)
    (w2 : World)
    (hinit : (akInit w0 1 c ⟨type, false⟩).1 = ALLOK_SUCCESS)
    (halloc : akAlloc (akInit w0 1 c ⟨type, false⟩).2 s = some (ALLOK_SUCCESS, some p, w2))
    (hfree : (akFree w2 p).1 = ALLOK_SUCCESS) :
    (akFree w2 p).2.2.g_map.map (fun m => m.pools) = some [] ∧
    ∀ s1, akAlloc (akFree w2 p).2.2 s1
      = some (ALLOK_INSUFFICIENT_POOL_MEMORY, none, (akFree w2 p).2.2) := by
  obtain ⟨a, m, hg, hpar, hpools⟩ := akInit_fresh_pool w0 c type false hinit
  have hd : m.params.is_dynamic = false := by rw [hpar]
  rw [akAlloc_of_map _ m s hg] at halloc
  rcases hr : alloc_in_map m (akInit w0 1 c ⟨type, false⟩).2.os s with _ | r
  · rw [hr] at halloc; cases halloc
  · rw [hr] at halloc
    simp only [Option.map_some', Option.some.injEq, Prod.mk.injEq] at halloc
    obtain ⟨hr1, hr2, hw2⟩ := halloc
    obtain ⟨off, _, hp2, hpar2⟩ := alloc_in_fresh_pool m _ s a c r hpools hd hr hr1
    obtain ⟨m2, ij, pool, block, hg2, hpl, hbl, _, hres⟩ := akFree_success_inv w2 p hfree
    have hm2 : m2 = r.2.2.1 := by
      rw [← hw2] at hg2; exact (Option.some.inj hg2).symm
    subst hm2
    have hi : ij.1 = 0 := by
      rw [hp2] at hpl
      rcases hf : ij.1 with _ | k
      · rfl
      · rw [hf] at hpl; simp at hpl
    rw [hi] at hpl
    have hpool : pool = ⟨a, c, uadd 0 (uadd s header_size),
        [⟨a + pool_header_size + off, s⟩]⟩ := by
      rw [hp2] at hpl; simp at hpl; exact hpl.symm
    have hj : ij.2 = 0 := by
      rw [hpool] at hbl
      rcases hf : ij.2 with _ | k
      · rfl
      · rw [hf] at hbl; simp at hbl
    rw [hj] at hbl
    have hblock : block = ⟨a + pool_header_size + off, s⟩ := by
      rw [hpool] at hbl; simp at hbl; exact hbl.symm
    obtain ⟨_, _, heff⟩ := block_free_effect r.2.2.1 w2.os ij.1 ij.2 pool block
      (by rw [hi]; exact hpl) (by rw [hj]; exact hbl)
    have hzero : usub pool.size (uadd block.size header_size) ≤ 0 := by
      rw [hpool, hblock]
      simp only [uadd, usub, W, header_size]; omega
    have hnil : (akMemoryBlockFree r.2.2.1 w2.os ij.1 ij.2).1.pools = [] := by
      rcases heff with ⟨_, hn⟩ | ⟨h, _⟩
      · exact absurd hzero hn
      · rw [h, hp2, hi]; rfl
    have hg3 : (akFree w2 p).2.2.g_map
        = some (akMemoryBlockFree r.2.2.1 w2.os ij.1 ij.2).1 := by rw [hres]
    refine ⟨by rw [hg3]; simp only [Option.map_some', hnil], ?_⟩
    intro s1
    exact akAlloc_no_pool_static _ _ s1 hg3 hnil
      (by rw [block_free_params, hpar2]; exact hd)

/-- C29, an instance of `preallocated_pool_not_retained`: `akInit(1, 300, first-fit,
non-dynamic)`, `p = akAlloc(100)`, `akFree(p)`. -/
theorem preallocated_pool_not_retained_witness :
    ((akInit (World.boot [4096, 8192]) 1 300 ⟨ALLOK_FIRST_FIT, false⟩).1 = ALLOK_SUCCESS ∧
      akAlloc (akInit (World.boot [4096, 8192]) 1 300 ⟨ALLOK_FIRST_FIT, false⟩).2 100
        = some (ALLOK_SUCCESS, some 8296, world_one_block ALLOK_FIRST_FIT) ∧
      (akFree (world_one_block ALLOK_FIRST_FIT) 8296).1 = ALLOK_SUCCESS) ∧
    (akFree (world_one_block ALLOK_FIRST_FIT) 8296).2.2.g_map.map (fun m => m.pools)
      = some [] ∧
    ∀ s1, akAlloc (akFree (world_one_block ALLOK_FIRST_FIT) 8296).2.2 s1
      = some (ALLOK_INSUFFICIENT_POOL_MEMORY, none,
          (akFree (world_one_block ALLOK_FIRST_FIT) 8296).2.2) :=
  ⟨⟨by decide, by decide, by decide⟩,
   preallocated_pool_not_retained (World.boot [4096, 8192]) ALLOK_FIRST_FIT 300 100 8296
     (world_one_block ALLOK_FIRST_FIT) (by decide) (by decide) (by decide)⟩

/-! ## Block free and pool reclamation -/

theorem mem_insert_block (b x : AkMemoryBlock) :
    ∀ l : List AkMemoryBlock, x ∈ insert_block b l ↔ x = b ∨ x ∈ l
  | [] => by simp [insert_block]
  | c :: rest => by
    unfold insert_block
    by_cases h : c.addr < b.addr
    · rw [if_pos h]
      simp only [List.mem_cons, mem_insert_block b x rest]
      constructor
      · rintro (h1 | h1 | h1)
        · exact Or.inr (Or.inl h1)
        · exact Or.inl h1
        · exact Or.inr (Or.inr h1)
      · rintro (h1 | h1 | h1)
        · exact Or.inr (Or.inl h1)
        · exact Or.inl h1
        · exact Or.inr (Or.inr h1)
    · rw [if_neg h]
      simp only [List.mem_cons]

theorem insert_block_sorted (b : AkMemoryBlock) :
    ∀ l : List AkMemoryBlock, addr_sorted l → (∀ x ∈ l, x.addr ≠ b.addr) →
      addr_sorted (insert_block b l)
  | [], _, _ => by simp [insert_block, addr_sorted]
  | c :: rest, hs, hne => by
    unfold addr_sorted at hs ⊢
    rw [List.pairwise_cons] at hs
    unfold insert_block
    by_cases h : c.addr < b.addr
    · rw [if_pos h, List.pairwise_cons]
      refine ⟨?_, insert_block_sorted b rest hs.2
        (fun x hx => hne x (List.mem_cons_of_mem _ hx))⟩
      intro x hx
      rcases (mem_insert_block b x rest).1 hx with h1 | h1
      · rw [h1]; exact h
      · exact hs.1 x h1
    · rw [if_neg h, List.pairwise_cons, List.pairwise_cons]
      have hcb : b.addr < c.addr := by
        have := hne c (List.mem_cons_self _ _)
        omega
      refine ⟨?_, hs⟩
      intro x hx
      rcases List.mem_cons.1 hx with h1 | h1
      · rw [h1]; exact hcb
      · exact Nat.lt_trans hcb (hs.1 x h1)

theorem insert_block_perm (b : AkMemoryBlock) :
    ∀ l : List AkMemoryBlock, (insert_block b l).Perm (b :: l)
  | [] => List.Perm.refl _
  | c :: rest => by
    unfold insert_block
    by_cases h : c.addr < b.addr
    · rw [if_pos h]
      exact ((insert_block_perm b rest).cons c).trans (List.Perm.swap b c rest)
    · rw [if_neg h]

theorem insert_block_position (b : AkMemoryBlock) :
    ∀ l : List AkMemoryBlock, insert_block b l
      = l.takeWhile (fun c => decide (c.addr < b.addr)) ++
          b :: l.dropWhile (fun c => decide (c.addr < b.addr))
  | [] => rfl
  | c :: rest => by
    unfold insert_block
    by_cases h : c.addr < b.addr
    · rw [if_pos h, insert_block_position b rest]
      simp [List.takeWhile, List.dropWhile, h]
    · rw [if_neg h]
      simp [List.takeWhile, List.dropWhile, h]

/-- C21, what `akMemoryBlockCreate` computes when the pointer sum `p_start + offset` does
not wrap: it returns `ALLOK_INSUFFICIENT_POOL_MEMORY`, with the
pool unchanged, exactly when `(offset + size + header_size) mod 2 ^ W > alloc_size`.
Otherwise it returns `ALLOK_SUCCESS`; the new block sits at `p_start + offset` with
`p_start = address + header_size`; the block list is the old one with the new block
after the blocks at lower addresses and before the others, which, for a list in strict
address order and an address that holds no header yet, is again in strict address order
with the same blocks plus the new one; `pool.size` becomes
`(size_before + size + header_size) mod 2 ^ W`; and through the parent map
`blocks_created` rises by one. -/
theorem block_create_contract (p : AkMemoryPool) (size offset : Nat)
    (_hreg : p.p_start + offset + header_size < 2 ^ W) :
    ((akMemoryBlockCreate p size offset).1 = ALLOK_INSUFFICIENT_POOL_MEMORY ↔
      (offset + size + header_size) % 2 ^ W > p.alloc_size) ∧
    ((offset + size + header_size) % 2 ^ W > p.alloc_size →
      (akMemoryBlockCreate p size offset).2.1 = p) ∧
    (¬ (offset + size + header_size) % 2 ^ W > p.alloc_size →
      (akMemoryBlockCreate p size offset).1 = ALLOK_SUCCESS ∧
      (akMemoryBlockCreate p size offset).2.2 = some ⟨p.p_start + offset, size⟩ ∧
      (⟨p.p_start + offset, size⟩ : AkMemoryBlock).p_start
        = p.p_start + offset + header_size ∧
      (akMemoryBlockCreate p size offset).2.1.blocks
        = p.blocks.takeWhile (fun c => decide (c.addr < p.p_start + offset)) ++
            ⟨p.p_start + offset, size⟩ ::
              p.blocks.dropWhile (fun c => decide (c.addr < p.p_start + offset)) ∧
      (addr_sorted p.blocks → (∀ x ∈ p.blocks, x.addr ≠ p.p_start + offset) →
        addr_sorted (akMemoryBlockCreate p size offset).2.1.blocks ∧
        (akMemoryBlockCreate p size offset).2.1.blocks.Perm
          (⟨p.p_start + offset, size⟩ :: p.blocks)) ∧
      (akMemoryBlockCreate p size offset).2.1.size
        = (p.size + size + header_size) % 2 ^ W ∧
      (akMemoryBlockCreate p size offset).2.1.alloc_size = p.alloc_size ∧
      ∀ (m : AkMemoryMap) (i : Nat), m.pools[i]? = some p →
        (block_create_in_map m i size offset).1 = ALLOK_SUCCESS ∧
        (block_create_in_map m i size offset).2.1.metadata.blocks_created
          = m.metadata.blocks_created + 1 ∧
        (block_create_in_map m i size offset).2.1.pools
          = m.pools.set i (akMemoryBlockCreate p size offset).2.1) := by
  have hu : uadd (uadd offset size) header_size = (offset + size + header_size) % 2 ^ W := by
    simp only [uadd, W, header_size]; omega
  have hsz : uadd p.size (uadd size header_size) = (p.size + size + header_size) % 2 ^ W := by
    simp only [uadd, W, header_size]; omega
  refine ⟨?_, ?_, ?_⟩
  · unfold akMemoryBlockCreate
    rw [hu]
    dsimp only
    by_cases hc : (offset + size + header_size) % 2 ^ W > p.alloc_size
    · rw [if_pos hc]; exact ⟨fun _ => hc, fun _ => rfl⟩
    · rw [if_neg hc]
      exact ⟨fun h => by simp at h, fun h => absurd h hc⟩
  · intro hc
    unfold akMemoryBlockCreate
    rw [hu]
    dsimp only
    rw [if_pos hc]
  · intro hc
    have hc2 : ¬ uadd (uadd offset size) header_size > p.alloc_size := by rw [hu]; exact hc
    have hval : akMemoryBlockCreate p size offset
        = (ALLOK_SUCCESS,
           { p with blocks := insert_block ⟨p.p_start + offset, size⟩ p.blocks,
                    size := uadd p.size (uadd size header_size) },
           some ⟨p.p_start + offset, size⟩) := by
      unfold akMemoryBlockCreate
      dsimp only
      rw [if_neg hc2]
    rw [hval]
    refine ⟨rfl, rfl, rfl, insert_block_position _ _, ?_, hsz, rfl, ?_⟩
    · intro hs hne
      exact ⟨insert_block_sorted _ _ hs hne, insert_block_perm _ _⟩
    · intro m i hp
      rw [block_create_in_map_ok m i size offset p hp hc2]
      exact ⟨rfl, rfl, rfl⟩

/-- C21, an instance of `block_create_contract`: a block of 64 bytes at offset 0 of the pool
whose only block is at offset 140. -/
theorem block_create_contract_witness :
    (pool_prefix_gap.p_start + 0 + header_size < 2 ^ W ∧
      ¬ (0 + 64 + header_size) % 2 ^ W > pool_prefix_gap.alloc_size ∧
      addr_sorted pool_prefix_gap.blocks ∧
      (∀ x ∈ pool_prefix_gap.blocks, x.addr ≠ pool_prefix_gap.p_start + 0)) ∧
    (akMemoryBlockCreate pool_prefix_gap 64 0).1 = ALLOK_SUCCESS ∧
    (addr_sorted (akMemoryBlockCreate pool_prefix_gap 64 0).2.1.blocks ∧
      (akMemoryBlockCreate pool_prefix_gap 64 0).2.1.blocks.Perm
        (⟨pool_prefix_gap.p_start + 0, 64⟩ :: pool_prefix_gap.blocks)) :=
  ⟨⟨by decide, by decide, by decide, by decide⟩,
   ((block_create_contract pool_prefix_gap 64 0 (by decide)).2.2 (by decide)).1,
   ((block_create_contract pool_prefix_gap 64 0 (by decide)).2.2 (by decide)).2.2.2.2.1
     (by decide) (by decide)⟩

/-- C21: the bound test of `akMemoryBlockCreate` is defeated by a sum that wraps: for a
pool of 100 bytes, offset `0` and size `2 ^ 64 - 40`, `offset + size + header_size = 2 ^ 64`
exceeds `alloc_size`, and `akMemoryBlockCreate` returns `ALLOK_SUCCESS` and installs the
block. -/
theorem block_create_accepts_wrapped_size :
    0 + (2 ^ 64 - 40) + header_size > (⟨8192, 100, 0, []⟩ : AkMemoryPool).alloc_size ∧
    akMemoryBlockCreate ⟨8192, 100, 0, []⟩ (2 ^ 64 - 40) 0
      = (ALLOK_SUCCESS, ⟨8192, 100, 0, [⟨8256, 2 ^ 64 - 40⟩]⟩, some ⟨8256, 2 ^ 64 - 40⟩) := by
  decide

/-! ## Block creation after a chosen placement -/

theorem first_fit_loop_fits (p : AkMemoryPool) (need : Nat) (hA : p.alloc_size < 2 ^ W)
    (hreg : p.p_end < 2 ^ W) :
    ∀ (rest : List AkMemoryBlock) (prev : AkMemoryBlock) (off : Nat),
      p.p_start ≤ prev.p_end → blocks_ordered prev.p_end rest →
      last_end prev.p_end rest ≤ p.p_end →
      first_fit_loop p.p_start need prev rest = some (some off) →
      off + need ≤ p.alloc_size
  | [], prev, off, _, _, _, h => by simp [first_fit_loop] at h
  | curr :: rest, prev, off, h1, hord, hend, h => by
    obtain ⟨hpc, hord2⟩ := hord
    simp only [last_end] at hend
    have hpe : prev.p_start + prev.size = prev.p_end := rfl
    have hce : curr.addr ≤ curr.p_end := by
      simp only [AkMemoryBlock.p_end, AkMemoryBlock.p_start]; omega
    have hle := le_last_end rest curr.p_end hord2
    have hem : prev.p_end % 2 ^ W = prev.p_end := Nat.mod_eq_of_lt (by omega)
    have hd : ptr_diff prev.p_end p.p_start = prev.p_end - p.p_start := by
      apply ptr_diff_of_le _ _ h1
      simp only [AkMemoryPool.p_end, W] at *; omega
    have hm : (curr.addr - prev.p_end) % 2 ^ W = curr.addr - prev.p_end := by
      apply Nat.mod_eq_of_lt
      simp only [AkMemoryPool.p_end, W] at *; omega
    simp only [first_fit_loop, get_ptr_fragment, hpe, hem, hd, hm] at h
    rw [if_neg (by omega)] at h
    dsimp only at h
    by_cases hn : need ≤ curr.addr - prev.p_end
    · simp only [ge_iff_le, hn, if_true] at h
      have h3 : prev.p_end - p.p_start = off := by simpa using h
      simp only [AkMemoryPool.p_end] at *; omega
    · simp only [ge_iff_le, hn, if_false] at h
      exact first_fit_loop_fits p need hA hreg rest curr off (by omega) hord2 hend h

theorem best_fit_loop_fits (p : AkMemoryPool) (need : Nat) (hA : p.alloc_size < 2 ^ W)
    (hreg : p.p_end < 2 ^ W) :
    ∀ (rest : List AkMemoryBlock) (prev : AkMemoryBlock) (st st1 : ScanState),
      p.p_start ≤ prev.p_end → blocks_ordered prev.p_end rest →
      last_end prev.p_end rest ≤ p.p_end →
      (st.block_found = true → st.best_fit_offset + need ≤ p.alloc_size) →
      best_fit_loop p.p_start need st prev rest = some st1 →
      (st1.block_found = true → st1.best_fit_offset + need ≤ p.alloc_size)
  | [], prev, st, st1, _, _, _, hst, h => by
    simp only [best_fit_loop, Option.some.injEq] at h
    rw [← h]; exact hst
  | curr :: rest, prev, st, st1, h1, hord, hend, hst, h => by
    obtain ⟨hpc, hord2⟩ := hord
    simp only [last_end] at hend
    have hpe : prev.p_start + prev.size = prev.p_end := rfl
    have hce : curr.addr ≤ curr.p_end := by
      simp only [AkMemoryBlock.p_end, AkMemoryBlock.p_start]; omega
    have hle := le_last_end rest curr.p_end hord2
    have hem : prev.p_end % 2 ^ W = prev.p_end := Nat.mod_eq_of_lt (by omega)
    have hd : ptr_diff prev.p_end p.p_start = prev.p_end - p.p_start := by
      apply ptr_diff_of_le _ _ h1
      simp only [AkMemoryPool.p_end, W] at *; omega
    have hm : (curr.addr - prev.p_end) % 2 ^ W = curr.addr - prev.p_end := by
      apply Nat.mod_eq_of_lt
      simp only [AkMemoryPool.p_end, W] at *; omega
    simp only [best_fit_loop, get_ptr_fragment, hpe, hem, hd, hm] at h
    rw [if_neg (by omega)] at h
    dsimp only at h
    refine best_fit_loop_fits p need hA hreg rest curr _ st1 (by omega) hord2 hend ?_ h
    split
    · rename_i hc
      intro _
      dsimp only
      simp only [AkMemoryPool.p_end] at *; omega
    · exact hst

theorem worst_fit_loop_fits (p : AkMemoryPool) (need : Nat) (hA : p.alloc_size < 2 ^ W)
    (hreg : p.p_end < 2 ^ W) :
    ∀ (rest : List AkMemoryBlock) (prev : AkMemoryBlock) (st st1 : ScanState),
      p.p_start ≤ prev.p_end → blocks_ordered prev.p_end rest →
      last_end prev.p_end rest ≤ p.p_end →
      (st.block_found = true → st.best_fit_offset + need ≤ p.alloc_size) →
      worst_fit_loop p.p_start need st prev rest = some st1 →
      (st1.block_found = true → st1.best_fit_offset + need ≤ p.alloc_size)
  | [], prev, st, st1, _, _, _, hst, h => by
    simp only [worst_fit_loop, Option.some.injEq] at h
    rw [← h]; exact hst
  | curr :: rest, prev, st, st1, h1, hord, hend, hst, h => by
    obtain ⟨hpc, hord2⟩ := hord
    simp only [last_end] at hend
    have hpe : prev.p_start + prev.size = prev.p_end := rfl
    have hce : curr.addr ≤ curr.p_end := by
      simp only [AkMemoryBlock.p_end, AkMemoryBlock.p_start]; omega
    have hle := le_last_end rest curr.p_end hord2
    have hem : prev.p_end % 2 ^ W = prev.p_end := Nat.mod_eq_of_lt (by omega)
    have hd : ptr_diff prev.p_end p.p_start = prev.p_end - p.p_start := by
      apply ptr_diff_of_le _ _ h1
      simp only [AkMemoryPool.p_end, W] at *; omega
    have hm : (curr.addr - prev.p_end) % 2 ^ W = curr.addr - prev.p_end := by
      apply Nat.mod_eq_of_lt
      simp only [AkMemoryPool.p_end, W] at *; omega
    simp only [worst_fit_loop, get_ptr_fragment, hpe, hem, hd, hm] at h
    rw [if_neg (by omega)] at h
    dsimp only at h
    refine worst_fit_loop_fits p need hA hreg rest curr _ st1 (by omega) hord2 hend ?_ h
    split
    · rename_i hc
      intro _
      dsimp only
      simp only [AkMemoryPool.p_end] at *; omega
    · exact hst

theorem getLast_p_end :
    ∀ (rest : List AkMemoryBlock) (prev : AkMemoryBlock),
      ((prev :: rest).getLast (List.cons_ne_nil prev rest)).p_end = last_end prev.p_end rest
  | [], _ => rfl
  | c :: rest, prev => by
    rw [List.getLast_cons_cons]
    exact getLast_p_end rest c

theorem tail_offset_fits (p : AkMemoryPool) (need : Nat) (hA : p.alloc_size < 2 ^ W)
    (hreg : p.p_end < 2 ^ W) (tail : AkMemoryBlock) (h1 : p.p_start ≤ tail.p_end)
    (h2 : tail.p_end ≤ p.p_end)
    (frag : Nat) (hf : tail_fragment p tail = some frag) (hn : frag ≥ need) :
    ptr_diff (tail.p_start + tail.size) p.p_start + need ≤ p.alloc_size := by
  have hpe : tail.p_start + tail.size = tail.p_end := rfl
  have hps : p.p_start + p.alloc_size = p.p_end := rfl
  have hd : ptr_diff tail.p_end p.p_start = tail.p_end - p.p_start := by
    apply ptr_diff_of_le _ _ h1
    simp only [AkMemoryPool.p_end, W] at *; omega
  have hm : (p.p_end - tail.p_end) % 2 ^ W = p.p_end - tail.p_end := by
    apply Nat.mod_eq_of_lt
    simp only [AkMemoryPool.p_end, W] at *; omega
  have hpm : p.p_end % 2 ^ W = p.p_end := Nat.mod_eq_of_lt hreg
  have hem : tail.p_end % 2 ^ W = tail.p_end := Nat.mod_eq_of_lt (by omega)
  simp only [tail_fragment, get_ptr_fragment, hpe, hps, hpm, hem, hm] at hf
  rw [if_neg (by omega)] at hf
  simp only [Option.some.injEq] at hf
  rw [hpe, hd]
  simp only [AkMemoryPool.p_end] at *; omega


theorem tail_bounds (p : AkMemoryPool) (head : AkMemoryBlock) (rest : List AkMemoryBlock)
    (hord : blocks_ordered p.p_start (head :: rest))
    (hend : last_end p.p_start (head :: rest) ≤ p.p_end) :
    p.p_start ≤ ((head :: rest).getLast (List.cons_ne_nil head rest)).p_end ∧
    ((head :: rest).getLast (List.cons_ne_nil head rest)).p_end ≤ p.p_end := by
  rw [getLast_p_end]
  have h1 := le_last_end rest head.p_end hord.2
  have h2 : head.addr ≤ head.p_end := by
    simp only [AkMemoryBlock.p_end, AkMemoryBlock.p_start]; omega
  have h3 := hord.1
  simp only [last_end] at hend
  exact ⟨by omega, hend⟩

theorem alloc_first_fit_fits (p : AkMemoryPool) (s off : Nat)
    (hwf : p.well_formed) (hreg : p.p_end < 2 ^ W) (hs : s + header_size < 2 ^ W)
    (h : alloc_first_fit p s = some (some off)) :
    off + (s + header_size) ≤ p.alloc_size := by
  have hu : uadd header_size s = s + header_size := by
    simp only [uadd, W] at *; omega
  obtain ⟨hord, hend, hA⟩ := hwf
  unfold alloc_first_fit at h
  rw [hu] at h
  rcases hb : p.blocks with _ | ⟨head, rest⟩
  · rw [hb] at h
    dsimp only at h
    by_cases hn : s + header_size ≤ p.alloc_size
    · simp [hn] at h; omega
    · simp [hn] at h
  · rw [hb] at h hord hend
    dsimp only at h
    have htb := tail_bounds p head rest hord hend
    obtain ⟨hph, hord2⟩ := hord
    simp only [last_end] at hend
    have hle := le_last_end rest head.p_end hord2
    have hhe : head.addr ≤ head.p_end := by
      simp only [AkMemoryBlock.p_end, AkMemoryBlock.p_start]; omega
    have hm : (head.addr - p.p_start) % 2 ^ W = head.addr - p.p_start := by
      apply Nat.mod_eq_of_lt
      simp only [AkMemoryPool.p_end, W] at *; omega
    have hp0 : p.p_start % 2 ^ W = p.p_start := by
      apply Nat.mod_eq_of_lt
      simp only [AkMemoryPool.p_end, W] at *; omega
    simp only [get_ptr_fragment, Nat.add_zero, hp0, hm] at h
    rw [if_neg (by omega)] at h
    dsimp only at h
    by_cases hn : s + header_size ≤ head.addr - p.p_start
    · simp only [ge_iff_le, hn, if_true, Option.some.injEq] at h
      simp only [AkMemoryPool.p_end] at *; omega
    · simp only [ge_iff_le, hn, if_false] at h
      unfold first_fit_tail at h
      dsimp only at h
      rcases hl : first_fit_loop p.p_start (s + header_size) head rest with _ | r
      · rw [hl] at h; simp at h
      · rcases r with _ | o
        · rw [hl] at h
          dsimp only at h
          rcases htf : tail_fragment p ((head :: rest).getLast (List.cons_ne_nil head rest))
            with _ | frag
          · rw [htf] at h; simp at h
          · rw [htf] at h
            dsimp only at h
            by_cases hn2 : s + header_size ≤ frag
            · simp only [ge_iff_le, hn2, if_true, Option.some.injEq] at h
              rw [← h]
              exact tail_offset_fits p _ hA hreg _ htb.1 htb.2 frag htf hn2
            · simp [hn2] at h
        · rw [hl] at h
          simp only [Option.some.injEq] at h
          rw [← h]
          exact first_fit_loop_fits p _ hA hreg rest head o (by omega) hord2 hend hl

theorem alloc_best_fit_fits (p : AkMemoryPool) (s off : Nat)
    (hwf : p.well_formed) (hreg : p.p_end < 2 ^ W) (hs : s + header_size < 2 ^ W)
    (h : alloc_best_fit p s = some (some off)) :
    off + (s + header_size) ≤ p.alloc_size := by
  have hu : uadd header_size s = s + header_size := by
    simp only [uadd, W] at *; omega
  obtain ⟨hord, hend, hA⟩ := hwf
  unfold alloc_best_fit at h
  rw [hu] at h
  rcases hb : p.blocks with _ | ⟨head, rest⟩
  · rw [hb] at h
    dsimp only at h
    by_cases hn : s + header_size ≤ p.alloc_size
    · simp [hn] at h; omega
    · simp [hn] at h
  · rw [hb] at h hord hend
    dsimp only at h
    have htb := tail_bounds p head rest hord hend
    obtain ⟨hph, hord2⟩ := hord
    simp only [last_end] at hend
    have hhe : head.addr ≤ head.p_end := by
      simp only [AkMemoryBlock.p_end, AkMemoryBlock.p_start]; omega
    split at h
    · simp at h
    · rename_i st hl
      have hinv := best_fit_loop_fits p _ hA hreg rest head _ st (by omega) hord2 hend
        (by intro hbf; exfalso; revert hbf; split <;> [split; skip] <;> simp) hl
      rcases htf : tail_fragment p ((head :: rest).getLast (List.cons_ne_nil head rest))
        with _ | frag
      · rw [htf] at h
        dsimp only at h
        by_cases hbf : st.block_found = true
        · simp only [hbf, if_true, Option.some.injEq] at h
          rw [← h]; exact hinv hbf
        · simp [hbf] at h
      · rw [htf] at h
        dsimp only at h
        by_cases hc : frag ≥ s + header_size ∧ frag < st.best_size
        · simp only [hc, and_self, if_true, Option.some.injEq] at h
          rw [← h]
          exact tail_offset_fits p _ hA hreg _ htb.1 htb.2 frag htf hc.1
        · simp only [hc, if_false] at h
          by_cases hbf : st.block_found = true
          · simp only [hbf, if_true, Option.some.injEq] at h
            rw [← h]; exact hinv hbf
          · simp [hbf] at h

theorem alloc_worst_fit_fits (p : AkMemoryPool) (s off : Nat)
    (hwf : p.well_formed) (hreg : p.p_end < 2 ^ W) (hs : s + header_size < 2 ^ W)
    (h : alloc_worst_fit p s = some (some off)) :
    off + (s + header_size) ≤ p.alloc_size := by
  have hu : uadd header_size s = s + header_size := by
    simp only [uadd, W] at *; omega
  obtain ⟨hord, hend, hA⟩ := hwf
  unfold alloc_worst_fit at h
  rw [hu] at h
  rcases hb : p.blocks with _ | ⟨head, rest⟩
  · rw [hb] at h
    dsimp only at h
    by_cases hn : s + header_size ≤ p.alloc_size
    · simp [hn] at h; omega
    · simp [hn] at h
  · rw [hb] at h hord hend
    dsimp only at h
    have htb := tail_bounds p head rest hord hend
    obtain ⟨hph, hord2⟩ := hord
    simp only [last_end] at hend
    have hhe : head.addr ≤ head.p_end := by
      simp only [AkMemoryBlock.p_end, AkMemoryBlock.p_start]; omega
    split at h
    · simp at h
    · rename_i st hl
      have hinv := worst_fit_loop_fits p _ hA hreg rest head _ st (by omega) hord2 hend
        (by intro hbf; exfalso; revert hbf; split <;> [split; skip] <;> simp) hl
      rcases htf : tail_fragment p ((head :: rest).getLast (List.cons_ne_nil head rest))
        with _ | frag
      · rw [htf] at h
        dsimp only at h
        by_cases hbf : st.block_found = true
        · simp only [hbf, if_true, Option.some.injEq] at h
          rw [← h]; exact hinv hbf
        · simp [hbf] at h
      · rw [htf] at h
        dsimp only at h
        by_cases hc : frag ≥ s + header_size ∧ frag > st.best_size
        · simp only [hc, and_self, if_true, Option.some.injEq] at h
          rw [← h]
          exact tail_offset_fits p _ hA hreg _ htb.1 htb.2 frag htf hc.1
        · simp only [hc, if_false] at h
          by_cases hbf : st.block_found = true
          · simp only [hbf, if_true, Option.some.injEq] at h
            rw [← h]; exact hinv hbf
          · simp [hbf] at h


theorem alloc_linear_fit_fits (p : AkMemoryPool) (s off : Nat)
    (hacc : p.accounted) (hs : s + header_size < 2 ^ W)
    (hcap : usub p.alloc_size p.size ≥ uadd header_size s)
    (h : alloc_linear_fit p s = some off) :
    ¬ uadd (uadd off s) header_size > p.alloc_size := by
  obtain ⟨h1, h2, h3⟩ := hacc
  unfold alloc_linear_fit at h
  rcases hl : p.blocks.getLast? with _ | tail
  · rw [hl] at h
    simp only [Option.some.injEq] at h
    rw [List.getLast?_eq_none_iff] at hl
    rw [hl] at h1
    simp only [block_sum] at h1
    rw [← h]
    simp only [uadd, usub, W, header_size] at *
    omega
  · rw [hl] at h
    dsimp only at h
    have ho : ptr_diff (tail.p_start + tail.size) p.p_start < 2 ^ W :=
      Nat.mod_lt _ (by decide)
    generalize ptr_diff (tail.p_start + tail.size) p.p_start = o at h ho
    split at h
    · simp at h
    · rename_i hc
      simp only [Option.some.injEq] at h
      subst h
      simp only [uadd, W, header_size] at *
      omega

theorem find_block_fit_fits (type : AllokType) (p : AkMemoryPool) (s off : Nat)
    (hwf : p.well_formed) (hreg : p.p_end < 2 ^ W) (hacc : p.accounted)
    (hs : s + header_size < 2 ^ W)
    (hcap : usub p.alloc_size p.size ≥ uadd header_size s)
    (h : find_block_fit type p s = some (some off)) :
    ¬ uadd (uadd off s) header_size > p.alloc_size := by
  have hA := hwf.2.2
  cases type
  · simp only [find_block_fit, Option.some.injEq] at h
    exact alloc_linear_fit_fits p s off hacc hs hcap h
  · have h2 := alloc_first_fit_fits p s off hwf hreg hs h
    simp only [uadd, W, header_size] at *
    omega
  · have h2 := alloc_best_fit_fits p s off hwf hreg hs h
    simp only [uadd, W, header_size] at *
    omega
  · have h2 := alloc_worst_fit_fits p s off hwf hreg hs h
    simp only [uadd, W, header_size] at *
    omega

theorem pool_alloc_failure (os : Os) (m : AkMemoryMap) (size : Nat)
    (h : (akMemoryPoolAlloc os m size).1 ≠ ALLOK_SUCCESS) :
    (akMemoryPoolAlloc os m size).2.1 = m := by
  unfold akMemoryPoolAlloc at h ⊢
  dsimp only at h ⊢
  by_cases h0 : (os_mem_alloc os (uadd size pool_header_size)).1 = 0
  · rw [if_pos h0]
  · rw [if_neg h0] at h; exact absurd rfl h

/-- C27, the states in which the claim does hold: in `akAlloc` on a map all of whose pools
are well formed, end below `2 ^ W` and satisfy the accounting invariant (`size` is the sum
over the blocks of `size + header_size`), for every policy and every size with
`size + header_size < 2 ^ W`: if the pool scan accepts a pair (pool, offset),
`akMemoryBlockCreate` on it returns `ALLOK_SUCCESS`; when `akMemoryPoolAlloc` has appended
a fresh pool, the `akMemoryBlockCreate` call on that pool at offset `0` returns
`ALLOK_SUCCESS`; hence a call of `akAlloc` that returns an error leaves the map exactly as
it was. -/
theorem block_create_after_placement (w : World) (m : AkMemoryMap) (size : Nat)
    (hg : w.g_map = some m)
    (hwf : ∀ p ∈ m.pools, p.well_formed ∧ p.p_end < 2 ^ W ∧ p.accounted)
    (hs : size + header_size < 2 ^ W) :
    (∀ i off,
      scan_pools m.params.type size (uadd header_size size) m.pools = some (some (i, off)) →
      (block_create_in_map m i size off).1 = ALLOK_SUCCESS) ∧
    ((akMemoryPoolAlloc w.os m
        (max_size ALLOK_DEFAULT_POOL_SIZE (uadd header_size size))).1 = ALLOK_SUCCESS →
      (block_create_in_map
        (akMemoryPoolAlloc w.os m
          (max_size ALLOK_DEFAULT_POOL_SIZE (uadd header_size size))).2.1
        ((akMemoryPoolAlloc w.os m
          (max_size ALLOK_DEFAULT_POOL_SIZE (uadd header_size size))).2.1.pools.length - 1)
        size 0).1 = ALLOK_SUCCESS) ∧
    (∀ r, akAlloc w size = some r → r.1 ≠ ALLOK_SUCCESS → r.2.2.g_map = some m) := by
  have part1 : ∀ i off,
      scan_pools m.params.type size (uadd header_size size) m.pools = some (some (i, off)) →
      (block_create_in_map m i size off).1 = ALLOK_SUCCESS := by
    intro i off hscan
    obtain ⟨p, hp, hcap, hf⟩ := scan_pools_some _ _ _ _ _ _ hscan
    have hmem := List.getElem?_mem hp
    have hfit := find_block_fit_fits _ p size off (hwf p hmem).1 (hwf p hmem).2.1
      (hwf p hmem).2.2 hs hcap hf
    rw [block_create_in_map_ok m i size off p hp hfit]
  have part2 : (akMemoryPoolAlloc w.os m
        (max_size ALLOK_DEFAULT_POOL_SIZE (uadd header_size size))).1 = ALLOK_SUCCESS →
      (block_create_in_map
        (akMemoryPoolAlloc w.os m
          (max_size ALLOK_DEFAULT_POOL_SIZE (uadd header_size size))).2.1
        ((akMemoryPoolAlloc w.os m
          (max_size ALLOK_DEFAULT_POOL_SIZE (uadd header_size size))).2.1.pools.length - 1)
        size 0).1 = ALLOK_SUCCESS := by
    intro hok
    obtain ⟨a, ha⟩ := pool_alloc_last _ _ _ hok
    have hchk : ¬ uadd (uadd 0 size) header_size
        > max_size ALLOK_DEFAULT_POOL_SIZE (uadd header_size size) := by
      simp only [uadd, max_size, W, header_size, ALLOK_DEFAULT_POOL_SIZE] at *
      split <;> omega
    have hget : (akMemoryPoolAlloc w.os m
          (max_size ALLOK_DEFAULT_POOL_SIZE (uadd header_size size))).2.1.pools[
        (akMemoryPoolAlloc w.os m
          (max_size ALLOK_DEFAULT_POOL_SIZE (uadd header_size size))).2.1.pools.length - 1]?
        = some ⟨a, max_size ALLOK_DEFAULT_POOL_SIZE (uadd header_size size), 0, []⟩ := by
      rw [ha]; simp
    rw [block_create_in_map_ok _ _ size 0 _ hget hchk]
  refine ⟨part1, part2, ?_⟩
  intro r hr hne
  rw [akAlloc_of_map w m size hg] at hr
  rcases ha : alloc_in_map m w.os size with _ | x
  · rw [ha] at hr; simp at hr
  · rw [ha] at hr
    simp only [Option.map_some', Option.some.injEq] at hr
    rw [← hr] at hne ⊢
    dsimp only at hne ⊢
    congr 1
    unfold alloc_in_map at ha
    dsimp only at ha
    rcases hscan : scan_pools m.params.type size (uadd header_size size) m.pools
      with _ | found
    · rw [hscan] at ha; simp at ha
    · rw [hscan] at ha
      rcases found with _ | ⟨i, off⟩
      · dsimp only at ha
        by_cases hd : m.params.is_dynamic = false
        · rw [if_pos hd] at ha
          simp only [Option.some.injEq] at ha
          rw [← ha]
        · rw [if_neg hd] at ha
          by_cases hpa : (akMemoryPoolAlloc w.os m
              (max_size ALLOK_DEFAULT_POOL_SIZE (uadd header_size size))).1 ≠ ALLOK_SUCCESS
          · rw [if_pos hpa] at ha
            simp only [Option.some.injEq] at ha
            rw [← ha]
            exact pool_alloc_failure _ _ _ hpa
          · rw [if_neg hpa] at ha
            have hok := part2 (not_not.1 hpa)
            rw [if_neg (not_not.2 hok)] at ha
            simp only [Option.some.injEq] at ha
            rw [← ha] at hne
            exact absurd rfl hne
      · dsimp only at ha
        have hok := part1 i off hscan
        rw [if_neg (not_not.2 hok)] at ha
        simp only [Option.some.injEq] at ha
        rw [← ha] at hne
        exact absurd rfl hne

/-- C27, an instance of `block_create_after_placement`: the first-fit map with one pool of
300 bytes holding one block at offset 140, and a request of 64 bytes, which the scan places
at offset 0 of that pool. -/
theorem block_create_after_placement_witness :
    ((world_after_free_a ALLOK_FIRST_FIT).g_map = some
        ⟨⟨ALLOK_FIRST_FIT, false⟩, ⟨2, 1, 1, 0⟩, 2, [pool_prefix_gap]⟩ ∧
      (∀ p ∈ [pool_prefix_gap], p.well_formed ∧ p.p_end < 2 ^ W ∧ p.accounted) ∧
      64 + header_size < 2 ^ W ∧
      scan_pools ALLOK_FIRST_FIT 64 (uadd header_size 64) [pool_prefix_gap]
        = some (some (0, 0))) ∧
    (block_create_in_map ⟨⟨ALLOK_FIRST_FIT, false⟩, ⟨2, 1, 1, 0⟩, 2, [pool_prefix_gap]⟩
      0 64 0).1 = ALLOK_SUCCESS ∧
    ((akMemoryPoolAlloc (world_after_free_a ALLOK_FIRST_FIT).os
        ⟨⟨ALLOK_FIRST_FIT, false⟩, ⟨2, 1, 1, 0⟩, 2, [pool_prefix_gap]⟩
        (max_size ALLOK_DEFAULT_POOL_SIZE (uadd header_size 64))).1 = ALLOK_SUCCESS ∧
      (block_create_in_map
        (akMemoryPoolAlloc (world_after_free_a ALLOK_FIRST_FIT).os
          ⟨⟨ALLOK_FIRST_FIT, false⟩, ⟨2, 1, 1, 0⟩, 2, [pool_prefix_gap]⟩
          (max_size ALLOK_DEFAULT_POOL_SIZE (uadd header_size 64))).2.1
        ((akMemoryPoolAlloc (world_after_free_a ALLOK_FIRST_FIT).os
          ⟨⟨ALLOK_FIRST_FIT, false⟩, ⟨2, 1, 1, 0⟩, 2, [pool_prefix_gap]⟩
          (max_size ALLOK_DEFAULT_POOL_SIZE (uadd header_size 64))).2.1.pools.length - 1)
        64 0).1 = ALLOK_SUCCESS) :=
  ⟨⟨by decide, by decide, by decide, by decide⟩,
   (block_create_after_placement (world_after_free_a ALLOK_FIRST_FIT)
      ⟨⟨ALLOK_FIRST_FIT, false⟩, ⟨2, 1, 1, 0⟩, 2, [pool_prefix_gap]⟩ 64
      (by decide) (by decide) (by decide)).1 0 0 (by decide),
   by decide,
   (block_create_after_placement (world_after_free_a ALLOK_FIRST_FIT)
      ⟨⟨ALLOK_FIRST_FIT, false⟩, ⟨2, 1, 1, 0⟩, 2, [pool_prefix_gap]⟩ 64
      (by decide) (by decide) (by decide)).2.1 (by decide)⟩

/-! ## Best-fit scenario -/

theorem frag_eq (x n y d : Nat) (h : x + n + d = y) (hy : y < 2 ^ W) :
    get_ptr_fragment x n y = some d := by
  have e : (x + n) % 2 ^ W = x + n := Nat.mod_eq_of_lt (by omega)
  unfold get_ptr_fragment
  dsimp only
  rw [e, if_neg (by omega)]
  congr 1
  have : y - (x + n) = d := by omega
  rw [this]
  exact Nat.mod_eq_of_lt (by omega)

theorem ptr_diff_eq (x y d : Nat) (h : y + d = x) (hd : d < 2 ^ W) : ptr_diff x y = d := by
  rw [ptr_diff_of_le x y (by omega) (by omega)]
  omega

theorem best_fit_two_blocks (a c sz S1 g S2 s : Nat) (hs : s + header_size < 2 ^ W)
    (hfit : (S1 + header_size) + g + (S2 + header_size) ≤ c) (hc : c < 2 ^ W)
    (hreg : a + pool_header_size + c < 2 ^ W) :
    alloc_best_fit ⟨a, c, sz, [⟨a + pool_header_size, S1⟩,
        ⟨a + pool_header_size + (S1 + header_size) + g, S2⟩]⟩ s
      = some (
          if s + header_size ≤ g ∧ g < c then
            (if s + header_size ≤ c - ((S1 + header_size) + g + (S2 + header_size)) ∧
                c - ((S1 + header_size) + g + (S2 + header_size)) < g then
              some ((S1 + header_size) + g + (S2 + header_size))
            else some (S1 + header_size))
          else
            (if s + header_size ≤ c - ((S1 + header_size) + g + (S2 + header_size)) ∧
                c - ((S1 + header_size) + g + (S2 + header_size)) < c then
              some ((S1 + header_size) + g + (S2 + header_size))
            else none)) := by
  have hu : uadd header_size s = s + header_size := by
    simp only [uadd, W] at *; omega
  have g0 : get_ptr_fragment (a + pool_header_size) 0 (a + pool_header_size) = some 0 :=
    frag_eq _ _ _ 0 (by omega) (by omega)
  have g1 : get_ptr_fragment (a + pool_header_size + header_size) S1
      (a + pool_header_size + (S1 + header_size) + g) = some g :=
    frag_eq _ _ _ g (by omega) (by omega)
  have g2 : get_ptr_fragment (a + pool_header_size + (S1 + header_size) + g + header_size) S2
      (a + pool_header_size + c)
      = some (c - ((S1 + header_size) + g + (S2 + header_size))) :=
    frag_eq _ _ _ _ (by omega) hreg
  have d1 : ptr_diff (a + pool_header_size + header_size + S1) (a + pool_header_size)
      = S1 + header_size :=
    ptr_diff_eq _ _ _ (by omega) (by simp only [W, header_size] at *; omega)
  have d2 : ptr_diff (a + pool_header_size + (S1 + header_size) + g + header_size + S2)
      (a + pool_header_size) = (S1 + header_size) + g + (S2 + header_size) :=
    ptr_diff_eq _ _ _ (by omega) (by simp only [W, header_size] at *; omega)
  have hn0 : ¬ 0 ≥ s + header_size := by simp only [header_size]; omega
  have hpm : (a + pool_header_size + c) % 2 ^ W = a + pool_header_size + c :=
    Nat.mod_eq_of_lt hreg
  unfold alloc_best_fit
  simp only [hu, AkMemoryPool.p_start, AkMemoryBlock.p_start, g0, hn0, if_false,
    best_fit_loop, g1, List.getLast_cons_cons, List.getLast_singleton, tail_fragment, hpm,
    g2, d1, d2, ge_iff_le]
  by_cases h1 : s + header_size ≤ g ∧ g < c
  · simp only [h1, and_self, if_true]
    by_cases h2 : s + header_size ≤ c - ((S1 + header_size) + g + (S2 + header_size)) ∧
        c - ((S1 + header_size) + g + (S2 + header_size)) < g
    · simp only [h2, and_self, if_true]
    · simp only [h2, if_false]
  · simp only [h1, if_false]
    by_cases h2 : s + header_size ≤ c - ((S1 + header_size) + g + (S2 + header_size)) ∧
        c - ((S1 + header_size) + g + (S2 + header_size)) < c
    · simp only [h2, and_self, if_true]
    · simp only [h2, if_false, Bool.false_eq_true]


theorem best_fit_one_block (a c sz S1 s : Nat) (hs : s + header_size < 2 ^ W)
    (hfit : S1 + header_size ≤ c) (hc : c < 2 ^ W)
    (hreg : a + pool_header_size + c < 2 ^ W) :
    alloc_best_fit ⟨a, c, sz, [⟨a + pool_header_size, S1⟩]⟩ s
      = some (
          if s + header_size ≤ c - (S1 + header_size) ∧ c - (S1 + header_size) < c then
            some (S1 + header_size)
          else none) := by
  have hu : uadd header_size s = s + header_size := by
    simp only [uadd, W] at *; omega
  have g0 : get_ptr_fragment (a + pool_header_size) 0 (a + pool_header_size) = some 0 :=
    frag_eq _ _ _ 0 (by omega) (by omega)
  have g2 : get_ptr_fragment (a + pool_header_size + header_size) S1
      (a + pool_header_size + c) = some (c - (S1 + header_size)) :=
    frag_eq _ _ _ _ (by omega) hreg
  have d1 : ptr_diff (a + pool_header_size + header_size + S1) (a + pool_header_size)
      = S1 + header_size :=
    ptr_diff_eq _ _ _ (by omega) (by simp only [W, header_size] at *; omega)
  have hn0 : ¬ 0 ≥ s + header_size := by simp only [header_size]; omega
  have hpm : (a + pool_header_size + c) % 2 ^ W = a + pool_header_size + c :=
    Nat.mod_eq_of_lt hreg
  unfold alloc_best_fit
  simp only [hu, AkMemoryPool.p_start, AkMemoryBlock.p_start, g0, hn0, if_false,
    best_fit_loop, List.getLast_singleton, tail_fragment, hpm, g2, d1, ge_iff_le]
  by_cases h2 : s + header_size ≤ c - (S1 + header_size) ∧ c - (S1 + header_size) < c
  · simp only [h2, and_self, if_true]
  · simp only [h2, if_false, Bool.false_eq_true]

theorem alloc_single (w : World) (type : AllokType) (dynamic : Bool) (p : AkMemoryPool)
    (s off : Nat) (hw : w.single_pool type dynamic p)
    (hcap : usub p.alloc_size p.size ≥ uadd header_size s)
    (hfit : find_block_fit type p s = some (some off))
    (hchk : ¬ uadd (uadd off s) header_size > p.alloc_size) :
    ∃ w1, akAlloc w s = some (ALLOK_SUCCESS, some (p.p_start + off + header_size), w1) ∧
      w1.single_pool type dynamic
        { p with blocks := insert_block ⟨p.p_start + off, s⟩ p.blocks,
                 size := uadd p.size (uadd s header_size) } := by
  obtain ⟨m, hg, hpar, hpools⟩ := hw
  have hty : m.params.type = type := by rw [hpar]
  have hscan : scan_pools m.params.type s (uadd header_size s) m.pools
      = some (some (0, off)) := by
    rw [hpools, scan_pools_single, if_pos hcap, hty, hfit]
  have hp : m.pools[0]? = some p := by rw [hpools]; rfl
  rw [akAlloc_of_map w m s hg, alloc_in_map_found m w.os s 0 off p hscan hp hchk]
  refine ⟨_, rfl, map_with_block m 0 p s off, rfl, hpar, ?_⟩
  simp only [map_with_block, hpools, List.set_cons_zero]

theorem free_single (w : World) (type : AllokType) (dynamic : Bool) (p : AkMemoryPool)
    (ptr j : Nat) (b : AkMemoryBlock) (hw : w.single_pool type dynamic p)
    (hptr : ptr ≠ 0) (hrange : is_ptr_in_range ptr p.p_start p.alloc_size = true)
    (hfind : find_in_blocks ptr p.blocks = some j) (hb : p.blocks[j]? = some b)
    (hsz : ¬ usub p.size (uadd b.size header_size) ≤ 0) :
    ∃ w1, akFree w ptr = (ALLOK_SUCCESS, 0, w1) ∧
      w1.single_pool type dynamic
        { p with blocks := p.blocks.eraseIdx j,
                 size := usub p.size (uadd b.size header_size) } := by
  obtain ⟨m, hg, hpar, hpools⟩ := hw
  have hp : m.pools[0]? = some p := by rw [hpools]; rfl
  have hfp : find_in_pools ptr m.pools = some (0, j) := by
    rw [hpools]
    simp only [find_in_pools, hrange, if_true, hfind]
  unfold akFree
  rw [hg]
  dsimp only
  unfold akMemoryBlockFind
  rw [if_neg hptr, hfp]
  dsimp only
  unfold akMemoryBlockFree
  rw [hp]
  dsimp only
  rw [hb]
  dsimp only
  rw [if_neg hsz]
  refine ⟨_, rfl, _, rfl, hpar, ?_⟩
  simp only [hpools, List.set_cons_zero]


/-- C23 (amended): after a successful `akInit(1, c, best-fit, dynamic = false)` with
`c < 2 ^ W` whose pool ends below `2 ^ W` (`p_start + c < 2 ^ W`, so that no pointer sum
wraps), for every block size `S` with `3 * (S + header_size) ≤ c` and every request
`s ≤ S`: `a = akAlloc(S)`, `b = akAlloc(S)`, `c = akAlloc(S)` succeed with payload
addresses `S + header_size` apart (so `a < b < c`), `akFree(b)` succeeds, and the next
`akAlloc(s)` succeeds.  It returns exactly the address `b` had, unless the tail gap of
`c - 3 * (S + header_size)` bytes admits `s + header_size` bytes and is strictly smaller
than the `S + header_size` bytes left by `b`; in that case the new block is placed at the
start of the tail gap, right behind the third block. -/
theorem best_fit_reuses_freed_gap (w0 : World) (c S s : Nat)
    (h0 : (akInit w0 1 c ⟨ALLOK_BEST_FIT, false⟩).1 = ALLOK_SUCCESS)
    (hreg : (akInit w0 1 c ⟨ALLOK_BEST_FIT, false⟩).2.pools_below_top)
    (hc : 3 * (S + header_size) ≤ c) (hc2 : c < 2 ^ W) (hs : s ≤ S) :
    ∃ a w1 w2 w3 w4 w5,
      akAlloc (akInit w0 1 c ⟨ALLOK_BEST_FIT, false⟩).2 S
        = some (ALLOK_SUCCESS, some (a + pool_header_size + header_size), w1) ∧
      akAlloc w1 S = some (ALLOK_SUCCESS,
        some (a + pool_header_size + (S + header_size) + header_size), w2) ∧
      akAlloc w2 S = some (ALLOK_SUCCESS,
        some (a + pool_header_size + 2 * (S + header_size) + header_size), w3) ∧
      akFree w3 (a + pool_header_size + (S + header_size) + header_size)
        = (ALLOK_SUCCESS, 0, w4) ∧
      akAlloc w4 s = some (ALLOK_SUCCESS,
        some (if s + header_size ≤ c - 3 * (S + header_size) ∧
                c - 3 * (S + header_size) < S + header_size
              then a + pool_header_size + 3 * (S + header_size) + header_size
              else a + pool_header_size + (S + header_size) + header_size), w5) := by
  obtain ⟨a, m, hg, hpar, hpools⟩ := akInit_fresh_pool w0 c ALLOK_BEST_FIT false h0
  have hR : a + pool_header_size + c < 2 ^ W := by
    unfold World.pools_below_top at hreg
    rw [hg] at hreg
    exact hreg ⟨a, c, 0, []⟩ (by rw [hpools]; exact List.mem_singleton.2 rfl)
  clear hreg
  have hS : S + header_size < 2 ^ W := by simp only [W, header_size] at *; omega
  have hs2 : s + header_size < 2 ^ W := by simp only [W, header_size] at *; omega
  have huS : uadd header_size S = S + header_size := by
    simp only [uadd, W, header_size] at *; omega
  have hus : uadd header_size s = s + header_size := by
    simp only [uadd, W, header_size] at *; omega
  -- first allocation, into the empty pool
  obtain ⟨w1, ha1, hw1⟩ := alloc_single _ ALLOK_BEST_FIT false ⟨a, c, 0, []⟩ S 0
    ⟨m, hg, hpar, hpools⟩
    (by simp only [uadd, usub, W, header_size] at *; omega)
    (find_block_fit_empty _ a c 0 S (by rw [huS]; simp only [header_size] at *; omega))
    (by simp only [uadd, W, header_size] at *; omega)
  have e1 : ({ (⟨a, c, 0, []⟩ : AkMemoryPool) with
        blocks := insert_block ⟨(⟨a, c, 0, []⟩ : AkMemoryPool).p_start + 0, S⟩ [],
        size := uadd 0 (uadd S header_size) } : AkMemoryPool)
      = ⟨a, c, S + header_size, [⟨a + pool_header_size, S⟩]⟩ := by
    simp only [insert_block, AkMemoryPool.p_start, AkMemoryPool.mk.injEq, true_and,
      Nat.add_zero, and_true]
    simp only [uadd, W, header_size] at *; omega
  rw [e1] at hw1
  -- second allocation, behind the first block
  have f2 : find_block_fit ALLOK_BEST_FIT
      ⟨a, c, S + header_size, [⟨a + pool_header_size, S⟩]⟩ S
      = some (some (S + header_size)) := by
    simp only [find_block_fit]
    rw [best_fit_one_block a c _ S S hS (by omega) hc2 hR,
      if_pos (by simp only [header_size] at *; omega)]
  obtain ⟨w2, ha2, hw2⟩ := alloc_single w1 ALLOK_BEST_FIT false _ S _ hw1
    (by simp only [uadd, usub, W, header_size] at *; omega) f2
    (by simp only [uadd, W, header_size] at *; omega)
  have e2 : ({ (⟨a, c, S + header_size, [⟨a + pool_header_size, S⟩]⟩ : AkMemoryPool) with
        blocks := insert_block
          ⟨(⟨a, c, S + header_size, [⟨a + pool_header_size, S⟩]⟩ : AkMemoryPool).p_start
            + (S + header_size), S⟩ [⟨a + pool_header_size, S⟩],
        size := uadd (S + header_size) (uadd S header_size) } : AkMemoryPool)
      = ⟨a, c, 2 * (S + header_size),
          [⟨a + pool_header_size, S⟩, ⟨a + pool_header_size + (S + header_size) + 0, S⟩]⟩ := by
    have hlt : a + pool_header_size < a + pool_header_size + (S + header_size) := by
      simp only [header_size]; omega
    simp only [insert_block, AkMemoryPool.p_start, AkMemoryPool.mk.injEq, true_and,
      Nat.add_zero, and_true, hlt, if_true]
    simp only [uadd, W, header_size] at *; omega
  rw [e2] at hw2
  -- third allocation, behind the second block
  have f3 : find_block_fit ALLOK_BEST_FIT
      ⟨a, c, 2 * (S + header_size),
        [⟨a + pool_header_size, S⟩, ⟨a + pool_header_size + (S + header_size) + 0, S⟩]⟩ S
      = some (some ((S + header_size) + 0 + (S + header_size))) := by
    simp only [find_block_fit]
    rw [best_fit_two_blocks a c _ S 0 S S hS (by omega) hc2 hR,
      if_neg (by simp only [header_size] at *; omega),
      if_pos (by simp only [header_size] at *; omega)]
  obtain ⟨w3, ha3, hw3⟩ := alloc_single w2 ALLOK_BEST_FIT false _ S _ hw2
    (by simp only [uadd, usub, W, header_size] at *; omega) f3
    (by simp only [uadd, W, header_size] at *; omega)
  have e3 : ({ (⟨a, c, 2 * (S + header_size),
          [⟨a + pool_header_size, S⟩, ⟨a + pool_header_size + (S + header_size) + 0, S⟩]⟩
          : AkMemoryPool) with
        blocks := insert_block
          ⟨(⟨a, c, 2 * (S + header_size),
              [⟨a + pool_header_size, S⟩, ⟨a + pool_header_size + (S + header_size) + 0, S⟩]⟩
              : AkMemoryPool).p_start + ((S + header_size) + 0 + (S + header_size)), S⟩
          [⟨a + pool_header_size, S⟩, ⟨a + pool_header_size + (S + header_size) + 0, S⟩],
        size := uadd (2 * (S + header_size)) (uadd S header_size) } : AkMemoryPool)
      = ⟨a, c, 3 * (S + header_size),
          [⟨a + pool_header_size, S⟩, ⟨a + pool_header_size + (S + header_size), S⟩,
           ⟨a + pool_header_size + (S + header_size) + (S + header_size), S⟩]⟩ := by
    simp only [insert_block, AkMemoryPool.p_start, AkMemoryPool.mk.injEq, true_and,
      Nat.add_zero]
    refine ⟨?_, ?_⟩
    · simp only [uadd, W, header_size] at *; omega
    · rw [if_pos (by simp only [header_size]; omega),
        if_pos (by simp only [header_size]; omega)]
      simp only [List.cons.injEq, AkMemoryBlock.mk.injEq, and_true, true_and]
      omega
  rw [e3] at hw3
  -- release of the second block
  have hb_ne : a + pool_header_size + header_size
      ≠ a + pool_header_size + (S + header_size) + header_size := by
    simp only [header_size]; omega
  have hrange : is_ptr_in_range (a + pool_header_size + (S + header_size) + header_size)
      (a + pool_header_size) c = true := by
    unfold is_ptr_in_range
    rw [if_neg (by simp only [header_size, pool_header_size]; omega), Nat.mod_eq_of_lt hR]
    exact decide_eq_true ⟨by omega, by simp only [header_size] at hc ⊢; omega⟩
  have hfind : find_in_blocks (a + pool_header_size + (S + header_size) + header_size)
      [⟨a + pool_header_size, S⟩, ⟨a + pool_header_size + (S + header_size), S⟩,
       ⟨a + pool_header_size + (S + header_size) + (S + header_size), S⟩] = some 1 := by
    have hne : (⟨a + pool_header_size, S⟩ : AkMemoryBlock).p_start
        ≠ a + pool_header_size + (S + header_size) + header_size := hb_ne
    have heq : (⟨a + pool_header_size + (S + header_size), S⟩ : AkMemoryBlock).p_start
        = a + pool_header_size + (S + header_size) + header_size := rfl
    rw [find_in_blocks, if_neg hne, find_in_blocks, if_pos heq]
    rfl
  have hptr : a + pool_header_size + (S + header_size) + header_size ≠ 0 := by
    simp only [header_size]; omega
  have huS2 : uadd S header_size = S + header_size := by
    rw [uadd]; exact Nat.mod_eq_of_lt hS
  have hsub : usub (3 * (S + header_size)) (uadd S header_size) = 2 * (S + header_size) := by
    rw [huS2]
    show ptr_diff (3 * (S + header_size)) (S + header_size) = _
    rw [ptr_diff_of_le _ _ (by omega) (by omega)]
    omega
  have hsz : ¬ usub (3 * (S + header_size)) (uadd S header_size) ≤ 0 := by
    rw [hsub]; simp only [header_size]; omega
  obtain ⟨w4, ha4, hw4⟩ := free_single w3 ALLOK_BEST_FIT false
    ⟨a, c, 3 * (S + header_size),
      [⟨a + pool_header_size, S⟩, ⟨a + pool_header_size + (S + header_size), S⟩,
       ⟨a + pool_header_size + (S + header_size) + (S + header_size), S⟩]⟩
    (a + pool_header_size + (S + header_size) + header_size) 1
    ⟨a + pool_header_size + (S + header_size), S⟩ hw3 hptr hrange hfind rfl hsz
  have e4 : ({ (⟨a, c, 3 * (S + header_size),
          [⟨a + pool_header_size, S⟩, ⟨a + pool_header_size + (S + header_size), S⟩,
           ⟨a + pool_header_size + (S + header_size) + (S + header_size), S⟩]⟩
          : AkMemoryPool) with
        blocks := List.eraseIdx
          [⟨a + pool_header_size, S⟩, ⟨a + pool_header_size + (S + header_size), S⟩,
           ⟨a + pool_header_size + (S + header_size) + (S + header_size), S⟩] 1,
        size := usub (3 * (S + header_size))
          (uadd (⟨a + pool_header_size + (S + header_size), S⟩ : AkMemoryBlock).size
            header_size) } : AkMemoryPool)
      = ⟨a, c, 2 * (S + header_size),
          [⟨a + pool_header_size, S⟩,
           ⟨a + pool_header_size + (S + header_size) + (S + header_size), S⟩]⟩ := by
    simp only [List.eraseIdx, AkMemoryPool.mk.injEq, true_and, and_true]
    exact hsub
  rw [e4] at hw4
  -- the request of `s` bytes
  have f5 : find_block_fit ALLOK_BEST_FIT
      ⟨a, c, 2 * (S + header_size),
        [⟨a + pool_header_size, S⟩,
         ⟨a + pool_header_size + (S + header_size) + (S + header_size), S⟩]⟩ s
      = some (some (if s + header_size ≤ c - 3 * (S + header_size) ∧
                      c - 3 * (S + header_size) < S + header_size
                    then 3 * (S + header_size) else S + header_size)) := by
    have e : (S + header_size) + (S + header_size) + (S + header_size)
        = 3 * (S + header_size) := by omega
    simp only [find_block_fit]
    rw [best_fit_two_blocks a c _ S (S + header_size) S s hs2 (by omega) hc2 hR,
      if_pos (by simp only [header_size] at *; omega), e]
    split <;> rfl
  obtain ⟨w5, ha5, _⟩ := alloc_single w4 ALLOK_BEST_FIT false _ s _ hw4
    (by simp only [uadd, usub, W, header_size] at *; omega) f5
    (by
      split
      · rename_i h
        simp only [uadd, W, header_size] at *; omega
      · simp only [uadd, W, header_size] at *; omega)
  refine ⟨a, w1, w2, w3, w4, w5, ha1, ?_, ?_, ha4, ?_⟩
  · rw [ha2]; rfl
  · rw [ha3]
    simp only [AkMemoryPool.p_start, Option.some.injEq, Prod.mk.injEq, true_and, and_true]
    omega
  · rw [ha5]
    simp only [AkMemoryPool.p_start, Option.some.injEq, Prod.mk.injEq, true_and, and_true]
    split <;> omega


/-- C23, witness of `best_fit_reuses_freed_gap`: a pool of 1024 bytes, three blocks of 100
bytes and a request of 64 bytes in a fresh process. -/
theorem best_fit_reuses_freed_gap_witness :
    ((akInit (World.boot [4096, 8192, 16384, 32768]) 1 1024 ⟨ALLOK_BEST_FIT, false⟩).1
        = ALLOK_SUCCESS ∧
      (akInit (World.boot [4096, 8192, 16384, 32768]) 1 1024
        ⟨ALLOK_BEST_FIT, false⟩).2.pools_below_top ∧
      3 * (100 + header_size) ≤ 1024 ∧ 1024 < 2 ^ W ∧ 64 ≤ 100) ∧
    ∃ a w1 w2 w3 w4 w5,
      akAlloc (akInit (World.boot [4096, 8192, 16384, 32768]) 1 1024
          ⟨ALLOK_BEST_FIT, false⟩).2 100
        = some (ALLOK_SUCCESS, some (a + pool_header_size + header_size), w1) ∧
      akAlloc w1 100 = some (ALLOK_SUCCESS,
        some (a + pool_header_size + (100 + header_size) + header_size), w2) ∧
      akAlloc w2 100 = some (ALLOK_SUCCESS,
        some (a + pool_header_size + 2 * (100 + header_size) + header_size), w3) ∧
      akFree w3 (a + pool_header_size + (100 + header_size) + header_size)
        = (ALLOK_SUCCESS, 0, w4) ∧
      akAlloc w4 64 = some (ALLOK_SUCCESS,
        some (if 64 + header_size ≤ 1024 - 3 * (100 + header_size) ∧
                1024 - 3 * (100 + header_size) < 100 + header_size
              then a + pool_header_size + 3 * (100 + header_size) + header_size
              else a + pool_header_size + (100 + header_size) + header_size), w5) :=
  ⟨⟨by decide, by decide, by decide, by decide, by decide⟩,
   best_fit_reuses_freed_gap (World.boot [4096, 8192, 16384, 32768]) 1024 100 64
     (by decide) (by decide) (by decide) (by decide) (by decide)⟩

/-- C23, the scenario of the claim evaluated: after `akInit(1, 1024, best-fit,
non-dynamic)`, `a = akAlloc(100)` (payload 8296), `b = akAlloc(100)` (payload 8436),
`c = akAlloc(100)` (payload 8576), `akFree(b)`, the call `akAlloc(64)` succeeds and
returns 8436, the address `b` had, strictly between the payload addresses of `a` and
`c`. -/
theorem best_fit_scenario :
    (run (world_one_pool 1024 ALLOK_BEST_FIT false)
        [Op.alloc 100, Op.alloc 100, Op.alloc 100, Op.free 8436]).map
      (fun w => w.g_map.map (fun m => (m.pools, m.metadata)))
      = some (some ([{ addr := 8192, alloc_size := 1024, size := 280,
                       blocks := [⟨8256, 100⟩, ⟨8536, 100⟩] }], ⟨3, 1, 1, 0⟩)) ∧
    ((run (world_one_pool 1024 ALLOK_BEST_FIT false)
        [Op.alloc 100, Op.alloc 100, Op.alloc 100, Op.free 8436]).bind
      (fun w => akAlloc w 64)).map
      (fun r => (r.1, r.2.1, r.2.2.g_map.map (fun m => m.pools)))
      = some (ALLOK_SUCCESS, some 8436,
          some [{ addr := 8192, alloc_size := 1024, size := 384,
                  blocks := [⟨8256, 100⟩, ⟨8396, 64⟩, ⟨8536, 100⟩] }]) ∧
    (⟨8256, 100⟩ : AkMemoryBlock).p_start < 8436 ∧
    8436 < (⟨8536, 100⟩ : AkMemoryBlock).p_start := by
  decide

/-- C23, counterexample to the general part of the claim as stated: with three blocks of
250 bytes in the pool of 1024 bytes (`a` at payload 8296, `b` at 8586, `c` at 8876) and
`b` freed, the request `akAlloc(100)`, of a size below 250, is placed at 9166 in the tail
gap behind `c`, not at 8586 in the gap left by `b`: the tail gap has 154 bytes, fewer
than the 290 bytes of the gap left by `b`, and admits the 140 bytes requested. -/
theorem best_fit_prefers_smaller_tail_gap :
    100 ≤ 250 ∧
    (run (world_one_pool 1024 ALLOK_BEST_FIT false)
        [Op.alloc 250, Op.alloc 250, Op.alloc 250, Op.free 8586]).map
      (fun w => w.g_map.map (fun m => (m.pools, m.metadata)))
      = some (some ([{ addr := 8192, alloc_size := 1024, size := 580,
                       blocks := [⟨8256, 250⟩, ⟨8836, 250⟩] }], ⟨3, 1, 1, 0⟩)) ∧
    ((run (world_one_pool 1024 ALLOK_BEST_FIT false)
        [Op.alloc 250, Op.alloc 250, Op.alloc 250, Op.free 8586]).bind
      (fun w => akAlloc w 100)).map
      (fun r => (r.1, r.2.1, r.2.2.g_map.map (fun m => m.pools)))
      = some (ALLOK_SUCCESS, some 9166,
          some [{ addr := 8192, alloc_size := 1024, size := 720,
                  blocks := [⟨8256, 250⟩, ⟨8836, 250⟩, ⟨9126, 100⟩] }]) ∧
    (⟨8836, 250⟩ : AkMemoryBlock).p_end = 9126 ∧
    (⟨8836, 250⟩ : AkMemoryBlock).p_start < 9166 := by
  decide

/-! ## Preallocated pool holding a block that cannot be found -/

/-- C29: `akInit(1, 40, first-fit, non-dynamic)`, `p = akAlloc(0)`, `akFree(p)`.  The
allocation succeeds with payload address 8296, the end of the pool region; `akFree`
returns `ALLOK_NOT_FOUND` because `is_ptr_in_range` tests `addr < end`, so the block
stays and the preallocated pool is still in the pool list. -/
theorem preallocated_pool_kept_when_free_fails :
    (akInit (World.boot [4096, 8192]) 1 40 ⟨ALLOK_FIRST_FIT, false⟩).1 = ALLOK_SUCCESS ∧
    (akAlloc (akInit (World.boot [4096, 8192]) 1 40 ⟨ALLOK_FIRST_FIT, false⟩).2 0).map
      (fun r => (r.1, r.2.1, r.2.2.g_map.map (fun m => m.pools)))
      = some (ALLOK_SUCCESS, some 8296, some [⟨8192, 40, 40, [⟨8256, 0⟩]⟩]) ∧
    (akAlloc (akInit (World.boot [4096, 8192]) 1 40 ⟨ALLOK_FIRST_FIT, false⟩).2 0).map
      (fun r => ((akFree r.2.2 8296).1,
        (akFree r.2.2 8296).2.2.g_map.map (fun m => m.pools)))
      = some (ALLOK_NOT_FOUND, some [⟨8192, 40, 40, [⟨8256, 0⟩]⟩]) ∧
    (⟨8256, 0⟩ : AkMemoryBlock).p_start = 8296 ∧
    (⟨8192, 40, 40, [⟨8256, 0⟩]⟩ : AkMemoryPool).p_end = 8296 := by
  decide

/-! ## Reachable states outside the invariants -/

/-- C23, the pool whose end wraps: after `akInit(1, 2 ^ 64 - 1, best-fit, non-dynamic)` and
`a = akAlloc(100)`, the pointer sum `p_start + alloc_size` is 8255, below the end 8396 of
`a`, so the suffix check of `alloc_best_fit` fails and the second `akAlloc(100)` returns
`ALLOK_INSUFFICIENT_POOL_MEMORY` although `3 * (100 + header_size) ≤ alloc_size`. -/
theorem best_fit_fails_when_pool_end_wraps :
    3 * (100 + header_size) ≤ 2 ^ 64 - 1 ∧
    (run (world_one_pool (2 ^ 64 - 1) ALLOK_BEST_FIT false) [Op.alloc 100]).map
      (fun w => (w.g_map.map (fun m => m.pools),
        (akAlloc w 100).map (fun r => (r.1, r.2.1))))
      = some (some [⟨8192, 2 ^ 64 - 1, 140, [⟨8256, 100⟩]⟩],
          some (ALLOK_INSUFFICIENT_POOL_MEMORY, none)) ∧
    ((⟨8192, 2 ^ 64 - 1, 140, [⟨8256, 100⟩]⟩ : AkMemoryPool).p_start + (2 ^ 64 - 1)) % 2 ^ W
      = 8255 ∧
    ¬ (⟨8192, 2 ^ 64 - 1, 140, [⟨8256, 100⟩]⟩ : AkMemoryPool).p_end < 2 ^ W := by
  decide

/-- C20: `akInit(1, 8192, first-fit, non-dynamic)`, `x = akAlloc(0)`, `y = akAlloc(100)`,
`akRealloc(y, 2 ^ 64 - 80)`, `akRealloc(y, 0)`, `u = akAlloc(40)`, `v = akAlloc(0)`.  The
pool then holds four live blocks, `v` with payload address 8456, and `pool.size = 40`.
`akFree(v)` returns `ALLOK_SUCCESS` and nulls the handle, and `pool.size` reaches `0`, so
the whole pool is released: four blocks are removed by the one call, `x`, `y` and `u`
among them. -/
theorem akFree_releases_pool_with_live_blocks :
    (run (world_one_pool 8192 ALLOK_FIRST_FIT false)
        [Op.alloc 0, Op.alloc 100, Op.realloc 8336 (2 ^ 64 - 80), Op.realloc 8336 0,
         Op.alloc 40, Op.alloc 0]).map
      (fun w => (w.g_map.map (fun m => m.pools), w.g_map.map live_blocks))
      = some (some [{ addr := 8192, alloc_size := 8192, size := 40,
                      blocks := [⟨8256, 0⟩, ⟨8296, 0⟩, ⟨8336, 40⟩, ⟨8416, 0⟩] }],
              some 4) ∧
    (⟨8416, 0⟩ : AkMemoryBlock).p_start = 8456 ∧
    (run (world_one_pool 8192 ALLOK_FIRST_FIT false)
        [Op.alloc 0, Op.alloc 100, Op.realloc 8336 (2 ^ 64 - 80), Op.realloc 8336 0,
         Op.alloc 40, Op.alloc 0]).map
      (fun w => ((akFree w 8456).1, (akFree w 8456).2.1,
        (akFree w 8456).2.2.g_map.map (fun m => m.pools),
        (akFree w 8456).2.2.g_map.map live_blocks))
      = some (ALLOK_SUCCESS, 0, some [], some 0) := by
  decide

/-- C26: `akInit(1, 8192, first-fit, non-dynamic)`, `x = akAlloc(200)`, `y = akAlloc(100)`,
`akRealloc(y, 2 ^ 64 - 200)`, `z = akAlloc(8)`, `akAlloc(8)` (every request with
`size + header_size < 2 ^ W`).  The tail-growth test of `akRealloc` wraps
(`380 + (2 ^ 64 - 300)` is `80`), so `y` grows in place to `2 ^ 64 - 200` bytes and the
end of its payload wraps to 8336, inside the payload of `x`; `z` is placed there, its
header `[8336, 8376)` touching no other header.  The list is now `x`, `z`, `y` with the
payload of `x` ending at 8496, above the header of `z`: `get_ptr_fragment` fails on the
interior pair (`x`, `z`), the `continue` does not advance, and the last `akAlloc(8)` never
returns; neither do the best-fit and worst-fit scans on this pool. -/
theorem fit_scan_never_returns_after_realloc :
    (∀ op ∈ [Op.alloc 200, Op.alloc 100, Op.realloc 8536 (2 ^ 64 - 200), Op.alloc 8,
        Op.alloc 8], op.size_ok) ∧
    (run (world_one_pool 8192 ALLOK_FIRST_FIT false)
        [Op.alloc 200, Op.alloc 100, Op.realloc 8536 (2 ^ 64 - 200), Op.alloc 8]).map
      (fun w => w.g_map.map (fun m => m.pools))
      = some (some [{ addr := 8192, alloc_size := 8192, size := 128,
                      blocks := [⟨8256, 200⟩, ⟨8336, 8⟩, ⟨8496, 2 ^ 64 - 200⟩] }]) ∧
    (run (world_one_pool 8192 ALLOK_FIRST_FIT false)
        [Op.alloc 200, Op.alloc 100, Op.realloc 8536 (2 ^ 64 - 200), Op.alloc 8]).map
      (fun w => akAlloc w 8) = some none ∧
    get_ptr_fragment (⟨8256, 200⟩ : AkMemoryBlock).p_start 200 8336 = none ∧
    alloc_first_fit ⟨8192, 8192, 128, [⟨8256, 200⟩, ⟨8336, 8⟩, ⟨8496, 2 ^ 64 - 200⟩]⟩ 8
      = none ∧
    alloc_best_fit ⟨8192, 8192, 128, [⟨8256, 200⟩, ⟨8336, 8⟩, ⟨8496, 2 ^ 64 - 200⟩]⟩ 8
      = none ∧
    alloc_worst_fit ⟨8192, 8192, 128, [⟨8256, 200⟩, ⟨8336, 8⟩, ⟨8496, 2 ^ 64 - 200⟩]⟩ 8
      = none ∧
    (8256 + header_size ≤ 8336 ∧ 8336 + header_size ≤ 8496) ∧
    ¬ blocks_ordered (8192 + pool_header_size)
        [⟨8256, 200⟩, ⟨8336, 8⟩, ⟨8496, 2 ^ 64 - 200⟩] := by
  decide

/-- C27: `akInit(1, 300, linear, dynamic)`, `a = akAlloc(100)`, `akRealloc(a, 0)`,
`akRealloc(a, 60)`, `akRealloc(a, 0)`, `akFree(a)`.  The shrink path of `akRealloc`
(`pool->size -= size - old_size`) adds to `pool.size`, which ends at 320 in the pool of
300 bytes without blocks; that pool is well formed.  On `akAlloc(1000)` the capacity test
`alloc_size - size >= 1040` wraps and passes, `alloc_linear_fit` answers offset `0`
without a bound test for the empty pool, so the scan accepts (pool 0, offset 0);
`akMemoryBlockCreate` then returns `ALLOK_INSUFFICIENT_POOL_MEMORY`, and `akAlloc` returns
that error on a dynamic map while the operating system would still grant a pool. -/
theorem linear_placement_rejected_by_block_create :
    (∀ op ∈ [Op.alloc 100, Op.realloc 8296 0, Op.realloc 8296 60, Op.realloc 8296 0,
        Op.free 8296, Op.alloc 1000], op.size_ok) ∧
    (run (world_one_pool 300 ALLOK_LINEAR_FIT true)
        [Op.alloc 100, Op.realloc 8296 0, Op.realloc 8296 60, Op.realloc 8296 0,
         Op.free 8296]).map
      (fun w => (w.g_map.map (fun m => (m.params, m.pools)), w.os.script))
      = some (some (⟨ALLOK_LINEAR_FIT, true⟩, [⟨8192, 300, 320, []⟩]), [16384, 32768]) ∧
    (⟨8192, 300, 320, []⟩ : AkMemoryPool).well_formed ∧
    (⟨8192, 300, 320, []⟩ : AkMemoryPool).p_end < 2 ^ W ∧
    scan_pools ALLOK_LINEAR_FIT 1000 (uadd header_size 1000) [⟨8192, 300, 320, []⟩]
      = some (some (0, 0)) ∧
    akMemoryBlockCreate ⟨8192, 300, 320, []⟩ 1000 0
      = (ALLOK_INSUFFICIENT_POOL_MEMORY, ⟨8192, 300, 320, []⟩, none) ∧
    (run (world_one_pool 300 ALLOK_LINEAR_FIT true)
        [Op.alloc 100, Op.realloc 8296 0, Op.realloc 8296 60, Op.realloc 8296 0,
         Op.free 8296]).map
      (fun w => (akAlloc w 1000).map
        (fun r => (r.1, r.2.1, r.2.2.g_map.map (fun m => m.pools))))
      = some (some (ALLOK_INSUFFICIENT_POOL_MEMORY, none, some [⟨8192, 300, 320, []⟩])) :=
  ⟨by decide, by decide, by decide, by decide, by decide, by decide, by decide⟩

end Allok
